import Mathlib

/-!
# anylink: validation and normalisation of a group record (`server/dbdata/group.go`)

A shallow embedding of `SetGroup` and of the helpers it relies on
(`parseIpNet`, `checkRadiusData`, `CheckDomainNames`, `ValidateDomainName`,
`ValidateIpPort`), followed by theorems about them.

Go strings are modelled by Lean strings (sequences of Unicode code points);
the byte-oriented library routines used by the source only ever distinguish
ASCII characters, so they are modelled on `List Char`.  Bytes are natural
numbers below 256 and a `net.IP` / `net.IPMask` is a list of bytes.

The routines of the Go standard library that the source calls
(`net.ParseCIDR`, `net.ParseIP`, `net.IP.String`, `strings.TrimSpace`,
`strings.Split`, `regexp.MatchString`) are embedded from the library's
sources (`net`, `net/netip`, `strings`, `regexp`).
-/

namespace Anylink

/-! ## Characters and small string helpers -/

deriving instance DecidableEq for Except

/-- ASCII decimal digit test, `'0' <= c && c <= '9'`. -/
def isDigit (c : Char) : Bool := decide (48 ≤ c.toNat) && decide (c.toNat ≤ 57)

/-- Value of an ASCII decimal digit, `int(c - '0')`. -/
def digitVal (c : Char) : Nat := c.toNat - 48

/-- Value of a hexadecimal digit as read by `netip.parseIPv6`, if `c` is one. -/
def hexVal (c : Char) : Option Nat :=
  if 48 ≤ c.toNat ∧ c.toNat ≤ 57 then some (c.toNat - 48)
  else if 97 ≤ c.toNat ∧ c.toNat ≤ 102 then some (c.toNat - 97 + 10)
  else if 65 ≤ c.toNat ∧ c.toNat ≤ 70 then some (c.toNat - 65 + 10)
  else none

/-- Index-free form of `strings.IndexByte` followed by slicing: the text before
the first occurrence of `sep` and the text after it, or `none` when `sep`
does not occur. -/
def cutAt (sep : Char) : List Char → Option (List Char × List Char)
  | [] => none
  | c :: cs =>
    if c = sep then some ([], cs)
    else match cutAt sep cs with
      | none => none
      | some (a, b) => some (c :: a, b)

/-! ## `net.dtoi` -/

/-- The constant `big` of package `net`. -/
def big : Nat := 0xFFFFFF

/-- The loop of `net.dtoi`: `n` is the number read so far and `i` the index
reached.  The result is `(n, i, ok)` as returned by `dtoi`. -/
def dtoiLoop : List Char → Nat → Nat → Nat × Nat × Bool
  | [], n, i => if i = 0 then (0, 0, false) else (n, i, true)
  | c :: cs, n, i =>
    if isDigit c then
      let n1 := n * 10 + digitVal c
      if n1 ≥ big then (big, i, false) else dtoiLoop cs n1 (i + 1)
    else if i = 0 then (0, 0, false) else (n, i, true)

/-- Decimal to integer, `net.dtoi`: returns the number, the count of
characters consumed and a success flag. -/
def dtoi (s : List Char) : Nat × Nat × Bool := dtoiLoop s 0 0

/-! ## `netip.ParseAddr` -/

/-- A parsed address, `netip.Addr`: an IPv4 address of four bytes or an IPv6
address of sixteen bytes with its zone. -/
inductive Addr where
  | v4 (b : List Nat)
  | v6 (b : List Nat) (zone : List Char)
  deriving DecidableEq, Repr

/-- The loop of `netip.parseIPv4Fields` over the remaining text.  `prev` is
the character before the current one (`none` at index 0).  Every error of
the original is `none`: the callers in this program drop the error detail. -/
def parseIPv4FieldsLoop :
    List Char → Option Char → Nat → Nat → Nat → List Nat → Option (List Nat)
  | [], _, val, pos, _, fields =>
    if pos < 3 then none else some (fields.set 3 val)
  | c :: rest, prev, val, pos, digLen, fields =>
    if isDigit c then
      if digLen = 1 ∧ val = 0 then none
      else
        let val1 := val * 10 + digitVal c
        if val1 > 255 then none
        else parseIPv4FieldsLoop rest (some c) val1 pos (digLen + 1) fields
    else if c = '.' then
      if prev = none ∨ rest = [] ∨ prev = some '.' then none
      else if pos = 3 then none
      else parseIPv4FieldsLoop rest (some c) 0 (pos + 1) 0 (fields.set pos val)
    else none

/-- Four decimal fields separated by dots, `netip.parseIPv4Fields`. -/
def parseIPv4Fields (s : List Char) : Option (List Nat) :=
  parseIPv4FieldsLoop s none 0 0 0 [0, 0, 0, 0]

/-- IPv4 text to address, `netip.parseIPv4`. -/
def parseIPv4 (s : List Char) : Option Addr :=
  match parseIPv4Fields s with
  | none => none
  | some f => some (Addr.v4 f)

/-- The inner loop of `netip.parseIPv6` reading one group of hexadecimal
digits: returns the accumulated value, the number of digits and the text
left, or `none` for a group that is too long or too large. -/
def hexLoop : List Char → Nat → Nat → Option (Nat × Nat × List Char)
  | [], acc, off => some (acc, off, [])
  | c :: cs, acc, off =>
    match hexVal c with
    | none => some (acc, off, c :: cs)
    | some d =>
      let acc1 := (acc * 16 + d) % 2 ^ 32
      if off > 3 then none
      else if acc1 > 65535 then none
      else hexLoop cs acc1 (off + 1)

/-- Write the four bytes `f` at index `i` of `ip`. -/
def put4 (ip : List Nat) (i : Nat) (f : List Nat) : List Nat :=
  (((ip.set i (f.getD 0 0)).set (i + 1) (f.getD 1 0)).set (i + 2) (f.getD 2 0)).set
    (i + 3) (f.getD 3 0)

/-- State at the exit of the main loop of `netip.parseIPv6`: the text left,
the byte index reached, the position of the ellipsis and the bytes. -/
structure V6State where
  s : List Char
  i : Nat
  ellipsis : Option Nat
  ip : List Nat
  deriving DecidableEq, Repr

/-- The main loop `for i < 16` of `netip.parseIPv6`.  The index `i` grows by
two per round, so the loop is indexed by the number `k` of groups that still
fit, with `i = 16 - 2 * k`; `k = 0` is the exit `i = 16`. -/
def parseIPv6Loop : Nat → List Char → Option Nat → List Nat → Option V6State
  | 0, s, ellipsis, ip => some ⟨s, 16, ellipsis, ip⟩
  | k + 1, s, ellipsis, ip =>
    let i := 16 - 2 * (k + 1)
    match hexLoop s 0 0 with
    | none => none
    | some (acc, off, rest) =>
      if off = 0 then none
      else if rest.head? = some '.' then
        if ellipsis = none ∧ i ≠ 12 then none
        else if i + 4 > 16 then none
        else match parseIPv4Fields s with
          | none => none
          | some f => some ⟨[], i + 4, ellipsis, put4 ip i f⟩
      else
        let ip1 := (ip.set i (acc / 256)).set (i + 1) (acc % 256)
        let i1 := i + 2
        match rest with
        | [] => some ⟨[], i1, ellipsis, ip1⟩
        | c :: s1 =>
          if c ≠ ':' then none
          else match s1 with
            | [] => none
            | c1 :: s2 =>
              if c1 = ':' then
                if ellipsis.isSome then none
                else match s2 with
                  | [] => some ⟨[], i1, some i1, ip1⟩
                  | _ :: _ => parseIPv6Loop k s2 (some i1) ip1
              else parseIPv6Loop k s1 ellipsis ip1

/-- The expansion of the ellipsis at the end of `netip.parseIPv6`: the bytes
`ip[ellipsis:i]` move up by `n = 16 - i` and the gap is cleared. -/
def expandEllipsis (ip : List Nat) (i ellipsis : Nat) : List Nat :=
  let n := 16 - i
  let moved := (List.range (i - ellipsis)).foldl
    (fun acc t => let j := i - 1 - t; acc.set (j + n) (acc.getD j 0)) ip
  (List.range n).foldl (fun acc t => acc.set (ellipsis + t) 0) moved

/-- IPv6 text to address, `netip.parseIPv6`. -/
def parseIPv6 (inp : List Char) : Option Addr :=
  let split : Option (List Char × List Char) :=
    match cutAt '%' inp with
    | none => some (inp, [])
    | some (a, z) => if z = [] then none else some (a, z)
  match split with
  | none => none
  | some (s0, zone) =>
    let lead : Bool := s0.take 2 = [':', ':']
    let s1 := if lead then s0.drop 2 else s0
    if lead ∧ s1 = [] then some (Addr.v6 (List.replicate 16 0) zone)
    else
      match parseIPv6Loop 8 s1 (if lead then some 0 else none) (List.replicate 16 0) with
      | none => none
      | some st =>
        if st.s ≠ [] then none
        else if st.i < 16 then
          match st.ellipsis with
          | none => none
          | some e => some (Addr.v6 (expandEllipsis st.ip st.i e) zone)
        else if st.ellipsis.isSome then none
        else some (Addr.v6 st.ip zone)

/-- The dispatch loop of `netip.ParseAddr`: the first of `.`, `:` and `%`
in the text decides how the whole text `s` is parsed. -/
def parseAddrScan (s : List Char) : List Char → Option Addr
  | [] => none
  | c :: cs =>
    if c = '.' then parseIPv4 s
    else if c = ':' then parseIPv6 s
    else if c = '%' then none
    else parseAddrScan s cs

/-- Text to address, `netip.ParseAddr`. -/
def ParseAddr (s : List Char) : Option Addr := parseAddrScan s s

/-- The zone of an address, `netip.Addr.Zone`. -/
def Addr.Zone : Addr → List Char
  | .v4 _ => []
  | .v6 _ z => z

/-- The bit length of an address, `netip.Addr.BitLen`. -/
def Addr.BitLen : Addr → Nat
  | .v4 _ => 32
  | .v6 _ _ => 128

/-- The prefix `v4InV6Prefix` of package `net`. -/
def v4InV6Prefix : List Nat := [0, 0, 0, 0, 0, 0, 0, 0, 0, 0, 0xff, 0xff]

/-- The 16-byte form of an address, `netip.Addr.As16`: an IPv4 address is
mapped into IPv6. -/
def Addr.As16 : Addr → List Nat
  | .v4 b => v4InV6Prefix ++ b
  | .v6 b _ => b

/-! ## `net.IP`, `net.IPMask`, `net.IPNet` -/

/-- The type `net.IPNet`: a network address and its mask. -/
structure IPNet where
  IP : List Nat
  Mask : List Nat
  deriving DecidableEq, Repr

/-- The loop of `net.CIDRMask` over the `l` bytes of the mask, `n` being the
number of one bits still to place. -/
def cidrMaskLoop : Nat → Nat → List Nat
  | 0, _ => []
  | l + 1, n =>
    if n ≥ 8 then 0xff :: cidrMaskLoop l (n - 8)
    else (255 - 255 / 2 ^ n) :: cidrMaskLoop l 0

/-- The mask of `ones` one bits in `bits` bits, `net.CIDRMask`; the empty
list stands for the `nil` result. -/
def CIDRMask (ones bits : Nat) : List Nat :=
  if bits ≠ 32 ∧ bits ≠ 128 then []
  else if ones > bits then []
  else cidrMaskLoop (bits / 8) ones

/-- The method `net.IP.Mask`; the empty list stands for the `nil` result. -/
def IPMaskApply (ip mask : List Nat) : List Nat :=
  let mask1 :=
    if mask.length = 16 ∧ ip.length = 4 ∧ (mask.take 12).all (fun b => b = 0xff)
    then mask.drop 12 else mask
  let ip1 :=
    if mask1.length = 4 ∧ ip.length = 16 ∧ ip.take 12 = v4InV6Prefix
    then ip.drop 12 else ip
  if ip1.length ≠ mask1.length then []
  else List.zipWith (fun a b => a &&& b) ip1 mask1

/-- The method `net.IP.To4`; the empty list stands for the `nil` result. -/
def To4 (ip : List Nat) : List Nat :=
  if ip.length = 4 then ip
  else if ip.length = 16 ∧ (ip.take 10).all (fun b => b = 0) ∧ ip.getD 10 0 = 0xff ∧
      ip.getD 11 0 = 0xff then ip.drop 12
  else []

/-- Decimal digits of a number, most significant first. -/
def decimal (n : Nat) : List Char := Nat.toDigits 10 n

/-- Lower-case hexadecimal digits of a number without leading zeros,
`netip.appendHex`. -/
def hex (n : Nat) : List Char := Nat.toDigits 16 n

/-- Dotted notation of four bytes, `netip.Addr.string4`. -/
def string4 (b : List Nat) : List Char :=
  decimal (b.getD 0 0) ++ '.' :: decimal (b.getD 1 0) ++ '.' :: decimal (b.getD 2 0) ++
    '.' :: decimal (b.getD 3 0)

/-- The 16-bit group number `i` of a sixteen byte address, `netip.Addr.v6u16`. -/
def v6u16 (b : List Nat) (i : Nat) : Nat := b.getD (2 * i) 0 * 256 + b.getD (2 * i + 1) 0

/-- The inner loop `for j < 8 && ip.v6u16(j) == 0` of `netip.Addr.appendTo6`:
the end of the run of zero groups that starts at `j`, with `fuel = 8 - j`. -/
def zeroRunEnd (b : List Nat) : Nat → Nat → Nat
  | 0, j => j
  | fuel + 1, j => if v6u16 b j = 0 then zeroRunEnd b fuel (j + 1) else j

/-- The first loop of `netip.Addr.appendTo6`: the longest run of at least two
zero groups, as `(zeroStart, zeroEnd)`; `(255, 255)` when there is none. -/
def zeroRun (b : List Nat) : Nat × Nat :=
  (List.range 8).foldl
    (fun (z : Nat × Nat) i =>
      let j := zeroRunEnd b (8 - i) i
      let l := j - i
      if l ≥ 2 ∧ l > z.2 - z.1 then (i, j) else z)
    (255, 255)

/-- The second loop `for i < 8` of `netip.Addr.appendTo6`, from group `i` on.
Every round advances `i`, so `fuel = 8` rounds are enough from `i = 0`. -/
def appendGroups (b : List Nat) (zeroStart zeroEnd : Nat) : Nat → Nat → List Char
  | 0, _ => []
  | fuel + 1, i =>
    if i ≥ 8 then []
    else if i = zeroStart then
      if zeroEnd ≥ 8 then [':', ':']
      else [':', ':'] ++ hex (v6u16 b zeroEnd) ++
        appendGroups b zeroStart zeroEnd fuel (zeroEnd + 1)
    else if i > 0 then ':' :: hex (v6u16 b i) ++ appendGroups b zeroStart zeroEnd fuel (i + 1)
    else hex (v6u16 b i) ++ appendGroups b zeroStart zeroEnd fuel (i + 1)

/-- Text of a sixteen byte address without zone, `netip.Addr.string6`. -/
def string6 (b : List Nat) : List Char :=
  appendGroups b (zeroRun b).1 (zeroRun b).2 8 0

/-- The function `hexString` of package `net`: two hexadecimal digits per byte. -/
def hexString (b : List Nat) : List Char :=
  b.flatMap (fun x => [(Nat.digitChar (x / 16)), (Nat.digitChar (x % 16))])

/-- The method `net.IP.String`. -/
def IPString (ip : List Nat) : String :=
  if ip.length = 0 then "<nil>"
  else if ip.length ≠ 4 ∧ ip.length ≠ 16 then String.mk ('?' :: hexString ip)
  else if (To4 ip).length = 4 then String.mk (string4 (To4 ip))
  else String.mk (string6 ip)

/-- The error `net.ParseError`; its message is
`"invalid " + Type + ": " + Text` (the field `Type` is named `Typ` here). -/
structure ParseError where
  Typ : String
  Text : String
  deriving DecidableEq, Repr

/-- The method `net.ParseError.Error`. -/
def ParseError.Error (e : ParseError) : String := "invalid " ++ e.Typ ++ ": " ++ e.Text

/-- CIDR text to address and network, `net.ParseCIDR`. -/
def ParseCIDR (s : String) : Except ParseError (List Nat × IPNet) :=
  match cutAt '/' s.data with
  | none => .error ⟨"CIDR address", s⟩
  | some (addr, mask) =>
    match ParseAddr addr with
    | none => .error ⟨"CIDR address", s⟩
    | some ipAddr =>
      if ipAddr.Zone ≠ [] then .error ⟨"CIDR address", s⟩
      else
        let r := dtoi mask
        if r.2.2 = false ∨ r.2.1 ≠ mask.length ∨ r.1 > ipAddr.BitLen then
          .error ⟨"CIDR address", s⟩
        else
          let m := CIDRMask r.1 ipAddr.BitLen
          let addr16 := ipAddr.As16
          .ok (addr16, ⟨IPMaskApply addr16 m, m⟩)

/-- Text to address, `net.ParseIP`; the empty list stands for the `nil`
result. -/
def ParseIP (s : String) : List Nat :=
  match ParseAddr s.data with
  | none => []
  | some ip => if ip.Zone ≠ [] then [] else ip.As16

/-! ## `parseIpNet` -/

/-- The function `parseIpNet` of `group.go`: the text `ip/mask` built by
`fmt.Sprintf("%s/%s", ip, mask)` from the parsed address and the mask of the
network, and the network. -/
def parseIpNet (s : String) : Except ParseError (String × IPNet) :=
  match ParseCIDR s with
  | .error err => .error err
  | .ok (ip, ipNet) =>
    let mask := ipNet.Mask
    let ipMask := IPString ip ++ "/" ++ IPString mask
    .ok (ipMask, ipNet)

/-! ## Regular expressions (`regexp`) -/

/-- The characters from `lo` to `hi`, a range `lo-hi` of a character class. -/
def charRange (lo hi : Char) : List Char :=
  (List.range (hi.toNat + 1 - lo.toNat)).map (fun k => Char.ofNat (lo.toNat + k))

/-- The part of the syntax of Go regular expressions that the two patterns of
`group.go` use: a character class, a literal character, concatenation,
alternation `a|b`, bounded repetition `r{min,max}` and `r+`. -/
inductive Regexp where
  | cls (cs : List Char)
  | chr (c : Char)
  | cat (a b : Regexp)
  | alt (a b : Regexp)
  | rep (r : Regexp) (min max : Nat)
  | plus (r : Regexp)

/-- At most `n` copies of `r`. -/
def upTo (r : RegularExpression Char) : Nat → RegularExpression Char
  | 0 => 1
  | n + 1 => 1 + r * upTo r n

/-- Exactly `n` copies of `r`, followed by `k`. -/
def exactly (r : RegularExpression Char) : Nat → RegularExpression Char → RegularExpression Char
  | 0, k => k
  | n + 1, k => r * exactly r n k

/-- The regular language of a pattern, as a regular expression over the
basic operators. -/
def Regexp.toRE : Regexp → RegularExpression Char
  | .cls cs => cs.foldr (fun c r => RegularExpression.char c + r) 0
  | .chr c => RegularExpression.char c
  | .cat a b => a.toRE * b.toRE
  | .alt a b => a.toRE + b.toRE
  | .rep r lo hi => exactly r.toRE lo (upTo r.toRE (hi - lo))
  | .plus r => r.toRE * RegularExpression.star r.toRE

/-- The method `regexp.Regexp.MatchString` for a pattern `^r$`: both ends are
anchored (without the flag `m`, `$` is the end of the text), so the text
matches when the whole of it is in the language of `r`. -/
def Regexp.MatchString (r : Regexp) (s : String) : Bool := r.toRE.rmatch s.data

/-- The class `[a-zA-Z0-9]`. -/
def clsAlnum : List Char := charRange 'a' 'z' ++ charRange 'A' 'Z' ++ charRange '0' '9'

/-- The class `[-a-zA-Z0-9]`. -/
def clsAlnumHyphen : List Char := '-' :: clsAlnum

/-- The class `[A-Za-z]`. -/
def clsAlpha : List Char := charRange 'A' 'Z' ++ charRange 'a' 'z'

/-- The class `\d`, which in Go is `[0-9]`. -/
def clsDigit : List Char := charRange '0' '9'

/-- The pattern of `ValidateDomainName`, between `^` and `$`:
`([a-zA-Z0-9][-a-zA-Z0-9]{0,62}\.)+[A-Za-z]{2,18}`. -/
def domainRegExp : Regexp :=
  .cat (.plus (.cat (.cls clsAlnum) (.cat (.rep (.cls clsAlnumHyphen) 0 62) (.chr '.'))))
    (.rep (.cls clsAlpha) 2 18)

/-- The function `ValidateDomainName` of `group.go`. -/
def ValidateDomainName (domain : String) : Bool := domainRegExp.MatchString domain

/-- The group `(\d{1,2}|1\d\d|2[0-4]\d|25[0-5])` of the pattern of
`ValidateIpPort`. -/
def octetRegExp : Regexp :=
  .alt (.rep (.cls clsDigit) 1 2)
    (.alt (.cat (.chr '1') (.cat (.cls clsDigit) (.cls clsDigit)))
      (.alt (.cat (.chr '2') (.cat (.cls (charRange '0' '4')) (.cls clsDigit)))
        (.cat (.chr '2') (.cat (.chr '5') (.cls (charRange '0' '5'))))))

/-- The group `([0-9]|[1-9]\d{1,3}|[1-5]\d{4}|6[0-5]{2}[0-3][0-5])` of the
pattern of `ValidateIpPort`. -/
def portRegExp : Regexp :=
  .alt (.cls (charRange '0' '9'))
    (.alt (.cat (.cls (charRange '1' '9')) (.rep (.cls clsDigit) 1 3))
      (.alt (.cat (.cls (charRange '1' '5')) (.rep (.cls clsDigit) 4 4))
        (.cat (.chr '6') (.cat (.rep (.cls (charRange '0' '5')) 2 2)
          (.cat (.cls (charRange '0' '3')) (.cls (charRange '0' '5')))))))

/-- The pattern of `ValidateIpPort`, between `^` and `$$`: four octet groups
separated by `\.`, then `\:` and the port group. -/
def ipPortRegExp : Regexp :=
  .cat octetRegExp (.cat (.chr '.') (.cat octetRegExp (.cat (.chr '.') (.cat octetRegExp
    (.cat (.chr '.') (.cat octetRegExp (.cat (.chr ':') portRegExp)))))))

/-- The function `ValidateIpPort` of `group.go`. -/
def ValidateIpPort (addr : String) : Bool := ipPortRegExp.MatchString addr

/-! ## `strings.TrimSpace`, `strings.Split` -/

/-- The function `unicode.IsSpace`. -/
def isSpace (c : Char) : Bool :=
  let n := c.toNat
  n = 0x09 || n = 0x0A || n = 0x0B || n = 0x0C || n = 0x0D || n = 0x20 || n = 0x85 ||
    n = 0xA0 || n = 0x1680 || (decide (0x2000 ≤ n) && decide (n ≤ 0x200A)) || n = 0x2028 ||
    n = 0x2029 || n = 0x202F || n = 0x205F || n = 0x3000

/-- The function `strings.TrimSpace`: the text without its leading and
trailing white space. -/
def TrimSpace (s : String) : String :=
  String.mk (((s.data.dropWhile isSpace).reverse.dropWhile isSpace).reverse)

/-- The pieces of a text between the occurrences of `sep`. -/
def splitChars (sep : Char) : List Char → List (List Char)
  | [] => [[]]
  | c :: cs =>
    if c = sep then [] :: splitChars sep cs
    else match splitChars sep cs with
      | [] => [[c]]
      | p :: ps => (c :: p) :: ps

/-- The call `strings.Split(s, ",")`. -/
def SplitComma (s : String) : List String := (splitChars ',' s.data).map String.mk

/-! ## `CheckDomainNames` -/

/-- The two errors of `CheckDomainNames`, each with the piece `val` it is
about: `val + " 请以逗号分隔域名"` for an empty piece and `val + " 域名有误"`
for a piece that is not a domain name. -/
inductive DomainError where
  | emptyPiece (val : String)
  | badName (val : String)
  deriving DecidableEq, Repr

/-- The loop of `CheckDomainNames` over the pieces. -/
def checkDomainLoop : List String → Option DomainError
  | [] => none
  | val :: rest =>
    if val = "" then some (.emptyPiece val)
    else if !ValidateDomainName val then some (.badName val)
    else checkDomainLoop rest

/-- The function `CheckDomainNames` of `group.go`; `none` is the `nil` error. -/
def CheckDomainNames (domains : String) : Option DomainError :=
  if domains = "" then none
  else checkDomainLoop (SplitComma domains)

/-! ## The data model of `group.go` -/

/-- The constant `All`. -/
def All : String := "all"

/-- The struct `ValData`. -/
structure ValData where
  Val : String
  IpMask : String
  Note : String
  deriving DecidableEq, Repr

/-- The struct `GroupLinkAcl`; `IpNet` is a pointer, `none` being `nil`. -/
structure GroupLinkAcl where
  Action : String
  Val : String
  Port : Nat
  IpNet : Option IPNet
  Note : String
  deriving DecidableEq, Repr

/-- The struct `AuthRadius`. -/
structure AuthRadius where
  Addr : String
  Secret : String
  deriving DecidableEq, Repr

/-- A value of type `interface{}` in the map `Auth`: a Go string, or any
other dynamic value, which is kept by its JSON encoding (`nil` is `null`).
Comparing it with a string constant, as `switch g.Auth["type"]` does, is
true only for a string of the same text. -/
inductive GoValue where
  | str (s : String)
  | other (json : String)
  deriving DecidableEq, Repr

/-- The type `map[string]interface{}` of the field `Auth`, as the list of its
entries; a key is looked up with `List.lookup` and the map is empty when the
list is. -/
abbrev AuthMap := List (String × GoValue)

/-- The struct `Group` (its declaration is the comment in `group.go`); times
are instants on an integer time line. -/
structure Group where
  Id : Int
  Name : String
  Note : String
  AllowLan : Bool
  ClientDns : List ValData
  RouteInclude : List ValData
  RouteExclude : List ValData
  DsExcludeDomains : String
  DsIncludeDomains : String
  LinkAcl : List GroupLinkAcl
  Bandwidth : Int
  Auth : AuthMap
  Status : Int
  CreatedAt : Int
  UpdatedAt : Int
  deriving DecidableEq, Repr

/-- The errors of `checkRadiusData`, in the order of its checks:
`"Radius的密钥/服务器地址填写有误"`, `"Radius的服务器地址填写有误"` and
`"Radius的密钥长度需在8～200个字符之间"`. -/
inductive RadiusError where
  | marshal
  | addr
  | secretLength
  deriving DecidableEq, Repr

/-- The errors that `SetGroup` returns, one constructor per `return` of an
error in the source, with what the message is built from:
`name` is `"用户组名错误"`, `routeInclude e` is `"RouteInclude 错误" + e.Error()`,
`routeExclude e` is `"RouteExclude 错误" + e.Error()`, `linkAcl e` is
`"GroupLinkAcl 错误" + e.Error()`, `dnsIp` is `"DNS IP 错误"`, `dnsRequired` is
`"默认路由，必须设置一个DNS"`, `domainConflict` is `"包含/排除域名不能同时填写"`,
`includeDomains e` is `"包含域名有误：" + e.Error()`, `excludeDomains e` is
`"排除域名有误：" + e.Error()`, `radius e` is the error of `checkRadiusData`,
`unknownAuth t` is `"#" + fmt.Sprintf("%s", t) + "#未知的认证类型"` for the value
`t` of `g.Auth["type"]`, and `db e` is the error `e` of `Set` or `Add`. -/
inductive SetGroupError where
  | name
  | routeInclude (e : ParseError)
  | routeExclude (e : ParseError)
  | linkAcl (e : ParseError)
  | dnsIp
  | dnsRequired
  | domainConflict
  | includeDomains (e : DomainError)
  | excludeDomains (e : DomainError)
  | radius (e : RadiusError)
  | unknownAuth (t : Option GoValue)
  | db (e : String)
  deriving DecidableEq, Repr

/-- What `SetGroup` takes from outside `group.go`: the clock `time.Now`, the
persistence functions `Set` and `Add` of package `dbdata` (their result is
the error message, `none` for `nil`; they are taken to leave the record they
are given as it is), and the passage of a value through
`json.Marshal` and `json.Unmarshal` into an `AuthRadius` that
`checkRadiusData` performs (`none` when `json.Marshal` fails; the error of
`json.Unmarshal` is dropped by the source). -/
structure Env where
  now : Int
  Set : Group → Option String
  Add : Group → Option String
  jsonRadius : Option GoValue → Option AuthRadius

/-- A call of the persistence layer, with the record passed. -/
inductive DbCall where
  | set (g : Group)
  | add (g : Group)
  deriving DecidableEq, Repr

/-- The outcome of a call `SetGroup(g)`: the record behind the pointer `g`
after the call, the error returned (`none` for `nil`) and the calls of the
persistence layer made, in order. -/
structure Outcome where
  g : Group
  err : Option SetGroupError
  calls : List DbCall
  deriving DecidableEq, Repr

/-! ## `checkRadiusData` -/

/-- The function `checkRadiusData` of `group.go`; `len` counts bytes. -/
def checkRadiusData (env : Env) (auth : AuthMap) : Option RadiusError :=
  match env.jsonRadius (auth.lookup "radius") with
  | none => some .marshal
  | some radisConf =>
    if !ValidateIpPort radisConf.Addr then some .addr
    else if radisConf.Secret.utf8ByteSize < 8 ∨ radisConf.Secret.utf8ByteSize > 200 then
      some .secretLength
    else none

/-! ## `SetGroup` -/

/-- The loop of `SetGroup` over `g.RouteInclude`; `acc` is the slice
`routeInclude` built so far. -/
def routeIncludeLoop : List ValData → List ValData → Except ParseError (List ValData)
  | [], acc => .ok acc
  | v :: rest, acc =>
    if v.Val ≠ "" then
      if v.Val = All then routeIncludeLoop rest (acc ++ [v])
      else
        match parseIpNet v.Val with
        | .error err => .error err
        | .ok (ipMask, _) => routeIncludeLoop rest (acc ++ [{ v with IpMask := ipMask }])
    else routeIncludeLoop rest acc

/-- The loop of `SetGroup` over `g.RouteExclude`. -/
def routeExcludeLoop : List ValData → List ValData → Except ParseError (List ValData)
  | [], acc => .ok acc
  | v :: rest, acc =>
    if v.Val ≠ "" then
      match parseIpNet v.Val with
      | .error err => .error err
      | .ok (ipMask, _) => routeExcludeLoop rest (acc ++ [{ v with IpMask := ipMask }])
    else routeExcludeLoop rest acc

/-- The loop of `SetGroup` over `g.LinkAcl`. -/
def linkAclLoop : List GroupLinkAcl → List GroupLinkAcl → Except ParseError (List GroupLinkAcl)
  | [], acc => .ok acc
  | v :: rest, acc =>
    if v.Val ≠ "" then
      match parseIpNet v.Val with
      | .error err => .error err
      | .ok (_, ipNet) => linkAclLoop rest (acc ++ [{ v with IpNet := some ipNet }])
    else linkAclLoop rest acc

/-- The loop of `SetGroup` over `g.ClientDns`; `none` is the return of the
error `"DNS IP 错误"`. -/
def clientDnsLoop : List ValData → List ValData → Option (List ValData)
  | [], acc => some acc
  | v :: rest, acc =>
    if v.Val ≠ "" then
      let ip := ParseIP v.Val
      if IPString ip ≠ v.Val then none
      else clientDnsLoop rest (acc ++ [v])
    else clientDnsLoop rest acc

/-- The map `defAuth` of `SetGroup`. -/
def defAuth : AuthMap := [("type", .str "local")]

/-- The condition of line 135 on the slice `routeInclude`. -/
def defaultRoute (routeInclude : List ValData) : Bool :=
  routeInclude.length = 0 ||
    (routeInclude.length = 1 && (routeInclude.head?.map (·.Val)) = some "all")

/-- The authentication part of `SetGroup` (lines 157 to 174): the record
after it and the error returned there, if any. -/
def setGroupAuth (env : Env) (g : Group) : Group × Option SetGroupError :=
  let g1 := if g.Auth.length = 0 then { g with Auth := defAuth } else g
  match g1.Auth.lookup "type" with
  | some (.str "local") => ({ g1 with Auth := defAuth }, none)
  | some (.str "radius") =>
    match checkRadiusData env g1.Auth with
    | some err => (g1, some (.radius err))
    | none => (g1, none)
  | t => (g1, some (.unknownAuth t))

/-- The checks of `SetGroup` (lines 74 to 174), which every `return` of a
validation error belongs to: the record behind the pointer when the checks
end, and the error returned, if any. -/
def setGroupChecks (env : Env) (g : Group) : Group × Option SetGroupError :=
  if g.Name = "" then (g, some .name)
  else
    match routeIncludeLoop g.RouteInclude [] with
    | .error err => (g, some (.routeInclude err))
    | .ok routeInclude =>
      let g1 := { g with RouteInclude := routeInclude }
      match routeExcludeLoop g1.RouteExclude [] with
      | .error err => (g1, some (.routeExclude err))
      | .ok routeExclude =>
        let g2 := { g1 with RouteExclude := routeExclude }
        match linkAclLoop g2.LinkAcl [] with
        | .error err => (g2, some (.linkAcl err))
        | .ok linkAcl =>
          let g3 := { g2 with LinkAcl := linkAcl }
          match clientDnsLoop g3.ClientDns [] with
          | none => (g3, some .dnsIp)
          | some clientDns =>
            if defaultRoute routeInclude ∧ clientDns.length = 0 then (g3, some .dnsRequired)
            else
              let g4 := { g3 with ClientDns := clientDns }
              let g5 := { g4 with DsIncludeDomains := TrimSpace g4.DsIncludeDomains }
              let g6 := { g5 with DsExcludeDomains := TrimSpace g5.DsExcludeDomains }
              if g6.DsIncludeDomains ≠ "" ∧ g6.DsExcludeDomains ≠ "" then
                (g6, some .domainConflict)
              else
                match CheckDomainNames g6.DsIncludeDomains with
                | some err => (g6, some (.includeDomains err))
                | none =>
                  match CheckDomainNames g6.DsExcludeDomains with
                  | some err => (g6, some (.excludeDomains err))
                  | none => setGroupAuth env g6

/-- The function `SetGroup` of `group.go`. -/
def SetGroup (env : Env) (g : Group) : Outcome :=
  match setGroupChecks env g with
  | (g1, some err) => ⟨g1, some err, []⟩
  | (g1, none) =>
    let g2 := { g1 with UpdatedAt := env.now }
    if g2.Id > 0 then ⟨g2, (env.Set g2).map .db, [.set g2]⟩
    else ⟨g2, (env.Add g2).map .db, [.add g2]⟩

/-! ## Specification vocabulary -/

/-- What the loop over `RouteInclude` relates an input entry to. -/
def InclRel (vi vo : ValData) : Prop :=
  vo.Val = vi.Val ∧ vo.Note = vi.Note ∧ (vi.Val = All → vo = vi) ∧
    (vi.Val ≠ All → ∃ n, parseIpNet vi.Val = .ok (vo.IpMask, n))

/-- What the loop over `RouteExclude` relates an input entry to. -/
def ExclRel (vi vo : ValData) : Prop :=
  vo.Val = vi.Val ∧ vo.Note = vi.Note ∧ ∃ n, parseIpNet vi.Val = .ok (vo.IpMask, n)

/-- What the loop over `LinkAcl` relates an input rule to. -/
def AclRel (vi vo : GroupLinkAcl) : Prop :=
  vo.Action = vi.Action ∧ vo.Val = vi.Val ∧ vo.Port = vi.Port ∧ vo.Note = vi.Note ∧
    ∃ m n, parseIpNet vi.Val = .ok (m, n) ∧ vo.IpNet = some n

/-- The record that the checks of `SetGroup` have built when they reach the
authentication part. -/
def normalized (g : Group) (ri re : List ValData) (acl : List GroupLinkAcl)
    (dns : List ValData) : Group :=
  { g with RouteInclude := ri, RouteExclude := re, LinkAcl := acl, ClientDns := dns,
           DsIncludeDomains := TrimSpace g.DsIncludeDomains,
           DsExcludeDomains := TrimSpace g.DsExcludeDomains }


/-! ## Sample inputs -/

/-- A persistence layer and clock for the examples: the time is 100, `Set`
and `Add` succeed, and the radius value decodes to an empty `AuthRadius`. -/
def sampleEnv : Env := ⟨100, fun _ => none, fun _ => none, fun _ => some ⟨"", ""⟩⟩

/-- A record that `SetGroup` accepts: a split tunnel with one empty route
entry to drop, one rule and one resolver. -/
def sampleGroup : Group :=
  { Id := 0, Name := "staff", Note := "", AllowLan := false,
    ClientDns := [⟨"8.8.8.8", "", "dns"⟩],
    RouteInclude := [⟨"all", "kept", ""⟩, ⟨"", "", "blank"⟩, ⟨"10.1.2.3/24", "", "lan"⟩],
    RouteExclude := [⟨"", "", ""⟩, ⟨"192.168.0.0/16", "stale", ""⟩],
    DsExcludeDomains := "", DsIncludeDomains := " a.com ",
    LinkAcl := [⟨"allow", "10.0.0.0/8", 80, none, ""⟩, ⟨"deny", "", 0, none, ""⟩,
      ⟨"drop", "2001:db8::/32", 443, none, "v6"⟩],
    Bandwidth := 0, Auth := [], Status := 1, CreatedAt := 0, UpdatedAt := 0 }

/-- Dotted-decimal text of a list of numbers: their decimal numerals joined
by dots. -/
def dotted (b : List Nat) : String := String.intercalate "." (b.map toString)

/-- The netmask of a prefix length `ones` in 32 bits, as a number: `ones` one
bits followed by zero bits. -/
def netmask32 (ones : Nat) : Nat := 2 ^ 32 - 2 ^ (32 - ones)

/-- The four octets of a 32-bit number, most significant first. -/
def octets (m : Nat) : List Nat := [m / 2 ^ 24 % 256, m / 2 ^ 16 % 256, m / 2 ^ 8 % 256, m % 256]

/-- A record whose only resolver entry is the text `<nil>`. -/
def nilDnsGroup : Group :=
  { Id := 0, Name := "staff", Note := "", AllowLan := false,
    ClientDns := [⟨"<nil>", "", ""⟩], RouteInclude := [], RouteExclude := [],
    DsExcludeDomains := "", DsIncludeDomains := "", LinkAcl := [],
    Bandwidth := 0, Auth := [], Status := 1, CreatedAt := 0, UpdatedAt := 0 }

/-- A split-tunnel record without resolvers: `RouteInclude` is the single
route `10.0.0.0/24` and `ClientDns` is empty. -/
def splitNoDnsGroup : Group :=
  { Id := 5, Name := "staff", Note := "", AllowLan := false,
    ClientDns := [], RouteInclude := [⟨"10.0.0.0/24", "", ""⟩], RouteExclude := [],
    DsExcludeDomains := "", DsIncludeDomains := "", LinkAcl := [],
    Bandwidth := 0, Auth := [("type", .str "local"), ("extra", .other "1")], Status := 1,
    CreatedAt := 0, UpdatedAt := 0 }

/-- The record of the example of the specification: both domain fields are
filled in. -/
def bothDomainsGroup : Group :=
  { sampleGroup with DsIncludeDomains := "a.com", DsExcludeDomains := " b.com" }

/-! ## The grammar of domain names -/

/-- An ASCII letter or digit. -/
def isAlnum (c : Char) : Bool :=
  (decide (97 ≤ c.toNat) && decide (c.toNat ≤ 122)) ||
    (decide (65 ≤ c.toNat) && decide (c.toNat ≤ 90)) ||
    (decide (48 ≤ c.toNat) && decide (c.toNat ≤ 57))

/-- An ASCII letter. -/
def isAlpha (c : Char) : Bool :=
  (decide (65 ≤ c.toNat) && decide (c.toNat ≤ 90)) ||
    (decide (97 ≤ c.toNat) && decide (c.toNat ≤ 122))

/-- A leading label in the words of the specification: alphanumerics joined
by `-`, that is one or more non-empty alphanumeric words with a `-` between
each two, starting with an alphanumeric character, of length 1 to 63. -/
def JoinedLabel (l : List Char) : Prop :=
  1 ≤ l.length ∧ l.length ≤ 63 ∧
    ∃ words : List (List Char), words ≠ [] ∧
      (∀ w ∈ words, w ≠ [] ∧ ∀ x ∈ w, isAlnum x = true) ∧ l = List.intercalate ['-'] words

/-- A leading label as the pattern of `ValidateDomainName` takes it: an
alphanumeric character followed by at most 62 characters, each of them an
alphanumeric character or `-`. -/
def PatternLabel (l : List Char) : Prop :=
  ∃ c rest, l = c :: rest ∧ isAlnum c = true ∧ rest.length ≤ 62 ∧
    ∀ x ∈ rest, isAlnum x = true ∨ x = '-'

/-- A top-level label: 2 to 18 ASCII letters. -/
def TopLabel (t : List Char) : Prop :=
  2 ≤ t.length ∧ t.length ≤ 18 ∧ ∀ x ∈ t, isAlpha x = true

/-- The shape of a domain name: one or more labels, each followed by a dot,
then a top-level label and nothing else. -/
def DomainShape (label : List Char → Prop) (d : String) : Prop :=
  ∃ labels tld, labels ≠ [] ∧ (∀ l ∈ labels, label l) ∧ TopLabel tld ∧
    d.data = (labels.map (fun l => l ++ ['.'])).flatten ++ tld

/-! ## Sample inputs for the authentication part and the persistence layer -/

/-- The JSON text of the radius value of the examples of the specification,
with the secret `secret`. -/
def radiusJson (secret : String) : String :=
  "\x7b\"addr\":\"10.0.0.1:1812\",\"secret\":\"" ++ secret ++ "\"\x7d"

/-- A clock and persistence layer for the examples of the authentication
part: the time is 100, `Set` fails with the message `locked`, `Add`
succeeds, and the two radius values of the examples decode to their address
and secret (any other value decodes to the empty `AuthRadius`). -/
def radiusEnv : Env :=
  { now := 100
    Set := fun _ => some "locked"
    Add := fun _ => none
    jsonRadius := fun v =>
      if v = some (.other (radiusJson "shortpw")) then some ⟨"10.0.0.1:1812", "shortpw"⟩
      else if v = some (.other (radiusJson "longenoughsecret")) then
        some ⟨"10.0.0.1:1812", "longenoughsecret"⟩
      else some ⟨"", ""⟩ }

/-- The sample record with the radius configuration of the specification
whose secret is `secret`. -/
def radiusGroup (secret : String) : Group :=
  { sampleGroup with
    Auth := [("type", .str "radius"), ("radius", .other (radiusJson secret))] }

/-- The sample record with an authentication type that is not known. -/
def ldapGroup : Group := { sampleGroup with Auth := [("type", .str "ldap")] }

/-- The sample record, already stored with the identity 5 and stamped at the
time 200. -/
def storedGroup : Group := { sampleGroup with Id := 5, UpdatedAt := 200 }

/-- The map that the authentication part of `SetGroup` looks the type up in:
`defAuth` when `Auth` is empty, `Auth` otherwise. -/
def effectiveAuth (g : Group) : AuthMap := if g.Auth.length = 0 then defAuth else g.Auth

/-- The ways the checks of `SetGroup` end, in the order of the source: each
constructor is one `return` of an error, with the checks that passed before
it and the record behind the pointer at that point; the last one is the
authentication part, reached when every earlier check has passed. -/
inductive ChecksTrace (env : Env) (g : Group) : Group × Option SetGroupError → Prop where
  | name : g.Name = "" → ChecksTrace env g (g, some .name)
  | routeInclude (e : ParseError) : g.Name ≠ "" →
      routeIncludeLoop g.RouteInclude [] = .error e →
      ChecksTrace env g (g, some (.routeInclude e))
  | routeExclude (ri : List ValData) (e : ParseError) : g.Name ≠ "" →
      routeIncludeLoop g.RouteInclude [] = .ok ri →
      routeExcludeLoop g.RouteExclude [] = .error e →
      ChecksTrace env g ({ g with RouteInclude := ri }, some (.routeExclude e))
  | linkAcl (ri re : List ValData) (e : ParseError) : g.Name ≠ "" →
      routeIncludeLoop g.RouteInclude [] = .ok ri →
      routeExcludeLoop g.RouteExclude [] = .ok re →
      linkAclLoop g.LinkAcl [] = .error e →
      ChecksTrace env g ({ g with RouteInclude := ri, RouteExclude := re }, some (.linkAcl e))
  | dnsIp (ri re : List ValData) (acl : List GroupLinkAcl) : g.Name ≠ "" →
      routeIncludeLoop g.RouteInclude [] = .ok ri →
      routeExcludeLoop g.RouteExclude [] = .ok re →
      linkAclLoop g.LinkAcl [] = .ok acl →
      clientDnsLoop g.ClientDns [] = none →
      ChecksTrace env g
        ({ g with RouteInclude := ri, RouteExclude := re, LinkAcl := acl }, some .dnsIp)
  | dnsRequired (ri re : List ValData) (acl : List GroupLinkAcl) (dns : List ValData) :
      g.Name ≠ "" →
      routeIncludeLoop g.RouteInclude [] = .ok ri →
      routeExcludeLoop g.RouteExclude [] = .ok re →
      linkAclLoop g.LinkAcl [] = .ok acl →
      clientDnsLoop g.ClientDns [] = some dns →
      defaultRoute ri = true ∧ dns.length = 0 →
      ChecksTrace env g
        ({ g with RouteInclude := ri, RouteExclude := re, LinkAcl := acl }, some .dnsRequired)
  | domainConflict (ri re : List ValData) (acl : List GroupLinkAcl) (dns : List ValData) :
      g.Name ≠ "" →
      routeIncludeLoop g.RouteInclude [] = .ok ri →
      routeExcludeLoop g.RouteExclude [] = .ok re →
      linkAclLoop g.LinkAcl [] = .ok acl →
      clientDnsLoop g.ClientDns [] = some dns →
      ¬ (defaultRoute ri = true ∧ dns.length = 0) →
      TrimSpace g.DsIncludeDomains ≠ "" ∧ TrimSpace g.DsExcludeDomains ≠ "" →
      ChecksTrace env g (normalized g ri re acl dns, some .domainConflict)
  | includeDomains (ri re : List ValData) (acl : List GroupLinkAcl) (dns : List ValData)
      (e : DomainError) : g.Name ≠ "" →
      routeIncludeLoop g.RouteInclude [] = .ok ri →
      routeExcludeLoop g.RouteExclude [] = .ok re →
      linkAclLoop g.LinkAcl [] = .ok acl →
      clientDnsLoop g.ClientDns [] = some dns →
      ¬ (defaultRoute ri = true ∧ dns.length = 0) →
      ¬ (TrimSpace g.DsIncludeDomains ≠ "" ∧ TrimSpace g.DsExcludeDomains ≠ "") →
      CheckDomainNames (TrimSpace g.DsIncludeDomains) = some e →
      ChecksTrace env g (normalized g ri re acl dns, some (.includeDomains e))
  | excludeDomains (ri re : List ValData) (acl : List GroupLinkAcl) (dns : List ValData)
      (e : DomainError) : g.Name ≠ "" →
      routeIncludeLoop g.RouteInclude [] = .ok ri →
      routeExcludeLoop g.RouteExclude [] = .ok re →
      linkAclLoop g.LinkAcl [] = .ok acl →
      clientDnsLoop g.ClientDns [] = some dns →
      ¬ (defaultRoute ri = true ∧ dns.length = 0) →
      ¬ (TrimSpace g.DsIncludeDomains ≠ "" ∧ TrimSpace g.DsExcludeDomains ≠ "") →
      CheckDomainNames (TrimSpace g.DsIncludeDomains) = none →
      CheckDomainNames (TrimSpace g.DsExcludeDomains) = some e →
      ChecksTrace env g (normalized g ri re acl dns, some (.excludeDomains e))
  | auth (ri re : List ValData) (acl : List GroupLinkAcl) (dns : List ValData) :
      g.Name ≠ "" →
      routeIncludeLoop g.RouteInclude [] = .ok ri →
      routeExcludeLoop g.RouteExclude [] = .ok re →
      linkAclLoop g.LinkAcl [] = .ok acl →
      clientDnsLoop g.ClientDns [] = some dns →
      ¬ (defaultRoute ri = true ∧ dns.length = 0) →
      ¬ (TrimSpace g.DsIncludeDomains ≠ "" ∧ TrimSpace g.DsExcludeDomains ≠ "") →
      CheckDomainNames (TrimSpace g.DsIncludeDomains) = none →
      CheckDomainNames (TrimSpace g.DsExcludeDomains) = none →
      ChecksTrace env g (setGroupAuth env (normalized g ri re acl dns))

/-- A clock and persistence layer for the examples of `checkRadiusData`, in
which every radius value decodes to `conf`. -/
def decodedEnv (conf : AuthRadius) : Env :=
  { now := 100, Set := fun _ => none, Add := fun _ => none, jsonRadius := fun _ => some conf }

/-- A secret of `n` bytes. -/
def secretOfLength (n : Nat) : String := String.mk (List.replicate n 's')

/-! ## The checks of `SetGroup` in the words of the specification -/

/-- The error of parsing the value of an entry as a CIDR, if it fails. -/
def parseFailure (val : String) : Option ParseError :=
  match parseIpNet val with
  | .error e => some e
  | .ok _ => none

/-- The check of the route-include list: the parse error of the first entry,
in list order, that is not empty, is not `all` and does not parse. -/
def routeIncludeCheck (l : List ValData) : Option ParseError :=
  (l.filter (fun v => v.Val ≠ "" ∧ v.Val ≠ All)).findSome? (fun v => parseFailure v.Val)

/-- The check of the route-exclude list: the parse error of the first
non-empty entry, in list order, that does not parse. -/
def routeExcludeCheck (l : List ValData) : Option ParseError :=
  (l.filter (fun v => v.Val ≠ "")).findSome? (fun v => parseFailure v.Val)

/-- The check of the rule list: the parse error of the first non-empty rule,
in list order, that does not parse. -/
def linkAclCheck (l : List GroupLinkAcl) : Option ParseError :=
  (l.filter (fun v => v.Val ≠ "")).findSome? (fun v => parseFailure v.Val)

/-- The check of the resolver list: some non-empty entry is not the text of
the address parsed from it. -/
def dnsSyntaxFails (l : List ValData) : Bool :=
  l.any (fun v => decide (v.Val ≠ "") && decide (IPString (ParseIP v.Val) ≠ v.Val))

/-- The check that a full tunnel has a resolver, on the input lists: the
non-empty route-include entries are none or the single entry `all`, and
there is no non-empty resolver entry. -/
def dnsRequiredFails (g : Group) : Bool :=
  defaultRoute (g.RouteInclude.filter (fun v => v.Val ≠ "")) &&
    decide (g.ClientDns.filter (fun v => v.Val ≠ "") = [])

/-- The check of the authentication configuration. -/
def authCheck (env : Env) (g : Group) : Option SetGroupError :=
  match (effectiveAuth g).lookup "type" with
  | some (.str "local") => none
  | some (.str "radius") => (checkRadiusData env (effectiveAuth g)).map .radius
  | t => some (.unknownAuth t)

/-- The checks of a record in the fixed order of the specification, each
with the error it gives when it fails: empty name, route-include entries,
route-exclude entries, rules, resolver syntax, resolver required for a full
tunnel, conflict of the domain fields, include-domain syntax, exclude-domain
syntax, authentication. -/
def checksInOrder (env : Env) (g : Group) : List (Option SetGroupError) :=
  [ if g.Name = "" then some .name else none,
    (routeIncludeCheck g.RouteInclude).map .routeInclude,
    (routeExcludeCheck g.RouteExclude).map .routeExclude,
    (linkAclCheck g.LinkAcl).map .linkAcl,
    if dnsSyntaxFails g.ClientDns then some .dnsIp else none,
    if dnsRequiredFails g then some .dnsRequired else none,
    if TrimSpace g.DsIncludeDomains ≠ "" ∧ TrimSpace g.DsExcludeDomains ≠ "" then
      some .domainConflict else none,
    (CheckDomainNames (TrimSpace g.DsIncludeDomains)).map .includeDomains,
    (CheckDomainNames (TrimSpace g.DsExcludeDomains)).map .excludeDomains,
    authCheck env g ]

/-- The error of the earliest failing check of a list of checks. -/
def firstFailure (checks : List (Option SetGroupError)) : Option SetGroupError :=
  checks.findSome? id

/-- A record with a malformed rule address and a malformed resolver. -/
def badAclAndDnsGroup : Group :=
  { sampleGroup with
    LinkAcl := [⟨"allow", "10.0.0.0/33", 80, none, ""⟩],
    ClientDns := [⟨"8.8.8.8", "", ""⟩, ⟨"8.8.8.8.1", "", ""⟩] }

/-- A record with an empty route-include list and a single malformed
resolver. -/
def badDnsFullTunnelGroup : Group :=
  { sampleGroup with RouteInclude := [], ClientDns := [⟨"8.8.8.8.1", "", ""⟩] }

/-- The record of the example of the specification: the second resolver is
malformed; the route-include list has an empty entry and a route. -/
def badDnsGroup : Group :=
  { sampleGroup with
    RouteInclude := [⟨"", "", ""⟩, ⟨"10.1.2.3/24", "", ""⟩],
    ClientDns := [⟨"8.8.8.8", "", ""⟩, ⟨"8.8.8.8.1", "", ""⟩] }

/-! ## Records that differ in the derived masks only -/

/-- Two route entries with the same value and note. -/
def SameEntry (a b : ValData) : Prop := a.Val = b.Val ∧ a.Note = b.Note

/-- Two records that differ only in the `IpMask` fields of the entries of
`RouteInclude` and `RouteExclude`. -/
def SameButMasks (g g1 : Group) : Prop :=
  g1 = { g with RouteInclude := g1.RouteInclude, RouteExclude := g1.RouteExclude } ∧
    List.Forall₂ SameEntry g.RouteInclude g1.RouteInclude ∧
    List.Forall₂ SameEntry g.RouteExclude g1.RouteExclude

/-- The full-tunnel record whose entry `all` carries the mask `mask`. -/
def allMaskGroup (mask : String) : Group :=
  { sampleGroup with RouteInclude := [⟨"all", mask, ""⟩] }

/-! ## The grammar of an address with a port -/

/-- The number that a text of decimal digits denotes. -/
def decimalValue (ds : List Char) : Nat := ds.foldl (fun n c => n * 10 + digitVal c) 0

/-- An octet as the specification has it: 1 to 3 ASCII digits with a value
of at most 255. -/
def IsOctetText (o : List Char) : Prop :=
  1 ≤ o.length ∧ o.length ≤ 3 ∧ (∀ c ∈ o, isDigit c = true) ∧ decimalValue o ≤ 255

/-- A port as the specification has it: 1 to 5 ASCII digits with a value of
at most 65535. -/
def IsPortText (p : List Char) : Prop :=
  1 ≤ p.length ∧ p.length ≤ 5 ∧ (∀ c ∈ p, isDigit c = true) ∧ decimalValue p ≤ 65535

/-! ## The stage of a failing check -/

/-- The stage of `SetGroup` that an error comes from, in the order of the
source: 0 the name, 1 the route-include list, 2 the route-exclude list, 3 the
rule list, 4 the resolvers (their syntax and the resolver required for a full
tunnel), 5 the domain fields, 6 the authentication, 7 the persistence layer.
The record gets the normalized `RouteInclude` when stage 1 has passed, the
normalized `RouteExclude` when stage 2 has, the normalized `LinkAcl` when
stage 3 has, and the normalized `ClientDns` and the trimmed domain fields when
stage 4 has. -/
def failedStage : SetGroupError → Nat
  | .name => 0
  | .routeInclude _ => 1
  | .routeExclude _ => 2
  | .linkAcl _ => 3
  | .dnsIp => 4
  | .dnsRequired => 4
  | .domainConflict => 5
  | .includeDomains _ => 5
  | .excludeDomains _ => 5
  | .radius _ => 6
  | .unknownAuth _ => 6
  | .db _ => 7

/-- The record with an unknown authentication type and an empty name. -/
def namelessLdapGroup : Group := { ldapGroup with Name := "" }

/-! ## Facts about the loops of `SetGroup` -/

theorem routeIncludeLoop_ok (l : List ValData) :
    ∀ acc r, routeIncludeLoop l acc = .ok r →
      ∃ r1, r = acc ++ r1 ∧ List.Forall₂ InclRel (l.filter (fun v => v.Val ≠ "")) r1 := by
  induction l with
  | nil =>
    intro acc r h
    simp only [routeIncludeLoop, Except.ok.injEq] at h
    exact ⟨[], by simp [h], by simp⟩
  | cons v rest ih =>
    intro acc r h
    rw [routeIncludeLoop] at h
    by_cases hv : v.Val = ""
    · simp only [hv, ne_eq, not_true_eq_false, if_false] at h
      obtain ⟨r1, h1, h2⟩ := ih acc r h
      exact ⟨r1, h1, by simpa [List.filter, hv] using h2⟩
    · simp only [ne_eq, hv, not_false_eq_true, if_true] at h
      by_cases ha : v.Val = All
      · simp only [ha, if_true] at h
        obtain ⟨r1, h1, h2⟩ := ih _ r h
        refine ⟨v :: r1, by simp [h1], ?_⟩
        simp only [List.filter, ne_eq, hv, not_false_eq_true, decide_True]
        exact List.Forall₂.cons ⟨rfl, rfl, fun _ => rfl, fun hne => absurd ha hne⟩ h2
      · simp only [ha, if_false] at h
        cases hp : parseIpNet v.Val with
        | error e => simp [hp] at h
        | ok p =>
          obtain ⟨m, n⟩ := p
          simp only [hp] at h
          obtain ⟨r1, h1, h2⟩ := ih _ r h
          refine ⟨{ v with IpMask := m } :: r1, by simp [h1], ?_⟩
          simp only [List.filter, ne_eq, hv, not_false_eq_true, decide_True]
          exact List.Forall₂.cons ⟨rfl, rfl, fun h => absurd h ha, fun _ => ⟨n, hp⟩⟩ h2

theorem routeExcludeLoop_ok (l : List ValData) :
    ∀ acc r, routeExcludeLoop l acc = .ok r →
      ∃ r1, r = acc ++ r1 ∧ List.Forall₂ ExclRel (l.filter (fun v => v.Val ≠ "")) r1 := by
  induction l with
  | nil =>
    intro acc r h
    simp only [routeExcludeLoop, Except.ok.injEq] at h
    exact ⟨[], by simp [h], by simp⟩
  | cons v rest ih =>
    intro acc r h
    rw [routeExcludeLoop] at h
    by_cases hv : v.Val = ""
    · simp only [hv, ne_eq, not_true_eq_false, if_false] at h
      obtain ⟨r1, h1, h2⟩ := ih acc r h
      exact ⟨r1, h1, by simpa [List.filter, hv] using h2⟩
    · simp only [ne_eq, hv, not_false_eq_true, if_true] at h
      cases hp : parseIpNet v.Val with
      | error e => simp [hp] at h
      | ok p =>
        obtain ⟨m, n⟩ := p
        simp only [hp] at h
        obtain ⟨r1, h1, h2⟩ := ih _ r h
        refine ⟨{ v with IpMask := m } :: r1, by simp [h1], ?_⟩
        simp only [List.filter, ne_eq, hv, not_false_eq_true, decide_True]
        exact List.Forall₂.cons ⟨rfl, rfl, n, hp⟩ h2

theorem linkAclLoop_ok (l : List GroupLinkAcl) :
    ∀ acc r, linkAclLoop l acc = .ok r →
      ∃ r1, r = acc ++ r1 ∧ List.Forall₂ AclRel (l.filter (fun v => v.Val ≠ "")) r1 := by
  induction l with
  | nil =>
    intro acc r h
    simp only [linkAclLoop, Except.ok.injEq] at h
    exact ⟨[], by simp [h], by simp⟩
  | cons v rest ih =>
    intro acc r h
    rw [linkAclLoop] at h
    by_cases hv : v.Val = ""
    · simp only [hv, ne_eq, not_true_eq_false, if_false] at h
      obtain ⟨r1, h1, h2⟩ := ih acc r h
      exact ⟨r1, h1, by simpa [List.filter, hv] using h2⟩
    · simp only [ne_eq, hv, not_false_eq_true, if_true] at h
      cases hp : parseIpNet v.Val with
      | error e => simp [hp] at h
      | ok p =>
        obtain ⟨m, n⟩ := p
        simp only [hp] at h
        obtain ⟨r1, h1, h2⟩ := ih _ r h
        refine ⟨{ v with IpNet := some n } :: r1, by simp [h1], ?_⟩
        simp only [List.filter, ne_eq, hv, not_false_eq_true, decide_True]
        exact List.Forall₂.cons ⟨rfl, rfl, rfl, rfl, m, n, hp, rfl⟩ h2

theorem clientDnsLoop_ok (l : List ValData) :
    ∀ acc r, clientDnsLoop l acc = some r →
      r = acc ++ l.filter (fun v => v.Val ≠ "") ∧
        ∀ v ∈ l, v.Val ≠ "" → IPString (ParseIP v.Val) = v.Val := by
  induction l with
  | nil =>
    intro acc r h
    simp only [clientDnsLoop, Option.some.injEq] at h
    simp [h]
  | cons v rest ih =>
    intro acc r h
    rw [clientDnsLoop] at h
    by_cases hv : v.Val = ""
    · simp only [hv, ne_eq, not_true_eq_false, if_false] at h
      obtain ⟨h1, h2⟩ := ih acc r h
      refine ⟨by simpa [List.filter, hv] using h1, ?_⟩
      intro w hw hne
      rcases List.mem_cons.1 hw with rfl | hw
      · exact absurd hv hne
      · exact h2 w hw hne
    · simp only [ne_eq, hv, not_false_eq_true, if_true] at h
      by_cases hs : IPString (ParseIP v.Val) = v.Val
      · simp only [hs, not_true_eq_false, if_false] at h
        obtain ⟨h1, h2⟩ := ih _ r h
        refine ⟨by simp [List.filter, hv, h1], ?_⟩
        intro w hw hne
        rcases List.mem_cons.1 hw with rfl | hw
        · exact hs
        · exact h2 w hw hne
      · simp [hs] at h

/-- The authentication part changes no field but `Auth`. -/
theorem setGroupAuth_fields (env : Env) (g : Group) :
    (setGroupAuth env g).1 = { g with Auth := (setGroupAuth env g).1.Auth } := by
  unfold setGroupAuth
  by_cases h0 : g.Auth.length = 0
  · simp only [h0, if_true]
    split <;> try rfl
    split <;> rfl
  · simp only [h0, if_false]
    split <;> try rfl
    split <;> rfl

/-- When the checks of `SetGroup` return no error, every stage before the
authentication part has passed, and the record is the normalized record
after the authentication part. -/
theorem setGroupChecks_ok {env : Env} {g g1 : Group}
    (h : setGroupChecks env g = (g1, none)) :
    ∃ ri re acl dns,
      g.Name ≠ "" ∧
      routeIncludeLoop g.RouteInclude [] = .ok ri ∧
      routeExcludeLoop g.RouteExclude [] = .ok re ∧
      linkAclLoop g.LinkAcl [] = .ok acl ∧
      clientDnsLoop g.ClientDns [] = some dns ∧
      ¬ (defaultRoute ri = true ∧ dns.length = 0) ∧
      ¬ (TrimSpace g.DsIncludeDomains ≠ "" ∧ TrimSpace g.DsExcludeDomains ≠ "") ∧
      CheckDomainNames (TrimSpace g.DsIncludeDomains) = none ∧
      CheckDomainNames (TrimSpace g.DsExcludeDomains) = none ∧
      setGroupAuth env (normalized g ri re acl dns) = (g1, none) := by
  unfold setGroupChecks at h
  split at h
  · simp at h
  next hname =>
    split at h
    · simp at h
    next ri hri =>
      try dsimp only at h
      split at h
      · simp at h
      next re hre =>
        try dsimp only at h
        split at h
        · simp at h
        next acl hacl =>
          try dsimp only at h
          split at h
          · simp at h
          next dns hdns =>
            split at h
            · simp at h
            next hdr =>
              try dsimp only at h
              split at h
              · simp at h
              next hconf =>
                split at h
                · simp at h
                next hinc =>
                  split at h
                  · simp at h
                  next hexc =>
                    exact ⟨ri, re, acl, dns, hname, hri, hre, hacl, hdns, hdr, hconf, hinc,
                      hexc, h⟩

/-- When `SetGroup` returns no error, its checks returned none, and the
record is the checked record with `UpdatedAt` set to the time of the clock. -/
theorem SetGroup_ok {env : Env} {g : Group} (h : (SetGroup env g).err = none) :
    ∃ g1, setGroupChecks env g = (g1, none) ∧
      (SetGroup env g).g = { g1 with UpdatedAt := env.now } := by
  cases hc : setGroupChecks env g with
  | mk g1 e =>
    cases e with
    | some err => simp [SetGroup, hc] at h
    | none =>
      refine ⟨g1, rfl, ?_⟩
      simp only [SetGroup, hc]
      split <;> rfl

/-! ## Route lists and rule list of an accepted record -/

/-- C1: when `SetGroup` succeeds, the resulting `RouteInclude` is the input
list without its empty-valued entries, in order, an entry `all` being kept as
it is and any other entry getting as `IpMask` the mask text that `parseIpNet`
returns for its value; the resulting `RouteExclude` is the input list without
its empty-valued entries, in order, every entry getting the mask text of
`parseIpNet`; `Val` and `Note` are unchanged in both lists. -/
theorem SetGroup_route_lists (env : Env) (g : Group) (h : (SetGroup env g).err = none) :
    List.Forall₂
        (fun vi vo => vo.Val = vi.Val ∧ vo.Note = vi.Note ∧ (vi.Val = All → vo = vi) ∧
          (vi.Val ≠ All → ∃ n, parseIpNet vi.Val = .ok (vo.IpMask, n)))
        (g.RouteInclude.filter (fun v => v.Val ≠ "")) (SetGroup env g).g.RouteInclude ∧
      List.Forall₂
        (fun vi vo => vo.Val = vi.Val ∧ vo.Note = vi.Note ∧
          ∃ n, parseIpNet vi.Val = .ok (vo.IpMask, n))
        (g.RouteExclude.filter (fun v => v.Val ≠ "")) (SetGroup env g).g.RouteExclude := by
  obtain ⟨g1, hc, hg⟩ := SetGroup_ok h
  obtain ⟨ri, re, acl, dns, -, hri, hre, -, -, -, -, -, -, hauth⟩ := setGroupChecks_ok hc
  have hf := setGroupAuth_fields env (normalized g ri re acl dns)
  rw [hauth] at hf
  obtain ⟨r1, e1, f1⟩ := routeIncludeLoop_ok _ _ _ hri
  obtain ⟨r2, e2, f2⟩ := routeExcludeLoop_ok _ _ _ hre
  simp only [List.nil_append] at e1 e2
  subst e1 e2
  have hi : (SetGroup env g).g.RouteInclude = ri := by
    rw [hg]; show g1.RouteInclude = ri; rw [show g1 = _ from hf]; rfl
  have he : (SetGroup env g).g.RouteExclude = re := by
    rw [hg]; show g1.RouteExclude = re; rw [show g1 = _ from hf]; rfl
  rw [hi, he]
  exact ⟨f1, f2⟩

/-- Witness of C1 on the sample record. -/
theorem SetGroup_route_lists_witness :
    (SetGroup sampleEnv sampleGroup).err = none ∧
      List.Forall₂
        (fun vi vo => vo.Val = vi.Val ∧ vo.Note = vi.Note ∧ (vi.Val = All → vo = vi) ∧
          (vi.Val ≠ All → ∃ n, parseIpNet vi.Val = .ok (vo.IpMask, n)))
        (sampleGroup.RouteInclude.filter (fun v => v.Val ≠ ""))
        (SetGroup sampleEnv sampleGroup).g.RouteInclude ∧
      List.Forall₂
        (fun vi vo => vo.Val = vi.Val ∧ vo.Note = vi.Note ∧
          ∃ n, parseIpNet vi.Val = .ok (vo.IpMask, n))
        (sampleGroup.RouteExclude.filter (fun v => v.Val ≠ ""))
        (SetGroup sampleEnv sampleGroup).g.RouteExclude :=
  ⟨by decide, SetGroup_route_lists sampleEnv sampleGroup (by decide)⟩

/-- C4: when `SetGroup` succeeds, the resulting `LinkAcl` is the input list
without its empty-valued rules, in order, each rule getting as `IpNet` the
network that `parseIpNet` parses from its value, with `Action`, `Val`, `Port`
and `Note` unchanged, whatever the action text is. -/
theorem SetGroup_link_acl (env : Env) (g : Group) (h : (SetGroup env g).err = none) :
    List.Forall₂
      (fun vi vo => vo.Action = vi.Action ∧ vo.Val = vi.Val ∧ vo.Port = vi.Port ∧
        vo.Note = vi.Note ∧ ∃ m n, parseIpNet vi.Val = .ok (m, n) ∧ vo.IpNet = some n)
      (g.LinkAcl.filter (fun v => v.Val ≠ "")) (SetGroup env g).g.LinkAcl := by
  obtain ⟨g1, hc, hg⟩ := SetGroup_ok h
  obtain ⟨ri, re, acl, dns, -, -, -, hacl, -, -, -, -, -, hauth⟩ := setGroupChecks_ok hc
  have hf := setGroupAuth_fields env (normalized g ri re acl dns)
  rw [hauth] at hf
  obtain ⟨r1, e1, f1⟩ := linkAclLoop_ok _ _ _ hacl
  simp only [List.nil_append] at e1
  subst e1
  have hi : (SetGroup env g).g.LinkAcl = acl := by
    rw [hg]; show g1.LinkAcl = acl; rw [show g1 = _ from hf]; rfl
  rw [hi]
  exact f1

/-- Witness of C4 on the sample record, whose third rule has the action
`drop`. -/
theorem SetGroup_link_acl_witness :
    (SetGroup sampleEnv sampleGroup).err = none ∧
      List.Forall₂
        (fun vi vo => vo.Action = vi.Action ∧ vo.Val = vi.Val ∧ vo.Port = vi.Port ∧
          vo.Note = vi.Note ∧ ∃ m n, parseIpNet vi.Val = .ok (m, n) ∧ vo.IpNet = some n)
        (sampleGroup.LinkAcl.filter (fun v => v.Val ≠ ""))
        (SetGroup sampleEnv sampleGroup).g.LinkAcl :=
  ⟨by decide, SetGroup_link_acl sampleEnv sampleGroup (by decide)⟩

/-! ## The CIDR parser and the mask text -/

theorem string4_eq_dotted (a b c d : Nat) :
    String.mk (string4 [a, b, c, d]) = dotted [a, b, c, d] := by
  apply String.ext
  simp [string4, dotted, decimal, String.intercalate, String.intercalate.go, Nat.repr, toString, List.asString]

theorem IPString_v4in6 (a b c d : Nat) :
    IPString (v4InV6Prefix ++ [a, b, c, d]) = String.mk (string4 [a, b, c, d]) := by
  rfl

theorem IPString_CIDRMask32 : ∀ n, n ≤ 32 → IPString (CIDRMask n 32) = dotted (octets (netmask32 n)) := by
  decide

set_option maxRecDepth 1000000 in
theorem IPString_CIDRMask128 :
    ∀ n, n ≤ 128 → IPString (CIDRMask n 128) = String.mk (string6 (CIDRMask n 128)) := by
  decide!

theorem parseIPv4FieldsLoop_length (s : List Char) :
    ∀ prev val pos digLen fields r,
      parseIPv4FieldsLoop s prev val pos digLen fields = some r → r.length = fields.length := by
  induction s with
  | nil =>
    intro prev val pos digLen fields r h
    simp only [parseIPv4FieldsLoop] at h
    split at h
    · simp at h
    · simp only [Option.some.injEq] at h
      simp [← h]
  | cons c rest ih =>
    intro prev val pos digLen fields r h
    rw [parseIPv4FieldsLoop] at h
    split at h
    · split at h
      · simp at h
      · dsimp only at h
        split at h
        · simp at h
        · exact ih _ _ _ _ _ _ h
    · split at h
      · split at h
        · simp at h
        · split at h
          · simp at h
          · have := ih _ _ _ _ _ _ h
            simpa using this
      · simp at h

theorem parseIPv4_shape {s : List Char} {addr : Addr} (h : parseIPv4 s = some addr) :
    ∃ a b c d, addr = .v4 [a, b, c, d] := by
  unfold parseIPv4 at h
  split at h
  · simp at h
  next f hf =>
    simp only [Option.some.injEq] at h
    have hl := parseIPv4FieldsLoop_length _ _ _ _ _ _ _ hf
    simp only [List.length_cons, List.length_nil] at hl
    match f, hl with
    | [a, b, c, d], _ => exact ⟨a, b, c, d, h.symm⟩

theorem parseIPv6_shape {s : List Char} {addr : Addr} (h : parseIPv6 s = some addr) :
    ∃ b z, addr = .v6 b z := by
  unfold parseIPv6 at h
  dsimp only at h
  repeat' (split at h)
  all_goals first
    | exact ⟨_, _, (Option.some.inj h).symm⟩
    | exact absurd h (by simp)

theorem parseAddrScan_shape (s : List Char) (cs : List Char) {addr : Addr}
    (h : parseAddrScan s cs = some addr) :
    (∃ a b c d, addr = .v4 [a, b, c, d]) ∨ ∃ b z, addr = .v6 b z := by
  induction cs with
  | nil => simp [parseAddrScan] at h
  | cons c cs ih =>
    rw [parseAddrScan] at h
    split at h
    · exact Or.inl (parseIPv4_shape h)
    · split at h
      · exact Or.inr (parseIPv6_shape h)
      · split at h
        · simp at h
        · exact ih h

theorem ParseCIDR_ok {s : String} {ip : List Nat} {net : IPNet}
    (h : ParseCIDR s = .ok (ip, net)) :
    ∃ a m addr, cutAt '/' s.data = some (a, m) ∧ ParseAddr a = some addr ∧ addr.Zone = [] ∧
      (dtoi m).2.2 = true ∧ (dtoi m).2.1 = m.length ∧ (dtoi m).1 ≤ addr.BitLen ∧
      ip = addr.As16 ∧
      net = ⟨IPMaskApply addr.As16 (CIDRMask (dtoi m).1 addr.BitLen),
        CIDRMask (dtoi m).1 addr.BitLen⟩ := by
  unfold ParseCIDR at h
  split at h
  · simp at h
  next a m hcut =>
    split at h
    · simp at h
    next addr haddr =>
      split at h
      · simp at h
      next hz =>
        dsimp only at h
        split at h
        · simp at h
        next hd =>
          simp only [Except.ok.injEq, Prod.mk.injEq] at h
          simp only [not_or, Bool.not_eq_false, not_not, not_lt] at hd hz
          exact ⟨a, m, addr, hcut, haddr, by simpa using hz, hd.1, hd.2.1, by omega, h.1.symm, h.2.symm⟩


theorem parseIpNet_of_ParseCIDR {s : String} {ip : List Nat} {net : IPNet}
    (h : ParseCIDR s = .ok (ip, net)) :
    parseIpNet s = .ok (IPString ip ++ "/" ++ IPString net.Mask, net) := by
  simp [parseIpNet, h]

/-- C2, as amended: for every text `s` that `ParseCIDR` accepts, `s` is an
address text `a`, a `/` and a prefix length text `m`; when the address is an
IPv4 address, `parseIpNet` returns the four parsed bytes of the address in
dotted decimal (host bits kept), a `/` and the dotted-decimal netmask of the
prefix length; when the address is an IPv6 address, it returns the text of the
address, a `/` and the mask in IPv6 text form. -/
theorem parseIpNet_mask_text (s : String) (ip : List Nat) (net : IPNet)
    (h : ParseCIDR s = .ok (ip, net)) :
    ∃ a m addr, cutAt '/' s.data = some (a, m) ∧ ParseAddr a = some addr ∧
      (dtoi m).2.1 = m.length ∧ (dtoi m).1 ≤ addr.BitLen ∧ ip = addr.As16 ∧
      ((∃ b0 b1 b2 b3, addr = .v4 [b0, b1, b2, b3] ∧
          parseIpNet s =
            .ok (dotted [b0, b1, b2, b3] ++ "/" ++ dotted (octets (netmask32 (dtoi m).1)), net)) ∨
        (∃ b, addr = .v6 b [] ∧
          parseIpNet s =
            .ok (IPString b ++ "/" ++ String.mk (string6 (CIDRMask (dtoi m).1 128)), net))) := by
  obtain ⟨a, m, addr, hcut, haddr, hz, -, hlen, hle, hip, hnet⟩ := ParseCIDR_ok h
  refine ⟨a, m, addr, hcut, haddr, hlen, hle, hip, ?_⟩
  have hp := parseIpNet_of_ParseCIDR h
  rcases parseAddrScan_shape a a haddr with ⟨b0, b1, b2, b3, rfl⟩ | ⟨b, z, rfl⟩
  · left
    refine ⟨b0, b1, b2, b3, rfl, ?_⟩
    have hm : net.Mask = CIDRMask (dtoi m).1 32 := by rw [hnet]; rfl
    rw [hp, hm, IPString_CIDRMask32 _ hle, hip]
    show Except.ok (IPString (v4InV6Prefix ++ [b0, b1, b2, b3]) ++ "/" ++ _, net) = _
    rw [IPString_v4in6, string4_eq_dotted]
  · right
    have hz0 : z = [] := hz
    subst hz0
    refine ⟨b, rfl, ?_⟩
    have hm : net.Mask = CIDRMask (dtoi m).1 128 := by rw [hnet]; rfl
    rw [hp, hm, IPString_CIDRMask128 _ hle, hip]
    rfl

/-- Witness of C2 as amended, on the example of the claim. -/
theorem parseIpNet_mask_text_witness :
    ParseCIDR "10.1.2.3/24" =
        .ok ([0, 0, 0, 0, 0, 0, 0, 0, 0, 0, 255, 255, 10, 1, 2, 3],
          ⟨[10, 1, 2, 0], [255, 255, 255, 0]⟩) ∧
      ∃ a m addr, cutAt '/' "10.1.2.3/24".data = some (a, m) ∧ ParseAddr a = some addr ∧
        (dtoi m).2.1 = m.length ∧ (dtoi m).1 ≤ addr.BitLen ∧
        [0, 0, 0, 0, 0, 0, 0, 0, 0, 0, 255, 255, 10, 1, 2, 3] = addr.As16 ∧
        ((∃ b0 b1 b2 b3, addr = .v4 [b0, b1, b2, b3] ∧
            parseIpNet "10.1.2.3/24" =
              .ok (dotted [b0, b1, b2, b3] ++ "/" ++ dotted (octets (netmask32 (dtoi m).1)),
                ⟨[10, 1, 2, 0], [255, 255, 255, 0]⟩)) ∨
          (∃ b, addr = .v6 b [] ∧
            parseIpNet "10.1.2.3/24" =
              .ok (IPString b ++ "/" ++ String.mk (string6 (CIDRMask (dtoi m).1 128)),
                ⟨[10, 1, 2, 0], [255, 255, 255, 0]⟩))) :=
  ⟨by decide, parseIpNet_mask_text "10.1.2.3/24" _ _ (by decide)⟩

/-- C2 fails as stated: `ParseCIDR` accepts `2001:db8::1/32`, and the mask
part of the text that `parseIpNet` returns for it is `ffff:ffff::`, which is
the dotted-decimal netmask of no prefix length. -/
theorem parseIpNet_ipv6_mask_not_dotted :
    (∃ r, ParseCIDR "2001:db8::1/32" = .ok r) ∧
      parseIpNet "2001:db8::1/32" =
        .ok ("2001:db8::1/ffff:ffff::",
          ⟨[32, 1, 13, 184, 0, 0, 0, 0, 0, 0, 0, 0, 0, 0, 0, 0],
            [255, 255, 255, 255, 0, 0, 0, 0, 0, 0, 0, 0, 0, 0, 0, 0]⟩) ∧
      ∀ ones, dotted (octets (netmask32 ones)) ≠ "ffff:ffff::" := by
  refine ⟨⟨_, by rfl⟩, by decide, ?_⟩
  intro ones hd
  have h1 : '.' ∈ (dotted (octets (netmask32 ones))).data := by
    rw [octets, ← string4_eq_dotted]
    simp [string4]
  rw [hd] at h1
  revert h1
  decide


/-! ## Re-parsing the text `ip/mask` -/

theorem digitChar_ne_slash (k : Nat) : Nat.digitChar k ≠ '/' := by
  by_cases h : k < 16
  · interval_cases k <;> decide
  · have hs : Nat.digitChar k = '*' := by
      unfold Nat.digitChar
      iterate 16 rw [if_neg (by omega)]
    rw [hs]
    decide

theorem toDigitsCore_no_slash (base : Nat) :
    ∀ fuel n acc, '/' ∉ acc → '/' ∉ Nat.toDigitsCore base fuel n acc := by
  intro fuel
  induction fuel with
  | zero => intro n acc h; simpa [Nat.toDigitsCore] using h
  | succ f ih =>
    intro n acc h
    rw [Nat.toDigitsCore]
    have h2 : '/' ∉ Nat.digitChar (n % base) :: acc := by
      intro hm
      rcases List.mem_cons.1 hm with hm | hm
      · exact digitChar_ne_slash _ hm.symm
      · exact h hm
    split
    · exact h2
    · exact ih _ _ h2

theorem toDigits_no_slash (base n : Nat) : '/' ∉ Nat.toDigits base n := by
  unfold Nat.toDigits
  exact toDigitsCore_no_slash base _ _ _ (by simp)

theorem string4_no_slash (b : List Nat) : '/' ∉ string4 b := by
  simp [string4, decimal, toDigits_no_slash]

theorem appendGroups_no_slash (b : List Nat) (zs ze : Nat) :
    ∀ fuel i, '/' ∉ appendGroups b zs ze fuel i := by
  intro fuel
  induction fuel with
  | zero => intro i; simp [appendGroups]
  | succ f ih =>
    intro i
    rw [appendGroups]
    repeat' split
    all_goals simp [hex, toDigits_no_slash, ih]

theorem hexString_no_slash (b : List Nat) : '/' ∉ hexString b := by
  simp only [hexString, List.mem_flatMap, List.mem_cons, List.mem_singleton, List.not_mem_nil,
    or_false, not_exists, not_and, not_or]
  intro x _
  exact ⟨fun h => digitChar_ne_slash _ h.symm, fun h => digitChar_ne_slash _ h.symm⟩

theorem IPString_no_slash (ip : List Nat) : '/' ∉ (IPString ip).data := by
  unfold IPString
  repeat' split
  · decide
  · simp only [List.mem_cons, not_or]
    exact ⟨by decide, hexString_no_slash ip⟩
  · exact string4_no_slash _
  · exact appendGroups_no_slash _ _ _ _ _

theorem cutAt_append (sep : Char) (a b : List Char) (h : sep ∉ a) :
    cutAt sep (a ++ sep :: b) = some (a, b) := by
  induction a with
  | nil => simp [cutAt]
  | cons c a ih =>
    have hc : c ≠ sep := fun e => h (by simp [e])
    have ha : sep ∉ a := fun e => h (by simp [e])
    simp [cutAt, hc, ih ha]

theorem ParseCIDR_error_of_dtoi {s : String} {a m : List Char}
    (hcut : cutAt '/' s.data = some (a, m))
    (hd : (dtoi m).2.2 = false ∨ (dtoi m).2.1 ≠ m.length) :
    ParseCIDR s = .error ⟨"CIDR address", s⟩ := by
  unfold ParseCIDR
  rw [hcut]
  dsimp only
  split
  · rfl
  · split
    · rfl
    · rw [if_pos (by tauto)]

theorem dtoi_mask32 : ∀ n, n ≤ 32 →
    (dtoi (IPString (CIDRMask n 32)).data).2.2 = false ∨
      (dtoi (IPString (CIDRMask n 32)).data).2.1 ≠ (IPString (CIDRMask n 32)).data.length := by
  decide

set_option maxRecDepth 1000000 in
theorem dtoi_mask128 : ∀ n, n ≤ 128 →
    (dtoi (IPString (CIDRMask n 128)).data).2.2 = false ∨
      (dtoi (IPString (CIDRMask n 128)).data).2.1 ≠ (IPString (CIDRMask n 128)).data.length := by
  decide!

/-- C3, as amended: `parseIpNet` is a function of its argument, and for every
text `s` that it accepts, the derived text `ip/mask` is not itself accepted:
`parseIpNet` returns the error of the CIDR parser for it, the mask part being
a netmask and not a prefix length. -/
theorem parseIpNet_derived_rejected (s ipMask : String) (net : IPNet)
    (h : parseIpNet s = .ok (ipMask, net)) :
    (∀ r, parseIpNet s = r → r = .ok (ipMask, net)) ∧
      parseIpNet ipMask = .error ⟨"CIDR address", ipMask⟩ := by
  refine ⟨fun r hr => by rw [← hr, h], ?_⟩
  unfold parseIpNet at h
  split at h
  · simp at h
  next ip ipNet hc =>
    simp only [Except.ok.injEq, Prod.mk.injEq] at h
    obtain ⟨hm, hn⟩ := h
    subst hn
    obtain ⟨a, m, addr, -, haddr, -, -, -, hle, -, hnet⟩ := ParseCIDR_ok hc
    have hcut : cutAt '/' ipMask.data = some ((IPString ip).data, (IPString ipNet.Mask).data) := by
      rw [← hm]
      simp only [String.data_append, List.append_assoc, List.singleton_append]
      exact cutAt_append '/' _ _ (IPString_no_slash ip)
    have hd : (dtoi (IPString ipNet.Mask).data).2.2 = false ∨
        (dtoi (IPString ipNet.Mask).data).2.1 ≠ (IPString ipNet.Mask).data.length := by
      rcases parseAddrScan_shape a a haddr with ⟨b0, b1, b2, b3, rfl⟩ | ⟨b, z, rfl⟩
      · have : ipNet.Mask = CIDRMask (dtoi m).1 32 := by rw [hnet]; rfl
        rw [this]
        exact dtoi_mask32 _ hle
      · have : ipNet.Mask = CIDRMask (dtoi m).1 128 := by rw [hnet]; rfl
        rw [this]
        exact dtoi_mask128 _ hle
    rw [parseIpNet, ParseCIDR_error_of_dtoi hcut hd]

/-- Witness of C3 as amended, on `10.1.2.3/24`. -/
theorem parseIpNet_derived_rejected_witness :
    parseIpNet "10.1.2.3/24" =
        .ok ("10.1.2.3/255.255.255.0", ⟨[10, 1, 2, 0], [255, 255, 255, 0]⟩) ∧
      (∀ r, parseIpNet "10.1.2.3/24" = r →
        r = .ok ("10.1.2.3/255.255.255.0", ⟨[10, 1, 2, 0], [255, 255, 255, 0]⟩)) ∧
      parseIpNet "10.1.2.3/255.255.255.0" =
        .error ⟨"CIDR address", "10.1.2.3/255.255.255.0"⟩ :=
  ⟨by decide, parseIpNet_derived_rejected "10.1.2.3/24" _ _ (by decide)⟩

/-- C3 fails as stated: `parseIpNet` accepts `10.1.2.3/24` and derives the text
`10.1.2.3/255.255.255.0`, and parsing that text again with `parseIpNet` does
not succeed. -/
theorem parseIpNet_reparse_fails :
    parseIpNet "10.1.2.3/24" =
        .ok ("10.1.2.3/255.255.255.0", ⟨[10, 1, 2, 0], [255, 255, 255, 0]⟩) ∧
      ¬ ∃ r, parseIpNet "10.1.2.3/255.255.255.0" = .ok r := by
  refine ⟨by decide, ?_⟩
  rintro ⟨r, hr⟩
  revert hr
  have : parseIpNet "10.1.2.3/255.255.255.0" =
      .error ⟨"CIDR address", "10.1.2.3/255.255.255.0"⟩ := by decide
  rw [this]
  simp

/-! ## Resolvers -/

/-- C5, the code at the failing input: the text `<nil>` is not an address
(`ParseIP` returns `nil` for it), yet `SetGroup` accepts the record whose
resolver is `<nil>` and keeps that entry in `ClientDns`, because the text of
the `nil` address is `<nil>` and so passes the comparison of line 129. -/
theorem SetGroup_accepts_nil_dns :
    ParseIP "<nil>" = [] ∧ IPString [] = "<nil>" ∧
      (SetGroup sampleEnv nilDnsGroup).err = none ∧
      (SetGroup sampleEnv nilDnsGroup).g.ClientDns = [⟨"<nil>", "", ""⟩] := by
  decide

/-- When every stage before the authentication part passes, the checks of
`SetGroup` are the authentication part on the normalized record. -/
theorem setGroupChecks_eq_auth {env : Env} {g : Group} {ri re : List ValData}
    {acl : List GroupLinkAcl} {dns : List ValData}
    (hname : g.Name ≠ "")
    (hri : routeIncludeLoop g.RouteInclude [] = .ok ri)
    (hre : routeExcludeLoop g.RouteExclude [] = .ok re)
    (hacl : linkAclLoop g.LinkAcl [] = .ok acl)
    (hdns : clientDnsLoop g.ClientDns [] = some dns)
    (hreq : ¬ (defaultRoute ri = true ∧ dns.length = 0))
    (hconf : ¬ (TrimSpace g.DsIncludeDomains ≠ "" ∧ TrimSpace g.DsExcludeDomains ≠ ""))
    (hinc : CheckDomainNames (TrimSpace g.DsIncludeDomains) = none)
    (hexc : CheckDomainNames (TrimSpace g.DsExcludeDomains) = none) :
    setGroupChecks env g = setGroupAuth env (normalized g ri re acl dns) := by
  unfold setGroupChecks
  rw [if_neg hname]
  simp only [hri, hre, hacl, hdns]
  rw [if_neg hreq, if_neg hconf]
  simp only [hinc, hexc]
  rfl

/-- The error of `SetGroup` is the error of its checks when they fail. -/
theorem SetGroup_err_of_checks {env : Env} {g g1 : Group} {e : SetGroupError}
    (h : setGroupChecks env g = (g1, some e)) : (SetGroup env g).err = some e := by
  simp [SetGroup, h]

/-- An error of `SetGroup` that is not an error of the persistence layer is
the error of its checks. -/
theorem SetGroup_err_checks {env : Env} {g : Group} {e : SetGroupError}
    (h : (SetGroup env g).err = some e) (hdb : ∀ m, e ≠ .db m) :
    (setGroupChecks env g).2 = some e := by
  cases hc : setGroupChecks env g with
  | mk g1 o =>
    cases o with
    | some e1 =>
      simp only [SetGroup, hc, Option.some.injEq] at h
      simp [h]
    | none =>
      simp only [SetGroup, hc] at h
      split at h
      · cases hs : env.Set { g1 with UpdatedAt := env.now } with
        | none => simp [hs] at h
        | some m =>
          simp only [hs, Option.map_some', Option.some.injEq] at h
          exact absurd h.symm (hdb m)
      · cases hs : env.Add { g1 with UpdatedAt := env.now } with
        | none => simp [hs] at h
        | some m =>
          simp only [hs, Option.map_some', Option.some.injEq] at h
          exact absurd h.symm (hdb m)

theorem setGroupAuth_err_ne_dnsRequired (env : Env) (g : Group) :
    (setGroupAuth env g).2 ≠ some .dnsRequired := by
  unfold setGroupAuth
  dsimp only
  repeat' split
  all_goals simp

theorem defaultRoute_iff (ri : List ValData) :
    defaultRoute ri = true ↔ ri = [] ∨ ∃ v, ri = [v] ∧ v.Val = "all" := by
  match ri with
  | [] => simp [defaultRoute]
  | [v] => simp [defaultRoute]
  | _ :: _ :: _ => simp [defaultRoute]

theorem setGroupChecks_dnsRequired_iff {env : Env} {g : Group} {ri re : List ValData}
    {acl : List GroupLinkAcl} {dns : List ValData}
    (hname : g.Name ≠ "")
    (hri : routeIncludeLoop g.RouteInclude [] = .ok ri)
    (hre : routeExcludeLoop g.RouteExclude [] = .ok re)
    (hacl : linkAclLoop g.LinkAcl [] = .ok acl)
    (hdns : clientDnsLoop g.ClientDns [] = some dns) :
    (setGroupChecks env g).2 = some .dnsRequired ↔ defaultRoute ri = true ∧ dns.length = 0 := by
  by_cases hreq : defaultRoute ri = true ∧ dns.length = 0
  · simp only [hreq, and_self, iff_true]
    unfold setGroupChecks
    rw [if_neg hname]
    simp only [hri, hre, hacl, hdns]
    rw [if_pos hreq]
  · simp only [hreq, iff_false]
    unfold setGroupChecks
    rw [if_neg hname]
    simp only [hri, hre, hacl, hdns]
    rw [if_neg hreq]
    split
    · simp
    · split
      · simp
      · split
        · simp
        · exact setGroupAuth_err_ne_dnsRequired _ _

theorem forall₂_incl_default {l ri : List ValData} (h : List.Forall₂ InclRel l ri) :
    (ri = [] ∨ ∃ v, ri = [v] ∧ v.Val = "all") ↔ (l = [] ∨ ∃ v, l = [v] ∧ v.Val = "all") := by
  cases h with
  | nil => simp
  | cons hab ht =>
    cases ht with
    | nil =>
      simp only [List.cons.injEq, and_true, exists_eq_left', reduceCtorEq, false_or]
      rw [hab.1]
    | cons _ _ => simp

/-- C6: for a record with a non-empty name whose route, rule and resolver
entries all pass their checks, `SetGroup` fails with the error that a
resolver is required exactly when the input has no non-empty resolver entry
and the non-empty entries of `RouteInclude` are none or the single entry
`all`; and for every record that `SetGroup` accepts, when the resulting
`RouteInclude` is empty or the single entry `all`, the resulting `ClientDns`
is not empty. -/
theorem SetGroup_dns_required (env : Env) (g : Group) :
    (∀ ri re acl dns, g.Name ≠ "" →
        routeIncludeLoop g.RouteInclude [] = .ok ri →
        routeExcludeLoop g.RouteExclude [] = .ok re →
        linkAclLoop g.LinkAcl [] = .ok acl →
        clientDnsLoop g.ClientDns [] = some dns →
        ((SetGroup env g).err = some .dnsRequired ↔
          g.ClientDns.filter (fun v => v.Val ≠ "") = [] ∧
            (g.RouteInclude.filter (fun v => v.Val ≠ "") = [] ∨
              ∃ v, g.RouteInclude.filter (fun v => v.Val ≠ "") = [v] ∧ v.Val = "all"))) ∧
      ((SetGroup env g).err = none →
        ((SetGroup env g).g.RouteInclude = [] ∨
          ∃ v, (SetGroup env g).g.RouteInclude = [v] ∧ v.Val = "all") →
        (SetGroup env g).g.ClientDns ≠ []) := by
  constructor
  · intro ri re acl dns hname hri hre hacl hdns
    obtain ⟨r1, e1, f1⟩ := routeIncludeLoop_ok _ _ _ hri
    obtain ⟨e2, -⟩ := clientDnsLoop_ok _ _ _ hdns
    simp only [List.nil_append] at e1 e2
    subst e1
    rw [← forall₂_incl_default f1, ← e2, ← defaultRoute_iff, and_comm,
      ← @List.length_eq_zero _ dns, ← setGroupChecks_dnsRequired_iff hname hri hre hacl hdns]
    constructor
    · intro h
      exact SetGroup_err_checks h (by simp)
    · intro h
      cases hc : setGroupChecks env g with
      | mk g1 o =>
        rw [hc] at h
        exact SetGroup_err_of_checks (by rw [hc]; exact congrArg _ h)
  · intro h hdef hnil
    obtain ⟨g1, hc, hg⟩ := SetGroup_ok h
    obtain ⟨ri, re, acl, dns, -, -, -, -, -, hreq, -, -, -, hauth⟩ := setGroupChecks_ok hc
    have hf := setGroupAuth_fields env (normalized g ri re acl dns)
    rw [hauth] at hf
    have hi : (SetGroup env g).g.RouteInclude = ri := by
      rw [hg]; show g1.RouteInclude = ri; rw [show g1 = _ from hf]; rfl
    have hd : (SetGroup env g).g.ClientDns = dns := by
      rw [hg]; show g1.ClientDns = dns; rw [show g1 = _ from hf]; rfl
    rw [hi] at hdef
    rw [hd] at hnil
    exact hreq ⟨(defaultRoute_iff ri).2 hdef, by simp [hnil]⟩

/-- Witness of C6: the split-tunnel record with the single route `10.0.0.0/24`
and no resolver passes its checks and is accepted, so the error that a
resolver is required is not returned for it. -/
theorem SetGroup_dns_required_witness :
    (SetGroup sampleEnv splitNoDnsGroup).err = none ∧
      ((SetGroup sampleEnv splitNoDnsGroup).err = some .dnsRequired ↔
        splitNoDnsGroup.ClientDns.filter (fun v => v.Val ≠ "") = [] ∧
          (splitNoDnsGroup.RouteInclude.filter (fun v => v.Val ≠ "") = [] ∨
            ∃ v, splitNoDnsGroup.RouteInclude.filter (fun v => v.Val ≠ "") = [v] ∧
              v.Val = "all")) ∧
      (((SetGroup sampleEnv sampleGroup).g.RouteInclude = [] ∨
          ∃ v, (SetGroup sampleEnv sampleGroup).g.RouteInclude = [v] ∧ v.Val = "all") →
        (SetGroup sampleEnv sampleGroup).g.ClientDns ≠ []) :=
  ⟨by decide,
    (SetGroup_dns_required sampleEnv splitNoDnsGroup).1
      [⟨"10.0.0.0/24", "10.0.0.0/255.255.255.0", ""⟩] [] [] []
      (by decide) (by decide) (by decide) (by decide) (by decide),
    (SetGroup_dns_required sampleEnv sampleGroup).2 (by decide)⟩

/-! ## Domain fields -/

/-- C7: a record whose `DsIncludeDomains` and `DsExcludeDomains` are both
non-empty after trimming white space is rejected by `SetGroup`; and for
every record that `SetGroup` accepts, the stored fields are the trimmed
inputs and at most one of them is non-empty. -/
theorem SetGroup_domain_exclusive (env : Env) (g : Group) :
    (TrimSpace g.DsIncludeDomains ≠ "" ∧ TrimSpace g.DsExcludeDomains ≠ "" →
        (SetGroup env g).err ≠ none) ∧
      ((SetGroup env g).err = none →
        (SetGroup env g).g.DsIncludeDomains = TrimSpace g.DsIncludeDomains ∧
          (SetGroup env g).g.DsExcludeDomains = TrimSpace g.DsExcludeDomains ∧
          ((SetGroup env g).g.DsIncludeDomains = "" ∨
            (SetGroup env g).g.DsExcludeDomains = "")) := by
  have key : (SetGroup env g).err = none →
      (SetGroup env g).g.DsIncludeDomains = TrimSpace g.DsIncludeDomains ∧
        (SetGroup env g).g.DsExcludeDomains = TrimSpace g.DsExcludeDomains ∧
        ¬ (TrimSpace g.DsIncludeDomains ≠ "" ∧ TrimSpace g.DsExcludeDomains ≠ "") := by
    intro h
    obtain ⟨g1, hc, hg⟩ := SetGroup_ok h
    obtain ⟨ri, re, acl, dns, -, -, -, -, -, -, hconf, -, -, hauth⟩ := setGroupChecks_ok hc
    have hf := setGroupAuth_fields env (normalized g ri re acl dns)
    rw [hauth] at hf
    refine ⟨?_, ?_, hconf⟩
    · rw [hg]; show g1.DsIncludeDomains = _; rw [show g1 = _ from hf]; rfl
    · rw [hg]; show g1.DsExcludeDomains = _; rw [show g1 = _ from hf]; rfl
  constructor
  · intro hboth h
    exact (key h).2.2 hboth
  · intro h
    obtain ⟨h1, h2, h3⟩ := key h
    refine ⟨h1, h2, ?_⟩
    rw [h1, h2]
    by_cases hi : TrimSpace g.DsIncludeDomains = ""
    · exact Or.inl hi
    · right
      by_contra he
      exact h3 ⟨hi, he⟩

/-- Witness of C7: the record with `a.com` and `b.com` in the two fields is
rejected with the conflict error, and the accepted sample record stores the
trimmed field `a.com`. -/
theorem SetGroup_domain_exclusive_witness :
    (SetGroup sampleEnv bothDomainsGroup).err = some .domainConflict ∧
      (SetGroup sampleEnv bothDomainsGroup).err ≠ none ∧
      (SetGroup sampleEnv sampleGroup).g.DsIncludeDomains = "a.com" ∧
      (SetGroup sampleEnv sampleGroup).g.DsIncludeDomains =
        TrimSpace sampleGroup.DsIncludeDomains ∧
      (SetGroup sampleEnv sampleGroup).g.DsExcludeDomains =
        TrimSpace sampleGroup.DsExcludeDomains ∧
      ((SetGroup sampleEnv sampleGroup).g.DsIncludeDomains = "" ∨
        (SetGroup sampleEnv sampleGroup).g.DsExcludeDomains = "") :=
  ⟨by decide, (SetGroup_domain_exclusive sampleEnv bothDomainsGroup).1 (by decide), by decide,
    (SetGroup_domain_exclusive sampleEnv sampleGroup).2 (by decide)⟩

/-! ## Authentication -/

theorem setGroupAuth_local (env : Env) (g : Group)
    (h : g.Auth = [] ∨ g.Auth.lookup "type" = some (.str "local")) :
    setGroupAuth env g = ({ g with Auth := defAuth }, none) := by
  unfold setGroupAuth
  rcases h with h | h
  · simp [h, defAuth, List.lookup]
  · by_cases h0 : g.Auth.length = 0
    · simp [h0, defAuth, List.lookup]
    · simp [h0, h]

/-- C10: for a record that passes every check before the authentication
part, when its `Auth` is absent or empty, or the type of its `Auth` is
`local` whatever other keys it has, the checks of `SetGroup` succeed and
`SetGroup` leaves in `Auth` exactly the one-key map `{type: local}`. -/
theorem SetGroup_auth_local (env : Env) (g : Group) (ri re : List ValData)
    (acl : List GroupLinkAcl) (dns : List ValData)
    (hname : g.Name ≠ "")
    (hri : routeIncludeLoop g.RouteInclude [] = .ok ri)
    (hre : routeExcludeLoop g.RouteExclude [] = .ok re)
    (hacl : linkAclLoop g.LinkAcl [] = .ok acl)
    (hdns : clientDnsLoop g.ClientDns [] = some dns)
    (hreq : ¬ (defaultRoute ri = true ∧ dns.length = 0))
    (hconf : ¬ (TrimSpace g.DsIncludeDomains ≠ "" ∧ TrimSpace g.DsExcludeDomains ≠ ""))
    (hinc : CheckDomainNames (TrimSpace g.DsIncludeDomains) = none)
    (hexc : CheckDomainNames (TrimSpace g.DsExcludeDomains) = none)
    (hauth : g.Auth = [] ∨ g.Auth.lookup "type" = some (.str "local")) :
    (setGroupChecks env g).2 = none ∧
      (SetGroup env g).g.Auth = [("type", .str "local")] := by
  have hc := @setGroupChecks_eq_auth env g ri re acl dns hname hri hre hacl hdns hreq hconf hinc hexc
  rw [setGroupAuth_local env (normalized g ri re acl dns) hauth] at hc
  refine ⟨by rw [hc], ?_⟩
  simp only [SetGroup, hc]
  split <;> rfl

/-- Witness of C10: the record whose `Auth` has the type `local` and a
further key `extra`. -/
theorem SetGroup_auth_local_witness :
    splitNoDnsGroup.Auth = [("type", .str "local"), ("extra", .other "1")] ∧
      (setGroupChecks sampleEnv splitNoDnsGroup).2 = none ∧
      (SetGroup sampleEnv splitNoDnsGroup).g.Auth = [("type", .str "local")] :=
  ⟨by decide,
    SetGroup_auth_local sampleEnv splitNoDnsGroup
      [⟨"10.0.0.0/24", "10.0.0.0/255.255.255.0", ""⟩] [] [] []
      (by decide) (by decide) (by decide) (by decide) (by decide) (by decide) (by decide)
      (by decide) (by decide) (by decide)⟩

/-! ## `CheckDomainNames` -/

theorem ValidateDomainName_empty : ValidateDomainName "" = false := by decide

theorem checkDomainLoop_none (l : List String) :
    checkDomainLoop l = none ↔ ∀ p ∈ l, ValidateDomainName p = true := by
  induction l with
  | nil => simp [checkDomainLoop]
  | cons p rest ih =>
    rw [checkDomainLoop]
    by_cases hp : p = ""
    · subst hp
      simp [ValidateDomainName_empty]
    · by_cases hv : ValidateDomainName p = true
      · simp [hp, hv, ih]
      · simp [hp, hv]

theorem checkDomainLoop_some (l : List String) (e : DomainError)
    (h : checkDomainLoop l = some e) :
    ∃ pre p post, l = pre ++ p :: post ∧ (∀ q ∈ pre, ValidateDomainName q = true) ∧
      ValidateDomainName p = false ∧
      e = if p = "" then .emptyPiece p else .badName p := by
  induction l with
  | nil => simp [checkDomainLoop] at h
  | cons p rest ih =>
    rw [checkDomainLoop] at h
    by_cases hp : p = ""
    · subst hp
      simp only [if_true, Option.some.injEq] at h
      exact ⟨[], "", rest, rfl, by simp, ValidateDomainName_empty, by simp [h]⟩
    · rw [if_neg hp] at h
      by_cases hv : ValidateDomainName p = true
      · simp only [hv, Bool.not_true, Bool.false_eq_true, if_false] at h
        obtain ⟨pre, q, post, h1, h2, h3, h4⟩ := ih h
        refine ⟨p :: pre, q, post, by simp [h1], ?_, h3, h4⟩
        intro x hx
        rcases List.mem_cons.1 hx with rfl | hx
        · exact hv
        · exact h2 x hx
      · simp only [hv, Bool.not_false, if_true, Option.some.injEq] at h
        exact ⟨[], p, rest, rfl, by simp, by simpa using hv, by simp [hp, h]⟩

/-- C8: `CheckDomainNames d` returns no error exactly when `d` is empty or
every piece of `d` between commas satisfies `ValidateDomainName`; when it
returns an error, the error is that of the first piece, from the left, that
does not satisfy `ValidateDomainName` (the error of an empty piece when that
piece is empty); and a non-empty `d` with an empty piece is rejected. -/
theorem CheckDomainNames_spec (d : String) :
    (CheckDomainNames d = none ↔
        d = "" ∨ ∀ p ∈ SplitComma d, ValidateDomainName p = true) ∧
      (∀ e, CheckDomainNames d = some e →
        ∃ pre p post, SplitComma d = pre ++ p :: post ∧
          (∀ q ∈ pre, ValidateDomainName q = true) ∧ ValidateDomainName p = false ∧
          e = if p = "" then .emptyPiece p else .badName p) ∧
      (d ≠ "" → "" ∈ SplitComma d → CheckDomainNames d ≠ none) := by
  refine ⟨?_, ?_, ?_⟩
  · unfold CheckDomainNames
    by_cases hd : d = ""
    · simp [hd]
    · simp [hd, checkDomainLoop_none]
  · intro e h
    unfold CheckDomainNames at h
    by_cases hd : d = ""
    · simp [hd] at h
    · rw [if_neg hd] at h
      exact checkDomainLoop_some _ e h
  · intro hd hmem hc
    unfold CheckDomainNames at hc
    rw [if_neg hd] at hc
    have := (checkDomainLoop_none _).1 hc "" hmem
    rw [ValidateDomainName_empty] at this
    exact absurd this (by simp)

/-- Witness of C8: `a.com,,b.com` has an empty second piece and is rejected
with the error of that piece; `a.com,b.com` is accepted. -/
theorem CheckDomainNames_spec_witness :
    CheckDomainNames "a.com,,b.com" = some (.emptyPiece "") ∧
      CheckDomainNames "a.com,b.com" = none ∧
      CheckDomainNames "a.com,,b.com" ≠ none :=
  ⟨by decide, by decide, (CheckDomainNames_spec "a.com,,b.com").2.2 (by decide) (by decide)⟩

open RegularExpression

/-! ## The pattern of `ValidateDomainName` -/

theorem toNat_ofNat_of_lt (m : Nat) (h : m < 0xD800) : (Char.ofNat m).toNat = m := by
  unfold Char.ofNat
  rw [dif_pos (Or.inl h)]
  rfl

theorem mem_charRange (lo hi c : Char) (hhi : hi.toNat < 0xD800) :
    c ∈ charRange lo hi ↔ lo.toNat ≤ c.toNat ∧ c.toNat ≤ hi.toNat := by
  unfold charRange
  simp only [List.mem_map, List.mem_range]
  constructor
  · rintro ⟨k, hk, rfl⟩
    rw [toNat_ofNat_of_lt _ (by omega)]
    omega
  · rintro ⟨h1, h2⟩
    refine ⟨c.toNat - lo.toNat, by omega, ?_⟩
    rw [Nat.add_sub_cancel' h1]
    exact Char.ofNat_toNat c

theorem mem_cls (cs : List Char) (x : List Char) :
    x ∈ (Regexp.cls cs).toRE.matches' ↔ ∃ c ∈ cs, x = [c] := by
  unfold Regexp.toRE
  induction cs with
  | nil => simp [Language.not_mem_zero]
  | cons a cs ih =>
    simp only [List.foldr_cons, matches'_add, Language.mem_add, ih, matches'_char,
      List.mem_cons, exists_eq_or_imp]
    rfl

theorem mem_chr (a : Char) (x : List Char) :
    x ∈ (Regexp.chr a).toRE.matches' ↔ x = [a] := by
  unfold Regexp.toRE
  rw [matches'_char]
  rfl

theorem mem_upTo (r : RegularExpression Char) (p : Char → Prop)
    (hr : ∀ y, y ∈ r.matches' ↔ ∃ c, p c ∧ y = [c]) :
    ∀ n x, x ∈ (upTo r n).matches' ↔ x.length ≤ n ∧ ∀ c ∈ x, p c := by
  intro n
  induction n with
  | zero =>
    intro x
    simp only [upTo, matches'_epsilon, Language.mem_one, Nat.le_zero, List.length_eq_zero]
    constructor
    · rintro rfl; simp
    · exact fun h => h.1
  | succ n ih =>
    intro x
    simp only [upTo, matches'_add, matches'_mul, matches'_epsilon, Language.mem_add,
      Language.mem_one, Language.mem_mul, hr, ih]
    constructor
    · rintro (rfl | ⟨a, ⟨c, hc, rfl⟩, b, ⟨hb1, hb2⟩, rfl⟩)
      · simp
      · refine ⟨by simp; omega, ?_⟩
        intro d hd
        rcases List.mem_cons.1 hd with rfl | hd
        · exact hc
        · exact hb2 d hd
    · rintro ⟨h1, h2⟩
      cases x with
      | nil => exact Or.inl rfl
      | cons c t =>
        right
        refine ⟨[c], ⟨c, h2 c (by simp), rfl⟩, t, ⟨?_, fun d hd => h2 d (by simp [hd])⟩, rfl⟩
        simp at h1
        omega

theorem mem_exactly (r : RegularExpression Char) (p : Char → Prop)
    (hr : ∀ y, y ∈ r.matches' ↔ ∃ c, p c ∧ y = [c]) (k : RegularExpression Char) :
    ∀ n x, x ∈ (exactly r n k).matches' ↔
      ∃ a b, x = a ++ b ∧ a.length = n ∧ (∀ c ∈ a, p c) ∧ b ∈ k.matches' := by
  intro n
  induction n with
  | zero =>
    intro x
    simp only [exactly, List.length_eq_zero]
    constructor
    · intro h; exact ⟨[], x, rfl, rfl, by simp, h⟩
    · rintro ⟨a, b, rfl, rfl, -, hb⟩; exact hb
  | succ n ih =>
    intro x
    simp only [exactly, matches'_mul, Language.mem_mul, hr, ih]
    constructor
    · rintro ⟨a, ⟨c, hc, rfl⟩, y, ⟨a1, b, rfl, hl, ha, hb⟩, rfl⟩
      refine ⟨c :: a1, b, rfl, by simp [hl], ?_, hb⟩
      intro d hd
      rcases List.mem_cons.1 hd with rfl | hd
      · exact hc
      · exact ha d hd
    · rintro ⟨a, b, rfl, hl, ha, hb⟩
      cases a with
      | nil => simp at hl
      | cons c a1 =>
        refine ⟨[c], ⟨c, ha c (by simp), rfl⟩, a1 ++ b,
          ⟨a1, b, rfl, by simpa using hl, fun d hd => ha d (by simp [hd]), hb⟩, rfl⟩

theorem mem_rep_cls (cs : List Char) (lo hi : Nat) (hle : lo ≤ hi) (x : List Char) :
    x ∈ (Regexp.rep (.cls cs) lo hi).toRE.matches' ↔
      lo ≤ x.length ∧ x.length ≤ hi ∧ ∀ c ∈ x, c ∈ cs := by
  have hr : ∀ y, y ∈ (Regexp.cls cs).toRE.matches' ↔ ∃ c, c ∈ cs ∧ y = [c] := by
    intro y; rw [mem_cls]
  rw [Regexp.toRE, mem_exactly _ _ hr]
  simp only [mem_upTo _ _ hr]
  constructor
  · rintro ⟨a, b, rfl, hl, ha, hb1, hb2⟩
    refine ⟨by simp; omega, by simp; omega, ?_⟩
    intro c hc
    rcases List.mem_append.1 hc with h | h
    · exact ha c h
    · exact hb2 c h
  · rintro ⟨h1, h2, h3⟩
    refine ⟨x.take lo, x.drop lo, (List.take_append_drop lo x).symm, by simp; omega,
      fun c hc => h3 c (List.mem_of_mem_take hc), by simp; omega,
      fun c hc => h3 c (List.mem_of_mem_drop hc)⟩

theorem toRE_cat (a b : Regexp) : (Regexp.cat a b).toRE = a.toRE * b.toRE := rfl

theorem toRE_plus (a : Regexp) : (Regexp.plus a).toRE = a.toRE * star a.toRE := rfl

theorem mem_clsAlnum (c : Char) : c ∈ clsAlnum ↔ isAlnum c = true := by
  simp only [clsAlnum, List.mem_append, mem_charRange _ _ _ (show ('z').toNat < 0xD800 by decide),
    mem_charRange _ _ _ (show ('Z').toNat < 0xD800 by decide),
    mem_charRange _ _ _ (show ('9').toNat < 0xD800 by decide), isAlnum, Bool.or_eq_true,
    Bool.and_eq_true, decide_eq_true_eq]
  rfl

theorem mem_clsAlnumHyphen (c : Char) : c ∈ clsAlnumHyphen ↔ isAlnum c = true ∨ c = '-' := by
  simp only [clsAlnumHyphen, List.mem_cons, mem_clsAlnum]
  tauto

theorem mem_clsAlpha (c : Char) : c ∈ clsAlpha ↔ isAlpha c = true := by
  simp only [clsAlpha, List.mem_append, mem_charRange _ _ _ (show ('z').toNat < 0xD800 by decide),
    mem_charRange _ _ _ (show ('Z').toNat < 0xD800 by decide), isAlpha, Bool.or_eq_true,
    Bool.and_eq_true, decide_eq_true_eq]
  rfl

/-- The language of the group `[a-zA-Z0-9][-a-zA-Z0-9]{0,62}\.` of the pattern. -/
theorem mem_labelDot (y : List Char) :
    y ∈ (Regexp.cat (.cls clsAlnum)
        (.cat (.rep (.cls clsAlnumHyphen) 0 62) (.chr '.'))).toRE.matches' ↔
      ∃ l, PatternLabel l ∧ y = l ++ ['.'] := by
  simp only [toRE_cat, matches'_mul, Language.mem_mul, mem_cls, mem_chr,
    mem_rep_cls _ 0 62 (by omega), mem_clsAlnum, mem_clsAlnumHyphen]
  constructor
  · rintro ⟨a, ⟨c, hc, rfl⟩, b, ⟨r, ⟨-, hr1, hr2⟩, d, rfl, rfl⟩, rfl⟩
    exact ⟨c :: r, ⟨c, r, rfl, hc, hr1, hr2⟩, by simp⟩
  · rintro ⟨l, ⟨c, r, rfl, hc, hr1, hr2⟩, rfl⟩
    exact ⟨[c], ⟨c, hc, rfl⟩, r ++ ['.'], ⟨r, ⟨by omega, hr1, hr2⟩, ['.'], rfl, rfl⟩, by simp⟩

theorem forall_labelDot (Ls : List (List Char)) :
    (∀ y ∈ Ls, ∃ l, PatternLabel l ∧ y = l ++ ['.']) ↔
      ∃ labels : List (List Char), (∀ l ∈ labels, PatternLabel l) ∧ Ls = labels.map (fun l => l ++ ['.']) := by
  induction Ls with
  | nil =>
    simp only [List.not_mem_nil, false_implies, implies_true, true_iff]
    exact ⟨[], by simp, rfl⟩
  | cons y Ls ih =>
    simp only [List.mem_cons, forall_eq_or_imp, ih]
    constructor
    · rintro ⟨⟨l, hl, rfl⟩, labels, h1, rfl⟩
      refine ⟨l :: labels, ?_, rfl⟩
      intro x hx
      rcases List.mem_cons.1 hx with rfl | hx
      · exact hl
      · exact h1 x hx
    · rintro ⟨labels, h1, h2⟩
      cases labels with
      | nil => simp at h2
      | cons l labels =>
        simp only [List.map_cons, List.cons.injEq] at h2
        exact ⟨⟨l, h1 l (by simp), h2.1⟩, labels, fun x hx => h1 x (by simp [hx]), h2.2⟩

/-- C9, as amended: `ValidateDomainName d` is true exactly when `d` is one or
more labels each followed by a dot, then a top-level label of 2 to 18 ASCII
letters and nothing else, where every leading label is an alphanumeric
character followed by at most 62 characters that are each an alphanumeric
character or `-` (so a label may end in `-` or have several `-` in a row). -/
theorem ValidateDomainName_iff (d : String) :
    ValidateDomainName d = true ↔ DomainShape PatternLabel d := by
  unfold ValidateDomainName Regexp.MatchString
  rw [rmatch_iff_matches']
  unfold domainRegExp
  rw [toRE_cat, toRE_plus, matches'_mul, matches'_mul, matches'_star]
  simp only [Language.mem_mul, Language.mem_kstar, mem_labelDot,
    mem_rep_cls _ 2 18 (by omega), mem_clsAlpha, forall_labelDot]
  unfold DomainShape TopLabel
  constructor
  · rintro ⟨u, ⟨y, ⟨l, hl, rfl⟩, z, ⟨Ls, rfl, labels, hlab, rfl⟩, rfl⟩, t, ht, hx⟩
    refine ⟨l :: labels, t, by simp, ?_, ht, ?_⟩
    · intro x hx
      rcases List.mem_cons.1 hx with rfl | hx
      · exact hl
      · exact hlab x hx
    · rw [← hx]
      simp
  · rintro ⟨labels, t, hne, hlab, ht, hx⟩
    cases labels with
    | nil => exact absurd rfl hne
    | cons l labels =>
      refine ⟨l ++ ['.'] ++ (labels.map (fun l => l ++ ['.'])).flatten,
        ⟨l ++ ['.'], ⟨l, hlab l (by simp), rfl⟩, _,
          ⟨_, rfl, labels, fun x hx => hlab x (by simp [hx]), rfl⟩, rfl⟩, t, ht, ?_⟩
      rw [hx]
      simp

theorem intercalate_joined (words : List (List Char))
    (hw : ∀ w ∈ words, w ≠ [] ∧ ∀ x ∈ w, isAlnum x = true) (hne : words ≠ []) :
    '.' ∉ List.intercalate ['-'] words ∧
      ∃ init x, List.intercalate ['-'] words = init ++ [x] ∧ isAlnum x = true := by
  induction words with
  | nil => exact absurd rfl hne
  | cons w ws ih =>
    have hw0 := hw w (by simp)
    have hdot : '.' ∉ w := fun h => by
      have := hw0.2 _ h
      revert this
      decide
    cases ws with
    | nil =>
      have hI : List.intercalate ['-'] [w] = w := by simp [List.intercalate]
      rw [hI]
      refine ⟨hdot, w.dropLast, w.getLast hw0.1, (List.dropLast_append_getLast hw0.1).symm, ?_⟩
      exact hw0.2 _ (List.getLast_mem hw0.1)
    | cons w2 ws =>
      obtain ⟨h1, init, x, h2, h3⟩ := ih (fun v hv => hw v (by simp [hv])) (by simp)
      have hI : List.intercalate ['-'] (w :: w2 :: ws) =
          w ++ '-' :: List.intercalate ['-'] (w2 :: ws) := by
        simp [List.intercalate]
      rw [hI]
      refine ⟨?_, w ++ '-' :: init, x, by rw [h2]; simp, h3⟩
      intro hm
      rcases List.mem_append.1 hm with hm | hm
      · exact hdot hm
      · rcases List.mem_cons.1 hm with hm | hm
        · revert hm; decide
        · exact h1 hm

/-- C9 fails as stated: `ValidateDomainName` accepts `a-.com`, whose first
label `a-` ends in `-` and so is not a sequence of alphanumerics joined by
`-`. -/
theorem ValidateDomainName_trailing_hyphen :
    ValidateDomainName "a-.com" = true ∧ ¬ DomainShape JoinedLabel "a-.com" := by
  refine ⟨by decide, ?_⟩
  rintro ⟨labels, tld, hne, hlab, -, hd⟩
  cases labels with
  | nil => exact hne rfl
  | cons l ls =>
    obtain ⟨-, -, words, hwne, hw, hl⟩ := hlab l (by simp)
    obtain ⟨hdot, init, x, hx, hal⟩ := intercalate_joined words hw hwne
    rw [← hl] at hdot hx
    have hcut := cutAt_append '.' l ((ls.map (fun l => l ++ ['.'])).flatten ++ tld) hdot
    have hd2 : "a-.com".data = l ++ '.' :: ((ls.map (fun l => l ++ ['.'])).flatten ++ tld) := by
      rw [hd]; simp
    rw [← hd2] at hcut
    have hc : cutAt '.' "a-.com".data = some (['a', '-'], ['c', 'o', 'm']) := by decide
    rw [hc] at hcut
    simp only [Option.some.injEq, Prod.mk.injEq] at hcut
    rw [← hcut.1] at hx
    have hlast := congrArg List.getLast? hx
    simp at hlast
    rw [← hlast] at hal
    revert hal
    decide

/-- Some of the rejections that C9 lists, and some texts that are accepted. -/
theorem ValidateDomainName_examples :
    ValidateDomainName "localhost" = false ∧ ValidateDomainName "-a.com" = false ∧
      ValidateDomainName "a.c0m" = false ∧ ValidateDomainName "a.com\n" = false ∧
      ValidateDomainName "www.example.com" = true ∧ ValidateDomainName "a--b.io" = true := by
  decide

/-! ## The authentication part -/

/-- The three ways the authentication part of `SetGroup` ends. -/
theorem setGroupAuth_cases (env : Env) (g : Group) :
    ((effectiveAuth g).lookup "type" = some (.str "local") ∧
        setGroupAuth env g = ({ g with Auth := defAuth }, none)) ∨
      ((effectiveAuth g).lookup "type" = some (.str "radius") ∧
        setGroupAuth env g =
          ({ g with Auth := effectiveAuth g },
            (checkRadiusData env (effectiveAuth g)).map .radius)) ∨
      ((effectiveAuth g).lookup "type" ≠ some (.str "local") ∧
        (effectiveAuth g).lookup "type" ≠ some (.str "radius") ∧
        setGroupAuth env g =
          ({ g with Auth := effectiveAuth g },
            some (.unknownAuth ((effectiveAuth g).lookup "type")))) := by
  have hg1 : (if g.Auth.length = 0 then { g with Auth := defAuth } else g) =
      { g with Auth := effectiveAuth g } := by
    unfold effectiveAuth
    split <;> rfl
  unfold setGroupAuth
  simp only [hg1]
  generalize effectiveAuth g = a
  cases hl : List.lookup "type" a with
  | none => right; right; simp
  | some v =>
    cases v with
    | other j => right; right; simp
    | str s =>
      by_cases h1 : s = "local"
      · subst h1; left; simp
      · by_cases h2 : s = "radius"
        · subst h2
          right; left
          refine ⟨rfl, ?_⟩
          cases checkRadiusData env a <;> simp
        · right; right
          refine ⟨by simpa using h1, by simpa using h2, ?_⟩
          split
          · simp_all
          · simp_all
          · rfl

/-- The checks of `SetGroup` end in one of the ways of `ChecksTrace`. -/
theorem setGroupChecks_trace (env : Env) (g : Group) :
    ChecksTrace env g (setGroupChecks env g) := by
  unfold setGroupChecks
  by_cases hname : g.Name = ""
  · rw [if_pos hname]; exact .name hname
  rw [if_neg hname]
  cases hri : routeIncludeLoop g.RouteInclude [] with
  | error e => exact .routeInclude e hname hri
  | ok ri =>
    dsimp only
    cases hre : routeExcludeLoop g.RouteExclude [] with
    | error e => exact .routeExclude ri e hname hri hre
    | ok re =>
      dsimp only
      cases hacl : linkAclLoop g.LinkAcl [] with
      | error e => exact .linkAcl ri re e hname hri hre hacl
      | ok acl =>
        dsimp only
        cases hdns : clientDnsLoop g.ClientDns [] with
        | none => exact .dnsIp ri re acl hname hri hre hacl hdns
        | some dns =>
          dsimp only
          by_cases hreq : defaultRoute ri = true ∧ dns.length = 0
          · rw [if_pos hreq]; exact .dnsRequired ri re acl dns hname hri hre hacl hdns hreq
          rw [if_neg hreq]
          by_cases hconf : TrimSpace g.DsIncludeDomains ≠ "" ∧ TrimSpace g.DsExcludeDomains ≠ ""
          · rw [if_pos hconf]
            exact .domainConflict ri re acl dns hname hri hre hacl hdns hreq hconf
          rw [if_neg hconf]
          cases hinc : CheckDomainNames (TrimSpace g.DsIncludeDomains) with
          | some e => exact .includeDomains ri re acl dns e hname hri hre hacl hdns hreq hconf hinc
          | none =>
            dsimp only
            cases hexc : CheckDomainNames (TrimSpace g.DsExcludeDomains) with
            | some e =>
              exact .excludeDomains ri re acl dns e hname hri hre hacl hdns hreq hconf hinc hexc
            | none => exact .auth ri re acl dns hname hri hre hacl hdns hreq hconf hinc hexc

theorem SetGroup_of_checks_err {env : Env} {g g1 : Group} {e : SetGroupError}
    (h : setGroupChecks env g = (g1, some e)) : SetGroup env g = ⟨g1, some e, []⟩ := by
  simp [SetGroup, h]

theorem SetGroup_of_checks_ok {env : Env} {g g1 : Group}
    (h : setGroupChecks env g = (g1, none)) :
    SetGroup env g =
      if g1.Id > 0 then
        ⟨{ g1 with UpdatedAt := env.now }, (env.Set { g1 with UpdatedAt := env.now }).map .db,
          [.set { g1 with UpdatedAt := env.now }]⟩
      else
        ⟨{ g1 with UpdatedAt := env.now }, (env.Add { g1 with UpdatedAt := env.now }).map .db,
          [.add { g1 with UpdatedAt := env.now }]⟩ := by
  simp [SetGroup, h]

theorem effectiveAuth_of_ne_nil {g : Group} (h : g.Auth ≠ []) : effectiveAuth g = g.Auth := by
  unfold effectiveAuth
  rw [if_neg (by simpa using h)]

theorem defAuth_lookup : defAuth.lookup "type" = some (.str "local") := by decide

/-- C11, as amended: when `SetGroup` succeeds, the type of the resulting
`Auth` is `local` or `radius`; and a record with a non-empty `Auth` whose
type is missing or is any other value is never accepted and never defaulted
to `local`: `SetGroup` returns an error, makes no call of the persistence
layer and leaves `Auth` as it was; the error is the one of the unknown
authentication type, with the value found under `type`, when the checks
before the authentication part pass (an earlier failing check returns its
own error). -/
theorem SetGroup_auth_type (env : Env) (g : Group) :
    ((SetGroup env g).err = none →
        (SetGroup env g).g.Auth.lookup "type" = some (.str "local") ∨
          (SetGroup env g).g.Auth.lookup "type" = some (.str "radius")) ∧
      (g.Auth ≠ [] → g.Auth.lookup "type" ≠ some (.str "local") →
        g.Auth.lookup "type" ≠ some (.str "radius") →
        (SetGroup env g).err ≠ none ∧ (SetGroup env g).calls = [] ∧
          (SetGroup env g).g.Auth = g.Auth ∧
          ∀ ri re acl dns, g.Name ≠ "" →
            routeIncludeLoop g.RouteInclude [] = .ok ri →
            routeExcludeLoop g.RouteExclude [] = .ok re →
            linkAclLoop g.LinkAcl [] = .ok acl →
            clientDnsLoop g.ClientDns [] = some dns →
            ¬ (defaultRoute ri = true ∧ dns.length = 0) →
            ¬ (TrimSpace g.DsIncludeDomains ≠ "" ∧ TrimSpace g.DsExcludeDomains ≠ "") →
            CheckDomainNames (TrimSpace g.DsIncludeDomains) = none →
            CheckDomainNames (TrimSpace g.DsExcludeDomains) = none →
            (SetGroup env g).err = some (.unknownAuth (g.Auth.lookup "type"))) := by
  constructor
  · intro h
    obtain ⟨g1, hc, hg⟩ := SetGroup_ok h
    obtain ⟨ri, re, acl, dns, -, -, -, -, -, -, -, -, -, hauth⟩ := setGroupChecks_ok hc
    have hA : (SetGroup env g).g.Auth = g1.Auth := by rw [hg]
    rw [hA]
    rcases setGroupAuth_cases env (normalized g ri re acl dns) with ⟨-, h1⟩ | ⟨hl, h1⟩ | ⟨-, -, h1⟩
    · rw [hauth] at h1
      left
      rw [(Prod.mk.inj h1).1]
      exact defAuth_lookup
    · rw [hauth] at h1
      right
      rw [(Prod.mk.inj h1).1]
      exact hl
    · rw [hauth] at h1
      simp at h1
  · intro hne hl hr
    have key : ∀ ri re acl dns, setGroupAuth env (normalized g ri re acl dns) =
        (normalized g ri re acl dns, some (.unknownAuth (g.Auth.lookup "type"))) := by
      intro ri re acl dns
      have he : effectiveAuth (normalized g ri re acl dns) = g.Auth :=
        effectiveAuth_of_ne_nil (g := normalized g ri re acl dns) hne
      rcases setGroupAuth_cases env (normalized g ri re acl dns) with
        ⟨h0, -⟩ | ⟨h0, -⟩ | ⟨-, -, h1⟩
      · rw [he] at h0; exact absurd h0 hl
      · rw [he] at h0; exact absurd h0 hr
      · rw [h1, he]; rfl
    have ht := setGroupChecks_trace env g
    generalize hres : setGroupChecks env g = res at ht
    have hfin : ∃ g1 e, res = (g1, some e) ∧ g1.Auth = g.Auth := by
      cases ht with
      | auth ri re acl dns => exact ⟨_, _, key ri re acl dns, rfl⟩
      | _ => exact ⟨_, _, rfl, rfl⟩
    obtain ⟨g1, e, rfl, hA⟩ := hfin
    rw [SetGroup_of_checks_err hres]
    refine ⟨by simp, rfl, hA, ?_⟩
    intro ri re acl dns hname hri hre hacl hdns hreq hconf hinc hexc
    have hc := @setGroupChecks_eq_auth env g ri re acl dns hname hri hre hacl hdns hreq hconf
      hinc hexc
    rw [key, hres] at hc
    simp only [Prod.mk.injEq, Option.some.injEq] at hc
    rw [hc.2]

/-- Witness of C11 as amended: the sample record with the type `ldap` is rejected with
the error of the unknown type `ldap`, and its `Auth` is left as it was. -/
theorem SetGroup_auth_type_witness :
    (SetGroup sampleEnv ldapGroup).err = some (.unknownAuth (some (.str "ldap"))) ∧
      ((SetGroup sampleEnv ldapGroup).err ≠ none ∧ (SetGroup sampleEnv ldapGroup).calls = [] ∧
        (SetGroup sampleEnv ldapGroup).g.Auth = ldapGroup.Auth) ∧
      ((SetGroup sampleEnv sampleGroup).g.Auth.lookup "type" = some (.str "local") ∨
        (SetGroup sampleEnv sampleGroup).g.Auth.lookup "type" = some (.str "radius")) :=
  ⟨by decide,
    ⟨((SetGroup_auth_type sampleEnv ldapGroup).2 (by decide) (by decide) (by decide)).1,
      ((SetGroup_auth_type sampleEnv ldapGroup).2 (by decide) (by decide) (by decide)).2.1,
      ((SetGroup_auth_type sampleEnv ldapGroup).2 (by decide) (by decide) (by decide)).2.2.1⟩,
    (SetGroup_auth_type sampleEnv sampleGroup).1 (by decide)⟩

/-! ## `checkRadiusData` -/

/-- C12: for a radius configuration, as decoded from the value under
`radius`, whose address passes `ValidateIpPort`, `checkRadiusData` returns
no error exactly when the length of the secret in bytes is at least 8 and at
most 200, and returns the error of the secret length otherwise; when the
address does not pass `ValidateIpPort`, it returns the error of the address
whatever the secret is. -/
theorem checkRadiusData_secret (env : Env) (auth : AuthMap) (conf : AuthRadius)
    (hdec : env.jsonRadius (auth.lookup "radius") = some conf) :
    (ValidateIpPort conf.Addr = true →
        (checkRadiusData env auth = none ↔
          8 ≤ conf.Secret.utf8ByteSize ∧ conf.Secret.utf8ByteSize ≤ 200) ∧
        (¬ (8 ≤ conf.Secret.utf8ByteSize ∧ conf.Secret.utf8ByteSize ≤ 200) →
          checkRadiusData env auth = some .secretLength)) ∧
      (ValidateIpPort conf.Addr = false → checkRadiusData env auth = some .addr) := by
  unfold checkRadiusData
  rw [hdec]
  dsimp only
  constructor
  · intro hv
    simp only [hv, Bool.not_true, Bool.false_eq_true, if_false]
    by_cases hs : conf.Secret.utf8ByteSize < 8 ∨ conf.Secret.utf8ByteSize > 200
    · rw [if_pos hs]
      refine ⟨⟨fun h => by simp at h, fun h => by omega⟩, fun _ => rfl⟩
    · rw [if_neg hs]
      refine ⟨⟨fun _ => by omega, fun _ => rfl⟩, fun h => by omega⟩
  · intro hv
    simp [hv]

set_option maxRecDepth 100000 in
/-- Witness of C12: with the address `10.0.0.1:1812`, secrets of 7 and 201
bytes get the error of the secret length and secrets of 8 and 200 bytes are
accepted; with the address `10.0.0.1`, the error is that of the address. -/
theorem checkRadiusData_secret_witness :
    ValidateIpPort "10.0.0.1:1812" = true ∧
      checkRadiusData (decodedEnv ⟨"10.0.0.1:1812", secretOfLength 7⟩) [] =
        some .secretLength ∧
      checkRadiusData (decodedEnv ⟨"10.0.0.1:1812", secretOfLength 201⟩) [] =
        some .secretLength ∧
      (checkRadiusData (decodedEnv ⟨"10.0.0.1:1812", secretOfLength 8⟩) [] = none ↔
        8 ≤ (secretOfLength 8).utf8ByteSize ∧ (secretOfLength 8).utf8ByteSize ≤ 200) ∧
      checkRadiusData (decodedEnv ⟨"10.0.0.1:1812", secretOfLength 8⟩) [] = none ∧
      checkRadiusData (decodedEnv ⟨"10.0.0.1:1812", secretOfLength 200⟩) [] = none ∧
      checkRadiusData (decodedEnv ⟨"10.0.0.1", secretOfLength 8⟩) [] = some .addr :=
  ⟨by decide, by decide, by decide,
    ((checkRadiusData_secret (decodedEnv ⟨"10.0.0.1:1812", secretOfLength 8⟩) []
      ⟨"10.0.0.1:1812", secretOfLength 8⟩ rfl).1 (by decide)).1,
    by decide, by decide, by decide⟩

/-! ## The persistence layer and the clock -/

/-- C16: when a check of `SetGroup` fails, `SetGroup` calls neither `Set` nor
`Add` and returns the error of the check; when all checks pass, it makes
exactly one call, on the normalized record of the checks stamped with the
time of the clock: `Set` when `Id > 0` and `Add` otherwise, and the error it
returns is the result of that call. -/
theorem SetGroup_persistence (env : Env) (g : Group) :
    (∀ g1 e, setGroupChecks env g = (g1, some e) →
        (SetGroup env g).calls = [] ∧ (SetGroup env g).err = some e) ∧
      (∀ g1, setGroupChecks env g = (g1, none) →
        g1.Id = g.Id ∧
        (∃ ri re acl dns, routeIncludeLoop g.RouteInclude [] = .ok ri ∧
          routeExcludeLoop g.RouteExclude [] = .ok re ∧ linkAclLoop g.LinkAcl [] = .ok acl ∧
          clientDnsLoop g.ClientDns [] = some dns ∧
          g1 = { normalized g ri re acl dns with Auth := g1.Auth }) ∧
        (g.Id > 0 →
          (SetGroup env g).calls = [.set { g1 with UpdatedAt := env.now }] ∧
            (SetGroup env g).err = (env.Set { g1 with UpdatedAt := env.now }).map .db) ∧
        (¬ g.Id > 0 →
          (SetGroup env g).calls = [.add { g1 with UpdatedAt := env.now }] ∧
            (SetGroup env g).err = (env.Add { g1 with UpdatedAt := env.now }).map .db)) := by
  constructor
  · intro g1 e h
    rw [SetGroup_of_checks_err h]
    exact ⟨rfl, rfl⟩
  · intro g1 h
    obtain ⟨ri, re, acl, dns, -, hri, hre, hacl, hdns, -, -, -, -, hauth⟩ := setGroupChecks_ok h
    have hf := setGroupAuth_fields env (normalized g ri re acl dns)
    rw [hauth] at hf
    have hf1 : g1 = { normalized g ri re acl dns with Auth := g1.Auth } := hf
    have hid : g1.Id = g.Id := by rw [hf1]; rfl
    refine ⟨hid, ⟨ri, re, acl, dns, hri, hre, hacl, hdns, hf1⟩, ?_, ?_⟩
    · intro hpos
      rw [SetGroup_of_checks_ok h, if_pos (by rw [hid]; exact hpos)]
      exact ⟨rfl, rfl⟩
    · intro hpos
      rw [SetGroup_of_checks_ok h, if_neg (by rw [hid]; exact hpos)]
      exact ⟨rfl, rfl⟩

/-- Witness of C16: the sample record with `Id = 0` is passed once to `Add`;
the stored record with `Id = 5` is passed once to `Set`, whose error `locked`
is returned; the record with the type `ldap` reaches neither. -/
theorem SetGroup_persistence_witness :
    ((SetGroup radiusEnv ldapGroup).calls = [] ∧
        (SetGroup radiusEnv ldapGroup).err = some (.unknownAuth (some (.str "ldap")))) ∧
      ((SetGroup radiusEnv storedGroup).calls =
          [.set { (setGroupChecks radiusEnv storedGroup).1 with UpdatedAt := 100 }] ∧
        (SetGroup radiusEnv storedGroup).err = some (.db "locked")) ∧
      ((SetGroup radiusEnv sampleGroup).calls =
          [.add { (setGroupChecks radiusEnv sampleGroup).1 with UpdatedAt := 100 }] ∧
        (SetGroup radiusEnv sampleGroup).err = none) :=
  ⟨(SetGroup_persistence radiusEnv ldapGroup).1 (setGroupChecks radiusEnv ldapGroup).1 _
      (by decide),
    ((SetGroup_persistence radiusEnv storedGroup).2 _ (by decide)).2.2.1 (by decide),
    ((SetGroup_persistence radiusEnv sampleGroup).2 _ (by decide)).2.2.2 (by decide)⟩

/-- C17, as amended: on every successful save `SetGroup` sets `UpdatedAt` to
the time of the clock; the new value is greater than the value before the
call exactly when the time of the clock is later than that value, which
`SetGroup` does not check. -/
theorem SetGroup_updatedAt (env : Env) (g : Group) (h : (SetGroup env g).err = none) :
    (SetGroup env g).g.UpdatedAt = env.now ∧
      (g.UpdatedAt < (SetGroup env g).g.UpdatedAt ↔ g.UpdatedAt < env.now) := by
  obtain ⟨g1, -, hg⟩ := SetGroup_ok h
  have hu : (SetGroup env g).g.UpdatedAt = env.now := by rw [hg]
  exact ⟨hu, by rw [hu]⟩

/-- Witness of C17 as amended: the sample record, stamped at 0, is saved at
the time 100. -/
theorem SetGroup_updatedAt_witness :
    (SetGroup sampleEnv sampleGroup).err = none ∧
      (SetGroup sampleEnv sampleGroup).g.UpdatedAt = sampleEnv.now ∧
      (sampleGroup.UpdatedAt < (SetGroup sampleEnv sampleGroup).g.UpdatedAt ↔
        sampleGroup.UpdatedAt < sampleEnv.now) :=
  ⟨by decide, SetGroup_updatedAt sampleEnv sampleGroup (by decide)⟩

/-- C17 fails as stated: the stored record was stamped at the time 200; it is
saved with success when the clock shows 100, and its new `UpdatedAt` is 100,
which is not greater than 200. -/
theorem SetGroup_updatedAt_not_increasing :
    (SetGroup sampleEnv storedGroup).err = none ∧ storedGroup.UpdatedAt = 200 ∧
      (SetGroup sampleEnv storedGroup).g.UpdatedAt = 100 ∧
      ¬ storedGroup.UpdatedAt < (SetGroup sampleEnv storedGroup).g.UpdatedAt := by
  decide

/-! ## The order of the checks -/

theorem routeIncludeLoop_check (l : List ValData) :
    ∀ acc, (∀ e, routeIncludeLoop l acc = .error e → routeIncludeCheck l = some e) ∧
      (∀ r, routeIncludeLoop l acc = .ok r → routeIncludeCheck l = none) := by
  induction l with
  | nil => intro acc; simp [routeIncludeLoop, routeIncludeCheck]
  | cons v rest ih =>
    intro acc
    rw [routeIncludeLoop]
    unfold routeIncludeCheck at ih ⊢
    by_cases hv : v.Val = ""
    · simpa [List.filter, hv] using ih acc
    · by_cases ha : v.Val = All
      · simpa [List.filter, hv, ha] using ih (acc ++ [v])
      · cases hp : parseIpNet v.Val with
        | error e => simp [List.filter, hv, ha, hp, parseFailure]
        | ok p => simpa [List.filter, hv, ha, hp, parseFailure] using ih _

theorem routeExcludeLoop_check (l : List ValData) :
    ∀ acc, (∀ e, routeExcludeLoop l acc = .error e → routeExcludeCheck l = some e) ∧
      (∀ r, routeExcludeLoop l acc = .ok r → routeExcludeCheck l = none) := by
  induction l with
  | nil => intro acc; simp [routeExcludeLoop, routeExcludeCheck]
  | cons v rest ih =>
    intro acc
    rw [routeExcludeLoop]
    unfold routeExcludeCheck at ih ⊢
    by_cases hv : v.Val = ""
    · simpa [List.filter, hv] using ih acc
    · cases hp : parseIpNet v.Val with
      | error e => simp [List.filter, hv, hp, parseFailure]
      | ok p => simpa [List.filter, hv, hp, parseFailure] using ih _

theorem linkAclLoop_check (l : List GroupLinkAcl) :
    ∀ acc, (∀ e, linkAclLoop l acc = .error e → linkAclCheck l = some e) ∧
      (∀ r, linkAclLoop l acc = .ok r → linkAclCheck l = none) := by
  induction l with
  | nil => intro acc; simp [linkAclLoop, linkAclCheck]
  | cons v rest ih =>
    intro acc
    rw [linkAclLoop]
    unfold linkAclCheck at ih ⊢
    by_cases hv : v.Val = ""
    · simpa [List.filter, hv] using ih acc
    · cases hp : parseIpNet v.Val with
      | error e => simp [List.filter, hv, hp, parseFailure]
      | ok p => simpa [List.filter, hv, hp, parseFailure] using ih _

theorem clientDnsLoop_check (l : List ValData) :
    ∀ acc, (clientDnsLoop l acc = none → dnsSyntaxFails l = true) ∧
      (∀ r, clientDnsLoop l acc = some r → dnsSyntaxFails l = false) := by
  induction l with
  | nil => intro acc; simp [clientDnsLoop, dnsSyntaxFails]
  | cons v rest ih =>
    intro acc
    rw [clientDnsLoop]
    unfold dnsSyntaxFails at ih ⊢
    by_cases hv : v.Val = ""
    · simpa [hv] using ih acc
    · by_cases hs : IPString (ParseIP v.Val) = v.Val
      · simpa [hv, hs] using ih _
      · simp [hv, hs]

theorem authCheck_eq (env : Env) (g g1 : Group) (h : g1.Auth = g.Auth) :
    authCheck env g = (setGroupAuth env g1).2 := by
  have he : effectiveAuth g1 = effectiveAuth g := by unfold effectiveAuth; rw [h]
  unfold authCheck
  rcases setGroupAuth_cases env g1 with ⟨h0, h1⟩ | ⟨h0, h1⟩ | ⟨h0, h0', h1⟩
  · rw [h1, ← he, h0]
    rfl
  · rw [h1, ← he, h0]
    rfl
  · rw [h1, ← he]
    show _ = some _
    split
    · exact absurd (by assumption) h0
    · exact absurd (by assumption) h0'
    · rfl

theorem dnsRequiredFails_iff {g : Group} {ri dns : List ValData}
    (hri : routeIncludeLoop g.RouteInclude [] = .ok ri)
    (hdns : clientDnsLoop g.ClientDns [] = some dns) :
    dnsRequiredFails g = true ↔ defaultRoute ri = true ∧ dns.length = 0 := by
  obtain ⟨r1, e1, f1⟩ := routeIncludeLoop_ok _ _ _ hri
  obtain ⟨e2, -⟩ := clientDnsLoop_ok _ _ _ hdns
  simp only [List.nil_append] at e1 e2
  subst e1
  unfold dnsRequiredFails
  rw [Bool.and_eq_true, decide_eq_true_eq, defaultRoute_iff, defaultRoute_iff,
    forall₂_incl_default f1, ← e2, List.length_eq_zero]

/-- The error of the checks of `SetGroup` is the error of the earliest
failing check in the order of `checksInOrder`. -/
theorem setGroupChecks_firstFailure (env : Env) (g : Group) :
    (setGroupChecks env g).2 = firstFailure (checksInOrder env g) := by
  have ht := setGroupChecks_trace env g
  generalize setGroupChecks env g = res at ht
  unfold firstFailure checksInOrder
  cases ht with
  | name hname => simp [hname]
  | routeInclude e hname hri =>
    simp [hname, (routeIncludeLoop_check _ _).1 e hri]
  | routeExclude ri e hname hri hre =>
    simp [hname, (routeIncludeLoop_check _ _).2 ri hri, (routeExcludeLoop_check _ _).1 e hre]
  | linkAcl ri re e hname hri hre hacl =>
    simp [hname, (routeIncludeLoop_check _ _).2 ri hri, (routeExcludeLoop_check _ _).2 re hre,
      (linkAclLoop_check _ _).1 e hacl]
  | dnsIp ri re acl hname hri hre hacl hdns =>
    simp [hname, (routeIncludeLoop_check _ _).2 ri hri, (routeExcludeLoop_check _ _).2 re hre,
      (linkAclLoop_check _ _).2 acl hacl, (clientDnsLoop_check _ _).1 hdns]
  | dnsRequired ri re acl dns hname hri hre hacl hdns hreq =>
    simp [hname, (routeIncludeLoop_check _ _).2 ri hri, (routeExcludeLoop_check _ _).2 re hre,
      (linkAclLoop_check _ _).2 acl hacl, (clientDnsLoop_check _ _).2 dns hdns,
      (dnsRequiredFails_iff hri hdns).2 hreq]
  | domainConflict ri re acl dns hname hri hre hacl hdns hreq hconf =>
    have h6 : dnsRequiredFails g = false := by
      rw [← Bool.not_eq_true, dnsRequiredFails_iff hri hdns]; exact hreq
    simp [hname, (routeIncludeLoop_check _ _).2 ri hri, (routeExcludeLoop_check _ _).2 re hre,
      (linkAclLoop_check _ _).2 acl hacl, (clientDnsLoop_check _ _).2 dns hdns, h6, hconf.1,
      hconf.2]
  | includeDomains ri re acl dns e hname hri hre hacl hdns hreq hconf hinc =>
    have h6 : dnsRequiredFails g = false := by
      rw [← Bool.not_eq_true, dnsRequiredFails_iff hri hdns]; exact hreq
    rw [if_neg hconf]
    simp [hname, (routeIncludeLoop_check _ _).2 ri hri, (routeExcludeLoop_check _ _).2 re hre,
      (linkAclLoop_check _ _).2 acl hacl, (clientDnsLoop_check _ _).2 dns hdns, h6, hinc]
  | excludeDomains ri re acl dns e hname hri hre hacl hdns hreq hconf hinc hexc =>
    have h6 : dnsRequiredFails g = false := by
      rw [← Bool.not_eq_true, dnsRequiredFails_iff hri hdns]; exact hreq
    rw [if_neg hconf]
    simp [hname, (routeIncludeLoop_check _ _).2 ri hri, (routeExcludeLoop_check _ _).2 re hre,
      (linkAclLoop_check _ _).2 acl hacl, (clientDnsLoop_check _ _).2 dns hdns, h6, hinc, hexc]
  | auth ri re acl dns hname hri hre hacl hdns hreq hconf hinc hexc =>
    have h6 : dnsRequiredFails g = false := by
      rw [← Bool.not_eq_true, dnsRequiredFails_iff hri hdns]; exact hreq
    rw [if_neg hconf]
    have ha := authCheck_eq env g (normalized g ri re acl dns) rfl
    simp [hname, (routeIncludeLoop_check _ _).2 ri hri, (routeExcludeLoop_check _ _).2 re hre,
      (linkAclLoop_check _ _).2 acl hacl, (clientDnsLoop_check _ _).2 dns hdns, h6, hinc, hexc, ha]
    generalize (setGroupAuth env (normalized g ri re acl dns)).2 = o
    cases o <;> rfl

/-- C18: the error of the checks of `SetGroup` is the error of the earliest
failing check in the fixed order: empty name, route-include entries in list
order, route-exclude entries, rules, resolver syntax, resolver required for
a full tunnel, conflict of the domain fields, include-domain syntax,
exclude-domain syntax, authentication; when a check fails, `SetGroup`
returns that error, and every validation error that `SetGroup` returns is
that error. -/
theorem SetGroup_first_failure (env : Env) (g : Group) :
    (setGroupChecks env g).2 = firstFailure (checksInOrder env g) ∧
      (∀ e, firstFailure (checksInOrder env g) = some e → (SetGroup env g).err = some e) ∧
      (∀ e, (SetGroup env g).err = some e → (∀ m, e ≠ .db m) →
        firstFailure (checksInOrder env g) = some e) := by
  have hk := setGroupChecks_firstFailure env g
  refine ⟨hk, ?_, ?_⟩
  · intro e he
    rw [← hk] at he
    cases hc : setGroupChecks env g with
    | mk g1 o =>
      rw [hc] at he
      exact SetGroup_err_of_checks (by rw [hc]; exact congrArg _ he)
  · intro e he hdb
    rw [← hk]
    exact SetGroup_err_checks he hdb

/-- Witness of C18: the record with a malformed rule address and a malformed
resolver is rejected with the error of the rule; the record with an empty
route-include list and a single malformed resolver is rejected with the error
of the resolver syntax, not with the error that a resolver is required. -/
theorem SetGroup_first_failure_witness :
    (SetGroup sampleEnv badAclAndDnsGroup).err =
        some (.linkAcl ⟨"CIDR address", "10.0.0.0/33"⟩) ∧
      dnsSyntaxFails badAclAndDnsGroup.ClientDns = true ∧
      (SetGroup sampleEnv badDnsFullTunnelGroup).err = some .dnsIp ∧
      dnsRequiredFails { badDnsFullTunnelGroup with ClientDns := [] } = true :=
  ⟨(SetGroup_first_failure sampleEnv badAclAndDnsGroup).2.1 _ (by decide), by decide,
    (SetGroup_first_failure sampleEnv badDnsFullTunnelGroup).2.1 _ (by decide), by decide⟩

/-! ## Side effects of a rejected record -/

theorem setGroupAuth_err_auth (env : Env) (g : Group) (e : SetGroupError)
    (h : (setGroupAuth env g).2 = some e) : (setGroupAuth env g).1 = g := by
  have hne : g.Auth ≠ [] → effectiveAuth g = g.Auth := effectiveAuth_of_ne_nil
  have hnil : g.Auth = [] → (effectiveAuth g).lookup "type" = some (.str "local") := by
    intro h0
    unfold effectiveAuth
    rw [if_pos (by simp [h0])]
    exact defAuth_lookup
  rcases setGroupAuth_cases env g with ⟨-, h1⟩ | ⟨h0, h1⟩ | ⟨h0, -, h1⟩
  · rw [h1] at h; simp at h
  · rw [h1]
    by_cases hz : g.Auth = []
    · rw [hnil hz] at h0; simp at h0
    · show { g with Auth := effectiveAuth g } = g
      rw [hne hz]
  · rw [h1]
    by_cases hz : g.Auth = []
    · exact absurd (hnil hz) h0
    · show { g with Auth := effectiveAuth g } = g
      rw [hne hz]

/-- What a failed check of `SetGroup` leaves in the record: no field but the
four lists and the two domain fields is changed, and each of these is as it
was or is its normalized form. -/
theorem setGroupChecks_err_frame (env : Env) (g g1 : Group) (e : SetGroupError)
    (h : setGroupChecks env g = (g1, some e)) :
    g1.Id = g.Id ∧ g1.Name = g.Name ∧ g1.Note = g.Note ∧ g1.AllowLan = g.AllowLan ∧
      g1.Bandwidth = g.Bandwidth ∧ g1.Status = g.Status ∧ g1.CreatedAt = g.CreatedAt ∧
      g1.UpdatedAt = g.UpdatedAt ∧ g1.Auth = g.Auth ∧
      (g1.RouteInclude = g.RouteInclude ∨
        routeIncludeLoop g.RouteInclude [] = .ok g1.RouteInclude) ∧
      (g1.RouteExclude = g.RouteExclude ∨
        routeExcludeLoop g.RouteExclude [] = .ok g1.RouteExclude) ∧
      (g1.LinkAcl = g.LinkAcl ∨ linkAclLoop g.LinkAcl [] = .ok g1.LinkAcl) ∧
      (g1.ClientDns = g.ClientDns ∨ clientDnsLoop g.ClientDns [] = some g1.ClientDns) ∧
      (g1.DsIncludeDomains = g.DsIncludeDomains ∨
        g1.DsIncludeDomains = TrimSpace g.DsIncludeDomains) ∧
      (g1.DsExcludeDomains = g.DsExcludeDomains ∨
        g1.DsExcludeDomains = TrimSpace g.DsExcludeDomains) := by
  have ht := setGroupChecks_trace env g
  rw [h] at ht
  generalize hres : (g1, some e) = res at ht
  cases ht with
  | auth ri re acl dns hname hri hre hacl hdns hreq hconf hinc hexc =>
    have h2 : (setGroupAuth env (normalized g ri re acl dns)).2 = some e := by rw [← hres]
    have h1 := setGroupAuth_err_auth env _ e h2
    have hg : g1 = normalized g ri re acl dns := by
      rw [← h1, ← hres]
    subst hg
    exact ⟨rfl, rfl, rfl, rfl, rfl, rfl, rfl, rfl, rfl, Or.inr hri, Or.inr hre, Or.inr hacl,
      Or.inr hdns, Or.inr rfl, Or.inr rfl⟩
  | name _ =>
    obtain ⟨rfl, -⟩ := Prod.mk.inj hres
    simp
  | routeInclude _ _ _ =>
    obtain ⟨rfl, -⟩ := Prod.mk.inj hres
    simp
  | routeExclude ri _ _ hri _ =>
    obtain ⟨rfl, -⟩ := Prod.mk.inj hres
    simp [hri]
  | linkAcl ri re _ _ hri hre _ =>
    obtain ⟨rfl, -⟩ := Prod.mk.inj hres
    simp [hri, hre]
  | dnsIp ri re acl _ hri hre hacl _ =>
    obtain ⟨rfl, -⟩ := Prod.mk.inj hres
    simp [hri, hre, hacl]
  | dnsRequired ri re acl dns _ hri hre hacl _ _ =>
    obtain ⟨rfl, -⟩ := Prod.mk.inj hres
    simp [hri, hre, hacl]
  | domainConflict ri re acl dns _ hri hre hacl hdns _ _ =>
    obtain ⟨rfl, -⟩ := Prod.mk.inj hres
    simp [normalized, hri, hre, hacl, hdns]
  | includeDomains ri re acl dns _ _ hri hre hacl hdns _ _ _ =>
    obtain ⟨rfl, -⟩ := Prod.mk.inj hres
    simp [normalized, hri, hre, hacl, hdns]
  | excludeDomains ri re acl dns _ _ hri hre hacl hdns _ _ _ _ =>
    obtain ⟨rfl, -⟩ := Prod.mk.inj hres
    simp [normalized, hri, hre, hacl, hdns]

/-- C15 fails as stated: `SetGroup` rejects the record whose second resolver
is malformed with the error of the resolver syntax, and by then the
route-include list of the record has lost its empty entry and its route has
got its mask. -/
theorem SetGroup_error_changes_routes :
    (SetGroup sampleEnv badDnsGroup).err = some .dnsIp ∧
      badDnsGroup.RouteInclude = [⟨"", "", ""⟩, ⟨"10.1.2.3/24", "", ""⟩] ∧
      (SetGroup sampleEnv badDnsGroup).g.RouteInclude =
        [⟨"10.1.2.3/24", "10.1.2.3/255.255.255.0", ""⟩] ∧
      (SetGroup sampleEnv badDnsGroup).g ≠ badDnsGroup := by
  decide

/-! ## Masks supplied with the input -/

theorem routeExcludeLoop_masks {l l1 : List ValData} (h : List.Forall₂ SameEntry l l1) :
    ∀ acc, routeExcludeLoop l acc = routeExcludeLoop l1 acc := by
  induction h with
  | nil => intro acc; rfl
  | @cons a b l l1 hab _ ih =>
    intro acc
    obtain ⟨av, am, an⟩ := a
    obtain ⟨bv, bm, bn⟩ := b
    obtain ⟨hv, hn⟩ := hab
    dsimp only at hv hn
    subst hv hn
    rw [routeExcludeLoop, routeExcludeLoop]
    dsimp only
    split
    · split
      · rfl
      · exact ih _
    · exact ih acc

theorem routeIncludeLoop_masks {l l1 : List ValData} (h : List.Forall₂ SameEntry l l1) :
    ∀ acc acc1,
      List.Forall₂ (fun a b => SameEntry a b ∧ (a.Val ≠ All → a.IpMask = b.IpMask)) acc acc1 →
      (∃ e, routeIncludeLoop l acc = .error e ∧ routeIncludeLoop l1 acc1 = .error e) ∨
        ∃ r r1, routeIncludeLoop l acc = .ok r ∧ routeIncludeLoop l1 acc1 = .ok r1 ∧
          List.Forall₂ (fun a b => SameEntry a b ∧ (a.Val ≠ All → a.IpMask = b.IpMask)) r r1 := by
  induction h with
  | nil => intro acc acc1 hacc; exact Or.inr ⟨acc, acc1, rfl, rfl, hacc⟩
  | @cons a b l l1 hab _ ih =>
    intro acc acc1 hacc
    obtain ⟨av, am, an⟩ := a
    obtain ⟨bv, bm, bn⟩ := b
    obtain ⟨hv, hn⟩ := hab
    dsimp only at hv hn
    subst hv hn
    rw [routeIncludeLoop, routeIncludeLoop]
    dsimp only
    split
    · split
      next ha =>
        refine ih _ _ (List.rel_append hacc
          (List.Forall₂.cons ⟨⟨rfl, rfl⟩, fun hne => absurd ha hne⟩ List.Forall₂.nil))
      · split
        next e _ => exact Or.inl ⟨e, rfl, rfl⟩
        · exact ih _ _ (List.rel_append hacc
            (List.Forall₂.cons ⟨⟨rfl, rfl⟩, fun _ => rfl⟩ List.Forall₂.nil))
    · exact ih acc acc1 hacc

theorem routeIncludeCheck_masks {l l1 : List ValData} (h : List.Forall₂ SameEntry l l1) :
    routeIncludeCheck l = routeIncludeCheck l1 := by
  unfold routeIncludeCheck
  induction h with
  | nil => rfl
  | @cons a b l l1 hab _ ih =>
    obtain ⟨hv, hn⟩ := hab
    simp only [List.filter, ← hv]
    split
    · simp only [List.findSome?, ← hv]
      rw [ih]
    · exact ih

theorem routeExcludeCheck_masks {l l1 : List ValData} (h : List.Forall₂ SameEntry l l1) :
    routeExcludeCheck l = routeExcludeCheck l1 := by
  unfold routeExcludeCheck
  induction h with
  | nil => rfl
  | @cons a b l l1 hab _ ih =>
    obtain ⟨hv, hn⟩ := hab
    simp only [List.filter, ← hv]
    split
    · simp only [List.findSome?, ← hv]
      rw [ih]
    · exact ih

theorem defaultRoute_masks {l l1 : List ValData} (h : List.Forall₂ SameEntry l l1) :
    defaultRoute (l.filter (fun v => v.Val ≠ "")) =
      defaultRoute (l1.filter (fun v => v.Val ≠ "")) := by
  have hf : List.Forall₂ SameEntry (l.filter (fun v => v.Val ≠ ""))
      (l1.filter (fun v => v.Val ≠ "")) := by
    induction h with
    | nil => exact List.Forall₂.nil
    | @cons a b l l1 hab _ ih =>
      simp only [List.filter, ← hab.1]
      split
      · exact List.Forall₂.cons hab ih
      · exact ih
  generalize l.filter (fun v => v.Val ≠ "") = m at hf
  generalize l1.filter (fun v => v.Val ≠ "") = m1 at hf
  cases hf with
  | nil => rfl
  | cons hab ht =>
    cases ht with
    | nil => simp [defaultRoute, hab.1]
    | cons _ ht2 => simp [defaultRoute]

theorem checksInOrder_masks (env : Env) {g g1 : Group} (h : SameButMasks g g1) :
    checksInOrder env g = checksInOrder env g1 := by
  obtain ⟨hg, hi, he⟩ := h
  have e1 : g1.Name = g.Name := by rw [hg]
  have e2 : g1.LinkAcl = g.LinkAcl := by rw [hg]
  have e3 : g1.ClientDns = g.ClientDns := by rw [hg]
  have e4 : g1.DsIncludeDomains = g.DsIncludeDomains := by rw [hg]
  have e5 : g1.DsExcludeDomains = g.DsExcludeDomains := by rw [hg]
  have e6 : g1.Auth = g.Auth := by rw [hg]
  have e7 : authCheck env g1 = authCheck env g := by
    unfold authCheck effectiveAuth; rw [e6]
  unfold checksInOrder dnsRequiredFails
  rw [e1, e2, e3, e4, e5, e7, routeIncludeCheck_masks hi, routeExcludeCheck_masks he,
    defaultRoute_masks hi]

/-- C19, as amended: for two records that differ only in the `IpMask` fields
of their `RouteInclude` and `RouteExclude` entries, the checks of `SetGroup`
pass on both or fail on both with the same error; when they pass, the
resulting `RouteExclude` lists are identical, and the resulting
`RouteInclude` lists have the same entries with the same masks except for
the entries `all`, each of which keeps the mask that its input carried. -/
theorem SetGroup_masks_ignored (env : Env) (g g1 : Group) (h : SameButMasks g g1) :
    (setGroupChecks env g).2 = (setGroupChecks env g1).2 ∧
      ((setGroupChecks env g).2 = none →
        (setGroupChecks env g).1.RouteExclude = (setGroupChecks env g1).1.RouteExclude ∧
          List.Forall₂
            (fun a b => a.Val = b.Val ∧ a.Note = b.Note ∧ (a.Val ≠ All → a.IpMask = b.IpMask))
            (setGroupChecks env g).1.RouteInclude (setGroupChecks env g1).1.RouteInclude ∧
          List.Forall₂ (fun vi vo => vi.Val = All → vo = vi)
            (g.RouteInclude.filter (fun v => v.Val ≠ ""))
            (setGroupChecks env g).1.RouteInclude) := by
  have herr : (setGroupChecks env g).2 = (setGroupChecks env g1).2 := by
    rw [setGroupChecks_firstFailure, setGroupChecks_firstFailure, checksInOrder_masks env h]
  refine ⟨herr, ?_⟩
  intro hok
  have hok1 : (setGroupChecks env g1).2 = none := by rw [← herr]; exact hok
  obtain ⟨ri, re, acl, dns, -, hri, hre, -, -, -, -, -, -, hauth⟩ :=
    setGroupChecks_ok (show setGroupChecks env g = ((setGroupChecks env g).1, none) by
      rw [← hok])
  obtain ⟨ri1, re1, acl1, dns1, -, hri1, hre1, -, -, -, -, -, -, hauth1⟩ :=
    setGroupChecks_ok (show setGroupChecks env g1 = ((setGroupChecks env g1).1, none) by
      rw [← hok1])
  have hf := setGroupAuth_fields env (normalized g ri re acl dns)
  rw [hauth] at hf
  have hf1 := setGroupAuth_fields env (normalized g1 ri1 re1 acl1 dns1)
  rw [hauth1] at hf1
  have a1 : (setGroupChecks env g).1.RouteInclude = ri := by
    rw [show (setGroupChecks env g).1 = _ from hf]; rfl
  have a2 : (setGroupChecks env g).1.RouteExclude = re := by
    rw [show (setGroupChecks env g).1 = _ from hf]; rfl
  have b1 : (setGroupChecks env g1).1.RouteInclude = ri1 := by
    rw [show (setGroupChecks env g1).1 = _ from hf1]; rfl
  have b2 : (setGroupChecks env g1).1.RouteExclude = re1 := by
    rw [show (setGroupChecks env g1).1 = _ from hf1]; rfl
  rw [a1, a2, b1, b2]
  obtain ⟨-, hi, he⟩ := h
  refine ⟨?_, ?_, ?_⟩
  · rw [routeExcludeLoop_masks he, hre1] at hre
    exact (Except.ok.inj hre).symm
  · rcases routeIncludeLoop_masks hi [] [] List.Forall₂.nil with
      ⟨e, h1, -⟩ | ⟨r, r1, h1, h2, h3⟩
    · rw [hri] at h1; simp at h1
    · rw [hri] at h1
      rw [hri1] at h2
      rw [Except.ok.inj h1, Except.ok.inj h2]
      exact h3.imp (fun _ _ hab => ⟨hab.1.1, hab.1.2, hab.2⟩)
  · obtain ⟨r, e1, f1⟩ := routeIncludeLoop_ok _ _ _ hri
    simp only [List.nil_append] at e1
    subst e1
    exact f1.imp (fun _ _ hab => hab.2.2.1)

/-- Witness of C19 as amended: the sample record and the same record with
other masks in its route entries. -/
theorem SetGroup_masks_ignored_witness :
    SameButMasks sampleGroup
        { sampleGroup with
          RouteInclude := [⟨"all", "other", ""⟩, ⟨"", "x", "blank"⟩, ⟨"10.1.2.3/24", "y", "lan"⟩],
          RouteExclude := [⟨"", "z", ""⟩, ⟨"192.168.0.0/16", "", ""⟩] } ∧
      (setGroupChecks sampleEnv sampleGroup).2 =
        (setGroupChecks sampleEnv
          { sampleGroup with
            RouteInclude :=
              [⟨"all", "other", ""⟩, ⟨"", "x", "blank"⟩, ⟨"10.1.2.3/24", "y", "lan"⟩],
            RouteExclude := [⟨"", "z", ""⟩, ⟨"192.168.0.0/16", "", ""⟩] }).2 :=
  have hs : SameButMasks sampleGroup
      { sampleGroup with
        RouteInclude := [⟨"all", "other", ""⟩, ⟨"", "x", "blank"⟩, ⟨"10.1.2.3/24", "y", "lan"⟩],
        RouteExclude := [⟨"", "z", ""⟩, ⟨"192.168.0.0/16", "", ""⟩] } :=
    ⟨rfl,
      List.Forall₂.cons ⟨rfl, rfl⟩ (List.Forall₂.cons ⟨rfl, rfl⟩
        (List.Forall₂.cons ⟨rfl, rfl⟩ List.Forall₂.nil)),
      List.Forall₂.cons ⟨rfl, rfl⟩ (List.Forall₂.cons ⟨rfl, rfl⟩ List.Forall₂.nil)⟩
  ⟨hs, (SetGroup_masks_ignored sampleEnv sampleGroup _ hs).1⟩

/-- C19 fails as stated: two full-tunnel records that differ only in the mask
of the entry `all` are both accepted, and the resulting `RouteInclude` lists
differ: the entry `all` ends with the mask `255.0.0.0` that the first input
carried, not without a mask. -/
theorem SetGroup_all_keeps_mask :
    SameButMasks (allMaskGroup "255.0.0.0") (allMaskGroup "") ∧
      (SetGroup sampleEnv (allMaskGroup "255.0.0.0")).err = none ∧
      (SetGroup sampleEnv (allMaskGroup "")).err = none ∧
      (SetGroup sampleEnv (allMaskGroup "255.0.0.0")).g.RouteInclude =
        [⟨"all", "255.0.0.0", ""⟩] ∧
      (SetGroup sampleEnv (allMaskGroup "255.0.0.0")).g.RouteInclude ≠
        (SetGroup sampleEnv (allMaskGroup "")).g.RouteInclude :=
  ⟨⟨rfl, List.Forall₂.cons ⟨rfl, rfl⟩ List.Forall₂.nil,
      List.Forall₂.cons ⟨rfl, rfl⟩ (List.Forall₂.cons ⟨rfl, rfl⟩ List.Forall₂.nil)⟩,
    by decide, by decide, by decide, by decide⟩

/-! ## Running the checks again -/

theorem dropWhile_rdropWhile (p : Char → Bool) (l : List Char) :
    List.dropWhile p (List.rdropWhile p (List.dropWhile p l)) =
      List.rdropWhile p (List.dropWhile p l) := by
  have hh := List.head?_dropWhile_not p l
  obtain ⟨s, hs⟩ := List.rdropWhile_prefix (p := p) (l := List.dropWhile p l)
  cases ht : List.rdropWhile p (List.dropWhile p l) with
  | nil => rfl
  | cons x t =>
    rw [ht] at hs
    rw [← hs] at hh
    simp only [List.cons_append, List.head?_cons] at hh
    simp [List.dropWhile, hh]

theorem TrimSpace_idempotent (s : String) : TrimSpace (TrimSpace s) = TrimSpace s := by
  unfold TrimSpace
  apply String.ext
  show List.rdropWhile isSpace (List.dropWhile isSpace
      (List.rdropWhile isSpace (List.dropWhile isSpace s.data))) = _
  rw [dropWhile_rdropWhile, List.rdropWhile_idempotent]
  rfl

theorem routeIncludeLoop_fixed (l : List ValData)
    (h : ∀ v ∈ l, v.Val ≠ "" ∧ (v.Val ≠ All → ∃ n, parseIpNet v.Val = .ok (v.IpMask, n))) :
    ∀ acc, routeIncludeLoop l acc = .ok (acc ++ l) := by
  induction l with
  | nil => intro acc; simp [routeIncludeLoop]
  | cons v rest ih =>
    intro acc
    obtain ⟨h1, h2⟩ := h v (by simp)
    have ih2 := ih (fun w hw => h w (by simp [hw]))
    rw [routeIncludeLoop, if_pos h1]
    by_cases ha : v.Val = All
    · rw [if_pos ha, ih2]; simp
    · rw [if_neg ha]
      obtain ⟨n, hn⟩ := h2 ha
      rw [hn]
      dsimp only
      rw [ih2]
      simp

theorem routeExcludeLoop_fixed (l : List ValData)
    (h : ∀ v ∈ l, v.Val ≠ "" ∧ ∃ n, parseIpNet v.Val = .ok (v.IpMask, n)) :
    ∀ acc, routeExcludeLoop l acc = .ok (acc ++ l) := by
  induction l with
  | nil => intro acc; simp [routeExcludeLoop]
  | cons v rest ih =>
    intro acc
    obtain ⟨h1, n, hn⟩ := h v (by simp)
    have ih2 := ih (fun w hw => h w (by simp [hw]))
    rw [routeExcludeLoop, if_pos h1, hn]
    dsimp only
    rw [ih2]
    simp

theorem linkAclLoop_fixed (l : List GroupLinkAcl)
    (h : ∀ v ∈ l, v.Val ≠ "" ∧ ∃ m n, parseIpNet v.Val = .ok (m, n) ∧ v.IpNet = some n) :
    ∀ acc, linkAclLoop l acc = .ok (acc ++ l) := by
  induction l with
  | nil => intro acc; simp [linkAclLoop]
  | cons v rest ih =>
    intro acc
    obtain ⟨h1, m, n, hn, hv⟩ := h v (by simp)
    have ih2 := ih (fun w hw => h w (by simp [hw]))
    rw [linkAclLoop, if_pos h1, hn]
    dsimp only
    rw [← hv, ih2]
    simp

theorem clientDnsLoop_fixed (l : List ValData)
    (h : ∀ v ∈ l, v.Val ≠ "" ∧ IPString (ParseIP v.Val) = v.Val) :
    ∀ acc, clientDnsLoop l acc = some (acc ++ l) := by
  induction l with
  | nil => intro acc; simp [clientDnsLoop]
  | cons v rest ih =>
    intro acc
    obtain ⟨h1, h2⟩ := h v (by simp)
    have ih2 := ih (fun w hw => h w (by simp [hw]))
    rw [clientDnsLoop, if_pos h1]
    dsimp only
    rw [if_neg (by simpa using h2), ih2]
    simp

theorem forall₂_right {α β : Type} {R : α → β → Prop} {P : β → Prop} {l : List α}
    {r : List β} (h : List.Forall₂ R l r) (hp : ∀ a b, a ∈ l → R a b → P b) :
    ∀ b ∈ r, P b := by
  induction h with
  | nil => simp
  | @cons a b l r hab _ ih =>
    intro x hx
    rcases List.mem_cons.1 hx with rfl | hx
    · exact hp a x (by simp) hab
    · exact ih (fun a b ha hr => hp a b (by simp [ha]) hr) x hx

theorem setGroupAuth_idempotent (env : Env) (g g1 : Group)
    (h : setGroupAuth env g = (g1, none)) : setGroupAuth env g1 = (g1, none) := by
  have hne : (effectiveAuth g).length ≠ 0 := by
    unfold effectiveAuth
    split
    · decide
    · assumption
  rcases setGroupAuth_cases env g with ⟨-, h1⟩ | ⟨h0, h1⟩ | ⟨-, -, h1⟩
  · rw [h1] at h
    obtain ⟨rfl, -⟩ := Prod.mk.inj h
    exact setGroupAuth_local env _ (Or.inr defAuth_lookup)
  · rw [h1] at h
    obtain ⟨hg, hr⟩ := Prod.mk.inj h
    subst hg
    have he : effectiveAuth { g with Auth := effectiveAuth g } = effectiveAuth g := by
      show (if (effectiveAuth g).length = 0 then defAuth else effectiveAuth g) = _
      rw [if_neg hne]
    rcases setGroupAuth_cases env { g with Auth := effectiveAuth g } with
      ⟨k0, -⟩ | ⟨-, k1⟩ | ⟨-, k0, -⟩
    · rw [he, h0] at k0; simp at k0
    · rw [k1, he, hr]
    · rw [he] at k0; exact absurd h0 k0
  · rw [h1] at h
    simp at h

theorem setGroupAuth_updatedAt (env : Env) (g : Group) (t : Int) :
    setGroupAuth env { g with UpdatedAt := t } =
      ({ (setGroupAuth env g).1 with UpdatedAt := t }, (setGroupAuth env g).2) := by
  have he : effectiveAuth { g with UpdatedAt := t } = effectiveAuth g := rfl
  have hk := setGroupAuth_cases env { g with UpdatedAt := t }
  rw [he] at hk
  rcases setGroupAuth_cases env g with ⟨h0, h1⟩ | ⟨h0, h1⟩ | ⟨h0, h0', h1⟩
  · rcases hk with ⟨-, k1⟩ | ⟨k0, -⟩ | ⟨k0, -, -⟩
    · rw [h1, k1]
    · rw [h0] at k0; simp at k0
    · exact absurd h0 k0
  · rcases hk with ⟨k0, -⟩ | ⟨-, k1⟩ | ⟨-, k0, -⟩
    · rw [h0] at k0; simp at k0
    · rw [h1, k1]
    · exact absurd h0 k0
  · rcases hk with ⟨k0, -⟩ | ⟨k0, -⟩ | ⟨-, -, k1⟩
    · exact absurd k0 h0
    · exact absurd k0 h0'
    · rw [h1, k1]

/-- C20: when the checks of `SetGroup` pass on a record, they pass again on
the normalized record that they leave, whatever its `UpdatedAt` is, and they
leave every field of it as it is. -/
theorem setGroupChecks_idempotent (env : Env) (g g1 : Group)
    (h : setGroupChecks env g = (g1, none)) (t : Int) :
    setGroupChecks env { g1 with UpdatedAt := t } = ({ g1 with UpdatedAt := t }, none) := by
  obtain ⟨ri, re, acl, dns, hname, hri, hre, hacl, hdns, hreq, hconf, hinc, hexc, hauth⟩ :=
    setGroupChecks_ok h
  have hf := setGroupAuth_fields env (normalized g ri re acl dns)
  rw [hauth] at hf
  have hf1 : g1 = { normalized g ri re acl dns with Auth := g1.Auth } := hf
  obtain ⟨r1, e1, f1⟩ := routeIncludeLoop_ok _ _ _ hri
  obtain ⟨r2, e2, f2⟩ := routeExcludeLoop_ok _ _ _ hre
  obtain ⟨r3, e3, f3⟩ := linkAclLoop_ok _ _ _ hacl
  obtain ⟨e4, f4⟩ := clientDnsLoop_ok _ _ _ hdns
  simp only [List.nil_append] at e1 e2 e3 e4
  subst e1 e2 e3
  have k1 : routeIncludeLoop ri [] = .ok ri := by
    have := routeIncludeLoop_fixed ri (forall₂_right f1 (fun a b ha hr => by
      have hne : a.Val ≠ "" := by simpa using (List.mem_filter.1 ha).2
      refine ⟨by rw [hr.1]; exact hne, fun hb => ?_⟩
      obtain ⟨n, hn⟩ := hr.2.2.2 (by rw [← hr.1]; exact hb)
      exact ⟨n, by rw [hr.1]; exact hn⟩)) []
    simpa using this
  have k2 : routeExcludeLoop re [] = .ok re := by
    have := routeExcludeLoop_fixed re (forall₂_right f2 (fun a b ha hr => by
      have hne : a.Val ≠ "" := by simpa using (List.mem_filter.1 ha).2
      obtain ⟨n, hn⟩ := hr.2.2
      exact ⟨by rw [hr.1]; exact hne, n, by rw [hr.1]; exact hn⟩)) []
    simpa using this
  have k3 : linkAclLoop acl [] = .ok acl := by
    have := linkAclLoop_fixed acl (forall₂_right f3 (fun a b ha hr => by
      have hne : a.Val ≠ "" := by simpa using (List.mem_filter.1 ha).2
      obtain ⟨m, n, hn, hb⟩ := hr.2.2.2.2
      exact ⟨by rw [hr.2.1]; exact hne, m, n, by rw [hr.2.1]; exact hn, hb⟩)) []
    simpa using this
  have k4 : clientDnsLoop dns [] = some dns := by
    have := clientDnsLoop_fixed dns (fun v hv => by
      rw [e4] at hv
      have hm := List.mem_filter.1 hv
      have hne : v.Val ≠ "" := by simpa using hm.2
      exact ⟨hne, f4 v hm.1 hne⟩) []
    simpa using this
  have hN : normalized { g1 with UpdatedAt := t } ri re acl dns = { g1 with UpdatedAt := t } := by
    rw [hf1]
    simp [normalized, TrimSpace_idempotent]
  have hc := @setGroupChecks_eq_auth env { g1 with UpdatedAt := t } ri re acl dns
    (by rw [hf1]; exact hname) (by rw [hf1]; exact k1) (by rw [hf1]; exact k2)
    (by rw [hf1]; exact k3) (by rw [hf1]; exact k4) hreq
    (by rw [hf1]; simpa [normalized, TrimSpace_idempotent] using hconf)
    (by rw [hf1]; simpa [normalized, TrimSpace_idempotent] using hinc)
    (by rw [hf1]; simpa [normalized, TrimSpace_idempotent] using hexc)
  rw [hc, hN, setGroupAuth_updatedAt, setGroupAuth_idempotent env _ g1 hauth]

/-- Witness of C20: the checks pass on the sample record, and pass again on
the record that `SetGroup` leaves, which they leave as it is. -/
theorem setGroupChecks_idempotent_witness :
    (SetGroup sampleEnv sampleGroup).err = none ∧
      (SetGroup sampleEnv sampleGroup).g =
        { (setGroupChecks sampleEnv sampleGroup).1 with UpdatedAt := 100 } ∧
      setGroupChecks sampleEnv { (setGroupChecks sampleEnv sampleGroup).1 with UpdatedAt := 100 } =
        ({ (setGroupChecks sampleEnv sampleGroup).1 with UpdatedAt := 100 }, none) :=
  ⟨by decide, by decide,
    setGroupChecks_idempotent sampleEnv sampleGroup _ (by decide) 100⟩

/-! ## `ValidateIpPort` -/

/-- C13, the code at the failing input: the octets of `10.0.0.1` are in
0..255 and the port 60006 is in 0..65535, written in plain decimal, yet
`ValidateIpPort` rejects `10.0.0.1:60006`; so it does 65499, while 65535 is
accepted. -/
theorem ValidateIpPort_rejects_port_60006 :
    ValidateIpPort "10.0.0.1:60006" = false ∧ ValidateIpPort "10.0.0.1:65499" = false ∧
      ValidateIpPort "10.0.0.1:65535" = true ∧ ValidateIpPort "10.0.0.1:59999" = true := by
  decide

theorem toRE_alt (a b : Regexp) : (Regexp.alt a b).toRE = a.toRE + b.toRE := rfl

theorem digit_of_range (c lo hi : Char) (h : c ∈ charRange lo hi) (hlo : 48 ≤ lo.toNat)
    (hhi : hi.toNat ≤ 57) :
    isDigit c = true ∧ lo.toNat - 48 ≤ digitVal c ∧ digitVal c ≤ hi.toNat - 48 := by
  rw [mem_charRange _ _ _ (by omega)] at h
  unfold isDigit digitVal
  simp only [Bool.and_eq_true, decide_eq_true_eq]
  omega

theorem decimalValue_lt (l : List Char) (h : ∀ c ∈ l, isDigit c = true) :
    ∀ n, l.foldl (fun n c => n * 10 + digitVal c) n < (n + 1) * 10 ^ l.length := by
  induction l with
  | nil => intro n; simp
  | cons c rest ih =>
    intro n
    have hc := h c (by simp)
    have hd : digitVal c ≤ 9 := by
      unfold isDigit at hc
      unfold digitVal
      simp only [Bool.and_eq_true, decide_eq_true_eq] at hc
      omega
    have := ih (fun x hx => h x (by simp [hx])) (n * 10 + digitVal c)
    simp only [List.foldl_cons, List.length_cons]
    calc _ < (n * 10 + digitVal c + 1) * 10 ^ rest.length := this
      _ ≤ (n * 10 + 10) * 10 ^ rest.length := Nat.mul_le_mul_right _ (by omega)
      _ = (n + 1) * 10 ^ (rest.length + 1) := by ring

theorem decimalValue_rep (x : List Char) (k : Nat) (h : ∀ c ∈ x, isDigit c = true)
    (hk : x.length ≤ k) : decimalValue x < 10 ^ k := by
  have h1 := decimalValue_lt x h 0
  have h2 : 10 ^ x.length ≤ 10 ^ k := Nat.pow_le_pow_right (by omega) hk
  unfold decimalValue
  omega

theorem mem_clsDigit (c : Char) (h : c ∈ clsDigit) : isDigit c = true ∧ digitVal c ≤ 9 := by
  have := digit_of_range c '0' '9' h (by decide) (by decide)
  exact ⟨this.1, this.2.2⟩

theorem mem_octet (x : List Char) (h : x ∈ octetRegExp.toRE.matches') : IsOctetText x := by
  unfold octetRegExp at h
  simp only [toRE_alt, toRE_cat, matches'_add, matches'_mul, Language.mem_add, Language.mem_mul,
    mem_cls, mem_chr, mem_rep_cls _ 1 2 (by omega)] at h
  rcases h with ⟨h1, h2, h3⟩ | ⟨a, rfl, b, ⟨c, ⟨c1, hc1, rfl⟩, d, ⟨c2, hc2, rfl⟩, rfl⟩, rfl⟩ |
    ⟨a, rfl, b, ⟨c, ⟨c1, hc1, rfl⟩, d, ⟨c2, hc2, rfl⟩, rfl⟩, rfl⟩ |
    ⟨a, rfl, b, ⟨c, rfl, d, ⟨c2, hc2, rfl⟩, rfl⟩, rfl⟩
  · have hd : ∀ c ∈ x, isDigit c = true := fun c hc => (mem_clsDigit c (h3 c hc)).1
    have := decimalValue_rep x 2 hd h2
    exact ⟨h1, by omega, hd, by omega⟩
  · have d1 := mem_clsDigit c1 hc1
    have d2 := mem_clsDigit c2 hc2
    refine ⟨by simp, by simp, ?_, ?_⟩
    · intro c hc
      simp only [List.cons_append, List.nil_append, List.mem_cons, List.mem_singleton,
        List.not_mem_nil, or_false] at hc
      rcases hc with rfl | rfl | rfl
      · decide
      · exact d1.1
      · exact d2.1
    · have e1 : digitVal '1' = 1 := by decide
      simp only [decimalValue, List.cons_append, List.nil_append, List.foldl_cons,
        List.foldl_nil, e1]
      omega
  · have d1 := digit_of_range c1 '0' '4' hc1 (by decide) (by decide)
    have d2 := mem_clsDigit c2 hc2
    have k1 : digitVal c1 ≤ 4 := d1.2.2
    refine ⟨by simp, by simp, ?_, ?_⟩
    · intro c hc
      simp only [List.cons_append, List.nil_append, List.mem_cons, List.mem_singleton,
        List.not_mem_nil, or_false] at hc
      rcases hc with rfl | rfl | rfl
      · decide
      · exact d1.1
      · exact d2.1
    · have e1 : digitVal '2' = 2 := by decide
      simp only [decimalValue, List.cons_append, List.nil_append, List.foldl_cons,
        List.foldl_nil, e1]
      omega
  · have d2 := digit_of_range c2 '0' '5' hc2 (by decide) (by decide)
    have k2 : digitVal c2 ≤ 5 := d2.2.2
    refine ⟨by simp, by simp, ?_, ?_⟩
    · intro c hc
      simp only [List.cons_append, List.nil_append, List.mem_cons, List.mem_singleton,
        List.not_mem_nil, or_false] at hc
      rcases hc with rfl | rfl | rfl
      · decide
      · decide
      · exact d2.1
    · have e1 : digitVal '2' = 2 := by decide
      have e2 : digitVal '5' = 5 := by decide
      simp only [decimalValue, List.cons_append, List.nil_append, List.foldl_cons,
        List.foldl_nil, e1, e2]
      omega

theorem decimalValue_cons_lt (c : Char) (r : List Char) (hr : ∀ x ∈ r, isDigit x = true)
    (d k : Nat) (hd : digitVal c ≤ d) (hk : r.length ≤ k) :
    decimalValue (c :: r) < (d + 1) * 10 ^ k := by
  have h1 := decimalValue_lt r hr (0 * 10 + digitVal c)
  have h2 : 10 ^ r.length ≤ 10 ^ k := Nat.pow_le_pow_right (by omega) hk
  have h3 : (0 * 10 + digitVal c + 1) * 10 ^ r.length ≤ (d + 1) * 10 ^ k :=
    Nat.mul_le_mul (by omega) h2
  unfold decimalValue
  rw [List.foldl_cons]
  omega

theorem mem_port (x : List Char) (h : x ∈ portRegExp.toRE.matches') : IsPortText x := by
  unfold portRegExp at h
  simp only [toRE_alt, toRE_cat, matches'_add, matches'_mul, Language.mem_add, Language.mem_mul,
    mem_cls, mem_chr, mem_rep_cls _ 1 3 (by omega), mem_rep_cls _ 4 4 (by omega),
    mem_rep_cls _ 2 2 (by omega)] at h
  rcases h with ⟨c, hc, rfl⟩ | ⟨a, ⟨c1, hc1, rfl⟩, r, ⟨hr1, hr2, hr3⟩, rfl⟩ |
    ⟨a, ⟨c1, hc1, rfl⟩, r, ⟨hr1, hr2, hr3⟩, rfl⟩ |
    ⟨a, rfl, b, ⟨r, ⟨hr1, hr2, hr3⟩, t, ⟨u, ⟨c3, hc3, rfl⟩, v, ⟨c4, hc4, rfl⟩, rfl⟩, rfl⟩, rfl⟩
  · have d := mem_clsDigit c hc
    refine ⟨by simp, by simp, by simpa using d.1, ?_⟩
    simp only [decimalValue, List.foldl_cons, List.foldl_nil]
    omega
  · have d1 := digit_of_range c1 '1' '9' hc1 (by decide) (by decide)
    have hd : ∀ c ∈ r, isDigit c = true := fun c hc => (mem_clsDigit c (hr3 c hc)).1
    have hv := decimalValue_cons_lt c1 r hd 9 3 d1.2.2 hr2
    refine ⟨by simp, by simp; omega, ?_, by simp only [List.singleton_append]; omega⟩
    intro c hc
    rcases List.mem_append.1 hc with hc | hc
    · rw [List.mem_singleton.1 hc]; exact d1.1
    · exact hd c hc
  · have d1 := digit_of_range c1 '1' '5' hc1 (by decide) (by decide)
    have hd : ∀ c ∈ r, isDigit c = true := fun c hc => (mem_clsDigit c (hr3 c hc)).1
    have hv := decimalValue_cons_lt c1 r hd 5 4 d1.2.2 hr2
    refine ⟨by simp, by simp; omega, ?_, by simp only [List.singleton_append]; omega⟩
    intro c hc
    rcases List.mem_append.1 hc with hc | hc
    · rw [List.mem_singleton.1 hc]; exact d1.1
    · exact hd c hc
  · match r, hr1, hr2, hr3 with
    | [p, q], _, _, hr3 =>
      have dp := digit_of_range p '0' '5' (hr3 p (by simp)) (by decide) (by decide)
      have dq := digit_of_range q '0' '5' (hr3 q (by simp)) (by decide) (by decide)
      have d3 := digit_of_range c3 '0' '3' hc3 (by decide) (by decide)
      have d4 := digit_of_range c4 '0' '5' hc4 (by decide) (by decide)
      have kp : digitVal p ≤ 5 := dp.2.2
      have kq : digitVal q ≤ 5 := dq.2.2
      have k3 : digitVal c3 ≤ 3 := d3.2.2
      have k4 : digitVal c4 ≤ 5 := d4.2.2
      refine ⟨by simp, by simp, ?_, ?_⟩
      · intro c hc
        simp only [List.cons_append, List.nil_append, List.mem_cons, List.mem_singleton,
          List.not_mem_nil, or_false] at hc
        rcases hc with rfl | rfl | rfl | rfl | rfl
        · decide
        · exact dp.1
        · exact dq.1
        · exact d3.1
        · exact d4.1
      · have e1 : digitVal '6' = 6 := by decide
        simp only [decimalValue, List.cons_append, List.nil_append, List.foldl_cons,
          List.foldl_nil, e1]
        omega

/-- C14: every text that `ValidateIpPort` accepts is four octets separated
by dots, a colon and a port, with nothing before or after, where each octet
is 1 to 3 ASCII digits with a value of at most 255 and the port is 1 to 5
ASCII digits with a value of at most 65535. -/
theorem ValidateIpPort_shape (s : String) (h : ValidateIpPort s = true) :
    ∃ o1 o2 o3 o4 p,
      s.data = o1 ++ '.' :: (o2 ++ '.' :: (o3 ++ '.' :: (o4 ++ ':' :: p))) ∧
        IsOctetText o1 ∧ IsOctetText o2 ∧ IsOctetText o3 ∧ IsOctetText o4 ∧ IsPortText p := by
  unfold ValidateIpPort Regexp.MatchString at h
  rw [rmatch_iff_matches'] at h
  unfold ipPortRegExp at h
  simp only [toRE_cat, matches'_mul, Language.mem_mul, mem_chr] at h
  obtain ⟨o1, h1, r1, ⟨d1, rfl, r2, ⟨o2, h2, r3, ⟨d2, rfl, r4, ⟨o3, h3, r5, ⟨d3, rfl, r6,
    ⟨o4, h4, r7, ⟨d4, rfl, p, hp, rfl⟩, rfl⟩, rfl⟩, rfl⟩, rfl⟩, rfl⟩, rfl⟩, hs⟩ := h
  exact ⟨o1, o2, o3, o4, p, by rw [← hs]; simp, mem_octet o1 h1, mem_octet o2 h2,
    mem_octet o3 h3, mem_octet o4 h4, mem_port p hp⟩

/-- Witness of C14 on the address of the examples of the specification. -/
theorem ValidateIpPort_shape_witness :
    ValidateIpPort "10.0.0.1:1812" = true ∧
      ∃ o1 o2 o3 o4 p,
        "10.0.0.1:1812".data = o1 ++ '.' :: (o2 ++ '.' :: (o3 ++ '.' :: (o4 ++ ':' :: p))) ∧
          IsOctetText o1 ∧ IsOctetText o2 ∧ IsOctetText o3 ∧ IsOctetText o4 ∧ IsPortText p :=
  ⟨by decide, ValidateIpPort_shape "10.0.0.1:1812" (by decide)⟩

/-! ## An unknown type after an earlier failure, and the fields of a rejected record -/

/-- C11 fails as stated: the record with the unknown authentication type
`ldap` and an empty name has a non-empty `Auth` whose type is neither `local`
nor `radius`, and `SetGroup` rejects it with the error of the name, not with
the error of the unknown authentication type. -/
theorem SetGroup_unknown_auth_name_error :
    namelessLdapGroup.Auth ≠ [] ∧
      namelessLdapGroup.Auth.lookup "type" = some (.str "ldap") ∧
      namelessLdapGroup.Auth.lookup "type" ≠ some (.str "local") ∧
      namelessLdapGroup.Auth.lookup "type" ≠ some (.str "radius") ∧
      (SetGroup sampleEnv namelessLdapGroup).err = some .name ∧
      (SetGroup sampleEnv namelessLdapGroup).err ≠
        some (.unknownAuth (namelessLdapGroup.Auth.lookup "type")) := by
  decide

theorem setGroupAuth_err_stage (env : Env) (g : Group) (e : SetGroupError)
    (h : (setGroupAuth env g).2 = some e) : failedStage e = 6 := by
  rcases setGroupAuth_cases env g with ⟨-, h1⟩ | ⟨-, h1⟩ | ⟨-, -, h1⟩
  · rw [h1] at h; simp at h
  · rw [h1] at h
    cases hr : checkRadiusData env (effectiveAuth g) with
    | none => rw [hr] at h; simp at h
    | some r =>
      rw [hr] at h
      simp only [Option.map_some', Option.some.injEq] at h
      rw [← h]; rfl
  · rw [h1] at h
    simp only [Option.some.injEq] at h
    rw [← h]; rfl

/-- What a failed check of `SetGroup` has written to the record: the
normalized form of each list whose stage came before the failing check, and
nothing else. -/
theorem setGroupChecks_err_stages (env : Env) (g g1 : Group) (e : SetGroupError)
    (h : setGroupChecks env g = (g1, some e)) :
    (failedStage e ≤ 1 → g1.RouteInclude = g.RouteInclude) ∧
      (1 < failedStage e → routeIncludeLoop g.RouteInclude [] = .ok g1.RouteInclude) ∧
      (failedStage e ≤ 2 → g1.RouteExclude = g.RouteExclude) ∧
      (2 < failedStage e → routeExcludeLoop g.RouteExclude [] = .ok g1.RouteExclude) ∧
      (failedStage e ≤ 3 → g1.LinkAcl = g.LinkAcl) ∧
      (3 < failedStage e → linkAclLoop g.LinkAcl [] = .ok g1.LinkAcl) ∧
      (failedStage e ≤ 4 → g1.ClientDns = g.ClientDns ∧
        g1.DsIncludeDomains = g.DsIncludeDomains ∧
        g1.DsExcludeDomains = g.DsExcludeDomains) ∧
      (4 < failedStage e → clientDnsLoop g.ClientDns [] = some g1.ClientDns ∧
        g1.DsIncludeDomains = TrimSpace g.DsIncludeDomains ∧
        g1.DsExcludeDomains = TrimSpace g.DsExcludeDomains) ∧
      failedStage e ≤ 6 := by
  have ht := setGroupChecks_trace env g
  rw [h] at ht
  generalize hres : (g1, some e) = res at ht
  cases ht with
  | auth ri re acl dns hname hri hre hacl hdns hreq hconf hinc hexc =>
    have h2 : (setGroupAuth env (normalized g ri re acl dns)).2 = some e := by rw [← hres]
    have h1 := setGroupAuth_err_auth env _ e h2
    have hs := setGroupAuth_err_stage env _ e h2
    have hg : g1 = normalized g ri re acl dns := by
      rw [← h1, ← hres]
    subst hg
    rw [hs]
    exact ⟨fun h => absurd h (by omega), fun _ => hri, fun h => absurd h (by omega),
      fun _ => hre, fun h => absurd h (by omega), fun _ => hacl, fun h => absurd h (by omega),
      fun _ => ⟨hdns, rfl, rfl⟩, by omega⟩
  | name _ =>
    obtain ⟨rfl, he⟩ := Prod.mk.inj hres
    obtain rfl := Option.some.inj he
    simp [failedStage]
  | routeInclude _ _ _ =>
    obtain ⟨rfl, he⟩ := Prod.mk.inj hres
    obtain rfl := Option.some.inj he
    simp [failedStage]
  | routeExclude ri _ _ hri _ =>
    obtain ⟨rfl, he⟩ := Prod.mk.inj hres
    obtain rfl := Option.some.inj he
    simp [failedStage, hri]
  | linkAcl ri re _ _ hri hre _ =>
    obtain ⟨rfl, he⟩ := Prod.mk.inj hres
    obtain rfl := Option.some.inj he
    simp [failedStage, hri, hre]
  | dnsIp ri re acl _ hri hre hacl _ =>
    obtain ⟨rfl, he⟩ := Prod.mk.inj hres
    obtain rfl := Option.some.inj he
    simp [failedStage, hri, hre, hacl]
  | dnsRequired ri re acl dns _ hri hre hacl _ _ =>
    obtain ⟨rfl, he⟩ := Prod.mk.inj hres
    obtain rfl := Option.some.inj he
    simp [failedStage, hri, hre, hacl]
  | domainConflict ri re acl dns _ hri hre hacl hdns _ _ =>
    obtain ⟨rfl, he⟩ := Prod.mk.inj hres
    obtain rfl := Option.some.inj he
    simp [failedStage, normalized, hri, hre, hacl, hdns]
  | includeDomains ri re acl dns _ _ hri hre hacl hdns _ _ _ =>
    obtain ⟨rfl, he⟩ := Prod.mk.inj hres
    obtain rfl := Option.some.inj he
    simp [failedStage, normalized, hri, hre, hacl, hdns]
  | excludeDomains ri re acl dns _ _ hri hre hacl hdns _ _ _ _ =>
    obtain ⟨rfl, he⟩ := Prod.mk.inj hres
    obtain rfl := Option.some.inj he
    simp [failedStage, normalized, hri, hre, hacl, hdns]

/-- C15, as amended: when `SetGroup` returns a validation error, nothing is
persisted, and `Id`, `Name`, `Note`, `AllowLan`, `Bandwidth`, `Status`,
`Auth`, `CreatedAt` and `UpdatedAt` of the record are as before the call;
`RouteInclude` is as before the call when the failing check is that of the
name or of the route-include list and is its normalized form for every later
failing check; `RouteExclude` is as before up to a failing check of the
route-exclude list and normalized after it; `LinkAcl` is as before up to a
failing check of the rule list and normalized after it; `ClientDns` and the
two domain fields are as before up to a failing check of the resolvers and
are the normalized list and the trimmed texts for a failing check of the
domain fields or of the authentication. -/
theorem SetGroup_error_side_effects (env : Env) (g : Group) (e : SetGroupError)
    (h : (SetGroup env g).err = some e) (hv : ∀ m, e ≠ .db m) :
    (SetGroup env g).calls = [] ∧
      ((SetGroup env g).g.Id = g.Id ∧ (SetGroup env g).g.Name = g.Name ∧
        (SetGroup env g).g.Note = g.Note ∧ (SetGroup env g).g.AllowLan = g.AllowLan ∧
        (SetGroup env g).g.Bandwidth = g.Bandwidth ∧ (SetGroup env g).g.Status = g.Status ∧
        (SetGroup env g).g.CreatedAt = g.CreatedAt ∧
        (SetGroup env g).g.UpdatedAt = g.UpdatedAt ∧ (SetGroup env g).g.Auth = g.Auth) ∧
      (failedStage e ≤ 1 → (SetGroup env g).g.RouteInclude = g.RouteInclude) ∧
      (1 < failedStage e →
        routeIncludeLoop g.RouteInclude [] = .ok (SetGroup env g).g.RouteInclude) ∧
      (failedStage e ≤ 2 → (SetGroup env g).g.RouteExclude = g.RouteExclude) ∧
      (2 < failedStage e →
        routeExcludeLoop g.RouteExclude [] = .ok (SetGroup env g).g.RouteExclude) ∧
      (failedStage e ≤ 3 → (SetGroup env g).g.LinkAcl = g.LinkAcl) ∧
      (3 < failedStage e → linkAclLoop g.LinkAcl [] = .ok (SetGroup env g).g.LinkAcl) ∧
      (failedStage e ≤ 4 → (SetGroup env g).g.ClientDns = g.ClientDns ∧
        (SetGroup env g).g.DsIncludeDomains = g.DsIncludeDomains ∧
        (SetGroup env g).g.DsExcludeDomains = g.DsExcludeDomains) ∧
      (4 < failedStage e →
        clientDnsLoop g.ClientDns [] = some (SetGroup env g).g.ClientDns ∧
        (SetGroup env g).g.DsIncludeDomains = TrimSpace g.DsIncludeDomains ∧
        (SetGroup env g).g.DsExcludeDomains = TrimSpace g.DsExcludeDomains) ∧
      failedStage e ≤ 6 := by
  have hc := SetGroup_err_checks h hv
  cases hres : setGroupChecks env g with
  | mk g1 o =>
    rw [hres] at hc
    have hc2 : setGroupChecks env g = (g1, some e) := by rw [hres]; exact congrArg _ hc
    rw [SetGroup_of_checks_err hc2]
    obtain ⟨f1, f2, f3, f4, f5, f6, f7, f8, f9, -⟩ := setGroupChecks_err_frame env g g1 e hc2
    exact ⟨rfl, ⟨f1, f2, f3, f4, f5, f6, f7, f8, f9⟩, setGroupChecks_err_stages env g g1 e hc2⟩

/-- Witness of C15 as amended, on the record whose second resolver is
malformed: the failing check is that of the resolvers, so the route-include
list is already normalized and the resolver list is as before the call. -/
theorem SetGroup_error_side_effects_witness :
    (SetGroup sampleEnv badDnsGroup).err = some .dnsIp ∧
      (SetGroup sampleEnv badDnsGroup).calls = [] ∧
      routeIncludeLoop badDnsGroup.RouteInclude [] =
        .ok (SetGroup sampleEnv badDnsGroup).g.RouteInclude ∧
      (SetGroup sampleEnv badDnsGroup).g.RouteInclude =
        [⟨"10.1.2.3/24", "10.1.2.3/255.255.255.0", ""⟩] ∧
      ((SetGroup sampleEnv badDnsGroup).g.ClientDns = badDnsGroup.ClientDns ∧
        (SetGroup sampleEnv badDnsGroup).g.DsIncludeDomains = badDnsGroup.DsIncludeDomains ∧
        (SetGroup sampleEnv badDnsGroup).g.DsExcludeDomains = badDnsGroup.DsExcludeDomains) :=
  ⟨by decide,
    (SetGroup_error_side_effects sampleEnv badDnsGroup .dnsIp (by decide) (by simp)).1,
    (SetGroup_error_side_effects sampleEnv badDnsGroup .dnsIp (by decide)
      (by simp)).2.2.2.1 (by decide),
    by decide,
    (SetGroup_error_side_effects sampleEnv badDnsGroup .dnsIp (by decide)
      (by simp)).2.2.2.2.2.2.2.2.1 (by decide)⟩

end Anylink
